import Mathlib

/-!
# go-e-shop: the order transaction, the cart service, accounts and tokens, listings

A shallow embedding of `internal/repositories/order_repository.go`,
`internal/repositories/cart_repository.go`, `internal/repositories/user_repository.go`,
`internal/repositories/product_repository.go`, `internal/services/cart_service.go`,
`internal/services/order_service.go`, `internal/services/auth_servie.go`,
`internal/services/product_service.go`, and of the handlers of
`internal/server/cart_handlers.go` and `internal/server/auth_handlers.go` that
the properties below need.

The relational store is a record of tables; every repository call is a function
on that record.  Values of Go's `int` are integers, and the arithmetic the code
does on them (the stock decrement, the sum of line and requested quantity, the
page arithmetic of the listings) is taken modulo `2 ^ 64` (`wrap64`); keys are
natural numbers.  `float64` prices are exact rationals; instants are integers.
A record per call (`Faults`, `CartFaults`, `AuthCall`, `AccountCall`,
`OrderFaults`) says which store operation fails in a run, so that the theorems
cover runs with failing reads and writes as well, and where the auto-increment
sequences stand (`Sequences`), so that a key is never issued twice.
-/

namespace Shop

/-! ## Data model -/

/-- Modelled from the spec: `models.Product` is declared outside `src/`; the
fields are the ones the services read and write (timestamps, images and the
category association are left out). -/
structure Product where
  ID : Nat
  CategoryID : Nat
  Name : String
  Description : String
  Price : ℚ
  Stock : Int
  SKU : String
  IsActive : Bool
deriving DecidableEq

/-- The Go zero value of `models.Product`: what an association field holds when
nothing was preloaded into it. -/
def Product.zero : Product :=
  { ID := 0, CategoryID := 0, Name := "", Description := "", Price := 0, Stock := 0,
    SKU := "", IsActive := false }

/-- Modelled from the spec: `models.CartItem` is declared outside `src/`.
`Product` is the belongs-to association, filled by `Preload`; it is not a column. -/
structure CartItem where
  ID : Nat
  CartID : Nat
  ProductID : Nat
  Quantity : Int
  Product : Product
deriving DecidableEq

/-- Modelled from the spec: `models.Cart` is declared outside `src/`.
`CartItems` is the has-many association, filled by `Preload`; it is not a column. -/
structure Cart where
  ID : Nat
  UserID : Nat
  CartItems : List CartItem
deriving DecidableEq

/-- Modelled from the spec: `models.OrderStatus` is a string type declared
outside `src/` (the service converts it with `string(order.Status)`). -/
abbrev OrderStatus := String

/-- Modelled from the spec: the constant `models.OrderStatusPending`; the spec
names the initial state `pending`. -/
def OrderStatusPending : OrderStatus := "pending"

/-- Modelled from the spec: `models.OrderItem` is declared outside `src/`.
`Product` is the association filled by `Preload`. -/
structure OrderItem where
  ID : Nat
  OrderID : Nat
  ProductID : Nat
  Quantity : Int
  Price : ℚ
  Product : Product
deriving DecidableEq

/-- Modelled from the spec: `models.Order` is declared outside `src/`.  An order
row is kept together with its `order_items` rows. -/
structure Order where
  ID : Nat
  UserID : Nat
  Status : OrderStatus
  TotalAmount : ℚ
  OrderItems : List OrderItem
deriving DecidableEq

/-- The relational store: one list of rows per table.  Association fields of
stored rows are not columns: every load overwrites them. -/
structure Store where
  products : List Product
  carts : List Cart
  cartItems : List CartItem
  orders : List Order
deriving DecidableEq

/-! ## The persistence layer (gorm) -/

/-- A Go `int` or `int64` value: the integer congruent to `x` modulo `2 ^ 64` in
the range from `-2 ^ 63` to `2 ^ 63 - 1`. -/
def wrap64 (x : Int) : Int := (x + 2 ^ 63) % 2 ^ 64 - 2 ^ 63

/-- The auto-increment sequences of the tables at the start of a call: for each
table the last key issued so far, the keys of rows deleted since and of inserts
rolled back included. -/
structure Sequences where
  products : Nat
  carts : Nat
  cartItems : Nat
  orders : Nat
  orderItems : Nat
  users : Nat
  refreshTokens : Nat
deriving DecidableEq

/-- Sequences none of which is ahead of its table. -/
def Sequences.zero : Sequences :=
  { products := 0, carts := 0, cartItems := 0, orders := 0, orderItems := 0, users := 0,
    refreshTokens := 0 }

/-- An auto-increment primary key: one more than the last key issued, `last`, and
larger than every key in the table, `ids`. -/
def freshID (last : Nat) (ids : List Nat) : Nat := max last (ids.foldl max 0) + 1

/-- `First(&product, id)`: the product row with this primary key. -/
def findProduct (s : Store) (id : Nat) : Option Product :=
  s.products.find? (fun p => p.ID = id)

/-- `Preload("...Product")` for one row: the referenced product, or the zero
value when the reference finds no row. -/
def preloadProduct (s : Store) (productID : Nat) : Product :=
  (findProduct s productID).getD Product.zero

/-- `Preload("CartItems.Product")`: the `cart_items` rows of a cart, in table
order, each with its product loaded. -/
def preloadCartItems (s : Store) (cartID : Nat) : List CartItem :=
  (s.cartItems.filter (fun ci => ci.CartID = cartID)).map
    (fun ci => { ci with Product := preloadProduct s ci.ProductID })

/-- The row `First` picks among candidates: `ORDER BY id LIMIT 1`. -/
def firstByID {α : Type} (key : α → Nat) : List α → Option α
  | [] => none
  | x :: xs =>
    match firstByID key xs with
    | none => some x
    | some y => if key y < key x then some y else some x

/-- `Where("user_id = ?", userID).First(&cart)` without its preloads. -/
def firstCartRow (s : Store) (userID : Nat) : Option Cart :=
  firstByID (fun c => c.ID) (s.carts.filter (fun c => c.UserID = userID))

/-- `Preload("CartItems.Product").Where("user_id = ?", userID).First(&cart)`. -/
def loadCart (s : Store) (userID : Nat) : Option Cart :=
  (firstCartRow s userID).map
    (fun c => { c with CartItems := preloadCartItems s c.ID })

/-- `Save(&product)`: with a zero primary key gorm inserts a new row; otherwise it
updates the row with that key, and inserts when no row has it. -/
def saveProduct (last : Sequences) (s : Store) (p : Product) : Store :=
  if p.ID = 0 then
    { s with products := s.products ++
      [{ p with ID := freshID last.products (s.products.map (fun q => q.ID)) }] }
  else if s.products.any (fun q => q.ID = p.ID) then
    { s with products := s.products.map (fun q => if q.ID = p.ID then p else q) }
  else
    { s with products := s.products ++ [p] }

/-- `Create(&order)`: the order row gets a fresh key and its items become
`order_items` rows of that order, product associations not being columns. -/
def insertOrder (last : Sequences) (s : Store) (o : Order) : Store × Order :=
  let id := freshID last.orders (s.orders.map (fun x => x.ID))
  let base := freshID last.orderItems
    ((s.orders.flatMap (fun x => x.OrderItems)).map (fun x => x.ID))
  let items := o.OrderItems.enum.map
    (fun (p : Nat × OrderItem) => { p.2 with ID := base + p.1, OrderID := id })
  let o1 : Order := { o with ID := id, OrderItems := items }
  ({ s with orders := s.orders ++ [o1] }, o1)

/-- `Where("cart_id = ?", cartID).Delete(&models.CartItem{})`. -/
def deleteCartItems (s : Store) (cartID : Nat) : Store :=
  { s with cartItems := s.cartItems.filter (fun ci => ¬ ci.CartID = cartID) }

/-- `Preload("OrderItems.Product")` on the items of one order. -/
def preloadOrderItems (s : Store) (items : List OrderItem) : List OrderItem :=
  items.map (fun it => { it with Product := preloadProduct s it.ProductID })

/-- `Preload("OrderItems.Product.Category").First(&order, id)`. -/
def loadOrder (s : Store) (id : Nat) : Option Order :=
  (s.orders.find? (fun o => o.ID = id)).map
    (fun o => { o with OrderItems := preloadOrderItems s o.OrderItems })

/-- Which store operations of one `CreateOrder` call fail, and with which error,
and where the sequences stand when the call starts.  `save i` is the `tx.Save` of
cart line `i`. -/
structure Faults where
  last : Sequences
  first : Bool
  save : Nat → Option String
  create : Option String
  delete : Option String
  reload : Option String
  commit : Option String

/-- The run in which every store operation succeeds and no sequence is ahead of
its table. -/
def Faults.none : Faults :=
  { last := Sequences.zero, first := false, save := fun _ => Option.none,
    create := Option.none, delete := Option.none, reload := Option.none,
    commit := Option.none }

/-- `db.Transaction(fn)`: the effects of `fn` are kept when it returns no error
and the commit succeeds, and are all discarded otherwise. -/
def Transaction {α : Type} (commit : Option String) (fn : Store → Store × Except String α)
    (s : Store) : Store × Except String α :=
  match fn s with
  | (_, .error e) => (s, .error e)
  | (s1, .ok a) =>
    match commit with
    | some e => (s, .error e)
    | Option.none => (s1, .ok a)

/-! ## `OrderRepository.CreateOrder` -/

/-- The loop `for i := range cart.CartItems` of `CreateOrder`, from line `i` on:
the stock check, the running total, the appended order item, the stock decrement
on the loaded product and its `tx.Save`. -/
def orderLoop (fl : Faults) : List CartItem → Nat → Store → ℚ → List OrderItem →
    Store × Except String (ℚ × List OrderItem)
  | [], _, s, totalAmount, orderItems => (s, .ok (totalAmount, orderItems))
  | cartItem :: rest, i, s, totalAmount, orderItems =>
    if cartItem.Product.Stock < cartItem.Quantity then
      (s, .error ("insufficient stock for product: " ++ cartItem.Product.Name))
    else
      let itemTotal : ℚ := (cartItem.Quantity : ℚ) * cartItem.Product.Price
      let totalAmount := totalAmount + itemTotal
      let orderItems := orderItems ++
        [{ ID := 0, OrderID := 0, ProductID := cartItem.ProductID,
           Quantity := cartItem.Quantity, Price := itemTotal, Product := Product.zero }]
      let product :=
        { cartItem.Product with Stock := wrap64 (cartItem.Product.Stock - cartItem.Quantity) }
      match fl.save i with
      | some e => (s, .error e)
      | Option.none =>
        orderLoop fl rest (i + 1) (saveProduct fl.last s product) totalAmount orderItems

/-- The product of a line after `cartItem.Product.Stock -= cartItem.Quantity`, a
subtraction of Go `int`s. -/
def stockAfter (cartItem : CartItem) : Product :=
  { cartItem.Product with Stock := wrap64 (cartItem.Product.Stock - cartItem.Quantity) }

/-- The value `itemTotal := float64(cartItem.Quantity) * cartItem.Product.Price`. -/
def lineTotal (cartItem : CartItem) : ℚ := (cartItem.Quantity : ℚ) * cartItem.Product.Price

/-- The order item `CreateOrder` appends for a line. -/
def lineItem (cartItem : CartItem) : OrderItem :=
  { ID := 0, OrderID := 0, ProductID := cartItem.ProductID, Quantity := cartItem.Quantity,
    Price := lineTotal cartItem, Product := Product.zero }

/-- The value `order := models.Order{...}` that `CreateOrder` hands to `tx.Create`. -/
def newOrder (userID : Nat) (totalAmount : ℚ) (orderItems : List OrderItem) : Order :=
  { ID := 0, UserID := userID, Status := OrderStatusPending,
    TotalAmount := totalAmount, OrderItems := orderItems }

/-- The closure passed to `db.Transaction` in `CreateOrder`. -/
def createOrderTx (fl : Faults) (userID : Nat) (s : Store) : Store × Except String Order :=
  match (if fl.first then Option.none else loadCart s userID) with
  | Option.none => (s, .error "cart not found")
  | some cart =>
    if cart.CartItems.length = 0 then (s, .error "cart is empty")
    else
      match orderLoop fl cart.CartItems 0 s 0 [] with
      | (s1, .error e) => (s1, .error e)
      | (s1, .ok (totalAmount, orderItems)) =>
        let order : Order := newOrder userID totalAmount orderItems
        match fl.create with
        | some e => (s1, .error e)
        | Option.none =>
          let (s2, order) := insertOrder fl.last s1 order
          match fl.delete with
          | some e => (s2, .error e)
          | Option.none =>
            let s3 := deleteCartItems s2 cart.ID
            match fl.reload with
            | some e => (s3, .error e)
            | Option.none =>
              match loadOrder s3 order.ID with
              | Option.none => (s3, .error "record not found")
              | some order => (s3, .ok order)

/-- `OrderRepository.CreateOrder`: the store after the call and what it returns. -/
def CreateOrder (fl : Faults) (s : Store) (userID : Nat) : Store × Except String Order :=
  Transaction fl.commit (createOrderTx fl userID) s

/-! ## `OrderService`: the order as returned to the caller -/

/-- The type `dto.ProductResponse` (category, images and timestamps left out). -/
structure ProductResponse where
  ID : Nat
  CategoryID : Nat
  Name : String
  Description : String
  Price : ℚ
  Stock : Int
  SKU : String
  IsActive : Bool
deriving DecidableEq

/-- The type `dto.OrderItemResponse`. -/
structure OrderItemResponse where
  ID : Nat
  Product : ProductResponse
  Quantity : Int
  Price : ℚ
deriving DecidableEq

/-- The type `dto.OrderResponse`. -/
structure OrderResponse where
  ID : Nat
  UserID : Nat
  Status : String
  TotalAmount : ℚ
  OrderItems : List OrderItemResponse
deriving DecidableEq

/-- The `dto.ProductResponse{...}` literal both services fill from a product. -/
def toProductResponse (p : Product) : ProductResponse :=
  { ID := p.ID, CategoryID := p.CategoryID, Name := p.Name, Description := p.Description,
    Price := p.Price, Stock := p.Stock, SKU := p.SKU, IsActive := p.IsActive }

/-- `OrderService.convertToOrderResponse`. -/
def convertToOrderResponse (order : Order) : OrderResponse :=
  let orderItems := order.OrderItems.map (fun item =>
    ({ ID := item.ID, Product := toProductResponse item.Product,
       Quantity := item.Quantity, Price := item.Price } : OrderItemResponse))
  { ID := order.ID, UserID := order.UserID, Status := order.Status,
    TotalAmount := order.TotalAmount, OrderItems := orderItems }

/-- `OrderService.CreateOrder`. -/
def OrderService.CreateOrder (fl : Faults) (s : Store) (userID : Nat) :
    Store × Except String OrderResponse :=
  match Shop.CreateOrder fl s userID with
  | (s1, .error err) => (s1, .error err)
  | (s1, .ok order) => (s1, .ok (convertToOrderResponse order))

/-! ## `CartRepository` and `ProductRepository` -/

/-- Which store operations of one cart-service call fail, and where the sequences
stand when the call starts.  An error that the service passes on to its caller
carries its text. -/
structure CartFaults where
  last : Sequences
  getProduct : Bool
  getCart : Option String
  createCart : Option String
  getItem : Bool
  createItem : Bool
  updateItem : Bool
  reloadCart : Option String

/-- The run in which every store operation succeeds and no sequence is ahead of
its table. -/
def CartFaults.none : CartFaults :=
  { last := Sequences.zero, getProduct := false, getCart := Option.none,
    createCart := Option.none, getItem := false, createItem := false, updateItem := false,
    reloadCart := Option.none }

/-- The error gorm returns when `First` finds no row. -/
def ErrRecordNotFound : String := "record not found"

/-- `ProductRepository.GetProductByID`. -/
def GetProductByID (fails : Bool) (s : Store) (id : Nat) : Except String Product :=
  if fails then .error "store failure"
  else match findProduct s id with
    | Option.none => .error ErrRecordNotFound
    | some product => .ok product

/-- `CartRepository.GetByUserID`: a pointer to the loaded cart, or an error. -/
def GetByUserID (fails : Option String) (s : Store) (userID : Nat) : Except String Cart :=
  match fails with
  | some e => .error e
  | Option.none =>
    match loadCart s userID with
    | Option.none => .error ErrRecordNotFound
    | some cart => .ok cart

/-- `CartRepository.Create`: the cart row is inserted under a fresh key. -/
def CartRepository.Create (last : Sequences) (fails : Option String) (s : Store)
    (cart : Cart) : Except String Store :=
  match fails with
  | some e => .error e
  | Option.none =>
    .ok { s with carts := s.carts ++
      [{ cart with ID := freshID last.carts (s.carts.map (fun c => c.ID)), CartItems := [] }] }

/-- `CartRepository.GetCartItemByCartIDAndProductID`: no preload, so the product
association of the result is the zero value. -/
def GetCartItemByCartIDAndProductID (fails : Bool) (s : Store) (cartID productID : Nat) :
    Except String CartItem :=
  if fails then .error "store failure"
  else
    match firstByID (fun ci => ci.ID)
        (s.cartItems.filter (fun ci => ci.CartID = cartID ∧ ci.ProductID = productID)) with
    | Option.none => .error ErrRecordNotFound
    | some ci => .ok { ci with Product := Product.zero }

/-- `CartRepository.CreateCartItem`: the row is inserted under a fresh key. -/
def CreateCartItem (last : Sequences) (fails : Bool) (s : Store) (cartItem : CartItem) :
    Except String Store :=
  if fails then .error "store failure"
  else
    .ok { s with cartItems := s.cartItems ++
      [{ cartItem with ID := freshID last.cartItems (s.cartItems.map (fun ci => ci.ID)),
                       Product := Product.zero }] }

/-- `CartRepository.UpdateCartItem`: `Save` writes every column of the row with the
item's primary key; with a zero key, or a key no row has, it inserts the row. -/
def UpdateCartItem (last : Sequences) (fails : Bool) (s : Store) (cartItem : CartItem) :
    Except String Store :=
  if fails then .error "store failure"
  else if cartItem.ID = 0 then
    .ok { s with cartItems := s.cartItems ++
      [{ cartItem with ID := freshID last.cartItems (s.cartItems.map (fun ci => ci.ID)),
                       Product := Product.zero }] }
  else if s.cartItems.any (fun ci => ci.ID = cartItem.ID) then
    .ok { s with cartItems := s.cartItems.map (fun ci =>
      if ci.ID = cartItem.ID then { cartItem with Product := Product.zero } else ci) }
  else
    .ok { s with cartItems := s.cartItems ++ [{ cartItem with Product := Product.zero }] }

/-! ## `CartService` -/

/-- The type `dto.AddToCartRequest`. -/
structure AddToCartRequest where
  ProductID : Nat
  Quantity : Int
deriving DecidableEq

/-- The type `dto.CartItemResponse` (timestamps left out). -/
structure CartItemResponse where
  ID : Nat
  Product : ProductResponse
  Quantity : Int
  Subtotal : ℚ
deriving DecidableEq

/-- The type `dto.CartResponse` (timestamps left out). -/
structure CartResponse where
  ID : Nat
  UserID : Nat
  CartItems : List CartItemResponse
  Total : ℚ
deriving DecidableEq

/-- How a service call ends: with a value, with an error, or with a Go runtime
fault (a panic that unwinds the call). -/
inductive Outcome (α : Type) where
  | ok (a : α)
  | err (e : String)
  | fault (msg : String)
deriving DecidableEq

/-- The runtime fault of reading a field through a nil pointer. -/
def nilDereference : String := "invalid memory address or nil pointer dereference"

/-- `CartService.convertToCartResponse`. -/
def convertToCartResponse (cart : Cart) : CartResponse :=
  let cartItems := cart.CartItems.map (fun ci =>
    ({ ID := ci.ID, Product := toProductResponse ci.Product, Quantity := ci.Quantity,
       Subtotal := (ci.Quantity : ℚ) * ci.Product.Price } : CartItemResponse))
  let total := cart.CartItems.foldl
    (fun total ci => total + (ci.Quantity : ℚ) * ci.Product.Price) 0
  { ID := cart.ID, UserID := cart.UserID, CartItems := cartItems, Total := total }

/-- `CartService.GetCart`. -/
def GetCart (fails : Option String) (s : Store) (userID : Nat) : Except String CartResponse :=
  match GetByUserID fails s userID with
  | .error err => .error err
  | .ok cart => .ok (convertToCartResponse cart)

/-- `CartService.AddToCart`.  `cart` is the pointer of the outer scope: the cart
created in the `if err != nil` block is bound to a new variable of that block, so
the outer pointer stays nil on that path. -/
def AddToCart (fl : CartFaults) (s : Store) (userID : Nat) (req : AddToCartRequest) :
    Store × Outcome CartResponse :=
  match GetProductByID fl.getProduct s req.ProductID with
  | .error _ => (s, .err "product not found")
  | .ok product =>
    if product.Stock < req.Quantity then (s, .err "insufficient stock")
    else
      let found := GetByUserID fl.getCart s userID
      let cart : Option Cart := found.toOption
      let created : Except String Store :=
        match found with
        | .ok _ => .ok s
        | .error _ =>
          CartRepository.Create fl.last fl.createCart s
            { ID := 0, UserID := userID, CartItems := [] }
      match created with
      | .error err => (s, .err err)
      | .ok s1 =>
        match cart with
        | Option.none => (s1, .fault nilDereference)
        | some cart =>
          match GetCartItemByCartIDAndProductID fl.getItem s1 cart.ID req.ProductID with
          | .error _ =>
            let cartItem : CartItem :=
              { ID := 0, CartID := cart.ID, ProductID := req.ProductID,
                Quantity := req.Quantity, Product := Product.zero }
            let s2 := match CreateCartItem fl.last fl.createItem s1 cartItem with
              | .error _ => s1
              | .ok s2 => s2
            match GetCart fl.reloadCart s2 userID with
            | .error err => (s2, .err err)
            | .ok resp => (s2, .ok resp)
          | .ok cartItem =>
            let cartItem :=
              { cartItem with Quantity := wrap64 (cartItem.Quantity + req.Quantity) }
            if cartItem.Quantity > product.Stock then (s1, .err "insufficient stock")
            else
              let s2 := match UpdateCartItem fl.last fl.updateItem s1 cartItem with
                | .error _ => s1
                | .ok s2 => s2
              match GetCart fl.reloadCart s2 userID with
              | .error err => (s2, .err err)
              | .ok resp => (s2, .ok resp)

/-! ## `CartService`: update and removal of a line -/

/-- The condition `cart_id IN (SELECT id FROM carts WHERE user_id = ?)`, which is
also what `JOIN carts ON cart_items.cart_id = carts.id` with `carts.user_id = ?`
asks of a row. -/
def inCartOf (s : Store) (userID cartID : Nat) : Bool :=
  (s.carts.filter (fun c => c.UserID = userID)).any (fun c => c.ID = cartID)

/-- `CartRepository.GetCartItemByCartItemIDAndUserID`: every failure of the query
is returned as `cart item not found`. -/
def GetCartItemByCartItemIDAndUserID (fails : Bool) (s : Store) (cartItemID userID : Nat) :
    Except String CartItem :=
  if fails then .error "cart item not found"
  else
    match firstByID (fun ci => ci.ID)
        (s.cartItems.filter (fun ci => ci.ID = cartItemID ∧ inCartOf s userID ci.CartID)) with
    | Option.none => .error "cart item not found"
    | some ci => .ok { ci with Product := Product.zero }

/-- The `cart_items` rows left by
`DELETE ... WHERE id = ? AND cart_id IN (SELECT id FROM carts WHERE user_id = ?)`. -/
def withoutItemOf (s : Store) (userID cartItemID : Nat) : List CartItem :=
  s.cartItems.filter (fun ci => ¬ (ci.ID = cartItemID ∧ inCartOf s userID ci.CartID))

/-- `CartRepository.RemoveCartItemFromCart`: one `DELETE`, whose error is the only
error returned (gorm reports no error when the statement matches no row). -/
def RemoveCartItemFromCart (fails : Option String) (s : Store) (userID cartItemID : Nat) :
    Store × Option String :=
  match fails with
  | some e => (s, some e)
  | Option.none =>
    ({ s with cartItems := withoutItemOf s userID cartItemID }, Option.none)

/-- The type `dto.UpdateCartItemRequest`. -/
structure UpdateCartItemRequest where
  Quantity : Int
deriving DecidableEq

/-- `CartService.UpdateCartItem`. -/
def CartService.UpdateCartItem (fl : CartFaults) (s : Store) (userID itemID : Nat)
    (req : UpdateCartItemRequest) : Store × Outcome CartResponse :=
  match GetCartItemByCartItemIDAndUserID fl.getItem s itemID userID with
  | .error _ => (s, .err "cart item not found")
  | .ok cartItem =>
    match GetProductByID fl.getProduct s cartItem.ProductID with
    | .error _ => (s, .err "product not found")
    | .ok product =>
      if product.Stock < req.Quantity then (s, .err "insufficient stock")
      else
        let cartItem := { cartItem with Quantity := req.Quantity }
        match Shop.UpdateCartItem fl.last fl.updateItem s cartItem with
        | .error err => (s, .err err)
        | .ok s1 =>
          match GetCart fl.reloadCart s1 userID with
          | .error err => (s1, .err err)
          | .ok resp => (s1, .ok resp)

/-- `CartService.RemoveFromCart`: the store after the call and the error returned
(`none` is Go's `nil`). -/
def RemoveFromCart (fails : Option String) (s : Store) (userID itemID : Nat) :
    Store × Option String :=
  RemoveCartItemFromCart fails s userID itemID

/-- `CartService.GetCart` as a step on the store: the call issues one query and
no write, so the store it leaves is the store it found. -/
def GetCartCall (fails : Option String) (s : Store) (userID : Nat) :
    Store × Except String CartResponse :=
  (s, GetCart fails s userID)

/-! ## The cart handlers of the HTTP server -/

/-- The reply of a handler: which of the helpers `utils.SuccessResponse`,
`utils.BadRequestResponse`, `utils.UnauthorizedResponse` it calls and with which
arguments, or the runtime fault it ends in. -/
inductive Response (α : Type) where
  | success (message : String) (data : α)
  | badRequest (message : String) (err : String)
  | unauthorized (message : String)
  | fault (msg : String)
deriving DecidableEq

/-- The error of a request body that fails its `binding` tags. -/
def ErrValidation : String := "validation failed"

/-- What `ShouldBindJSON` accepts for `dto.AddToCartRequest`: `product_id` is
`binding:"required"` (not the zero value) and `quantity` is
`binding:"required,min=1"`. -/
def bindAddToCartRequest (req : AddToCartRequest) : Bool :=
  decide (req.ProductID ≠ 0) && decide (req.Quantity ≠ 0) && decide (1 ≤ req.Quantity)

/-- What `ShouldBindJSON` accepts for `dto.UpdateCartItemRequest`: `quantity` is
`binding:"required,min=1"`. -/
def bindUpdateCartItemRequest (req : UpdateCartItemRequest) : Bool :=
  decide (req.Quantity ≠ 0) && decide (1 ≤ req.Quantity)

/-- The handler `Server.addToCart`, on the decoded body. -/
def addToCart (fl : CartFaults) (s : Store) (userID : Nat) (req : AddToCartRequest) :
    Store × Response CartResponse :=
  if bindAddToCartRequest req = false then
    (s, .badRequest "Invalid request data" ErrValidation)
  else
    match AddToCart fl s userID req with
    | (s1, .err err) => (s1, .badRequest "Failed to add item to cart" err)
    | (s1, .fault msg) => (s1, .fault msg)
    | (s1, .ok cart) => (s1, .success "Item added to cart successfully" cart)

/-- The handler `Server.updateCartItem`, on the number in the path and the decoded
body; `strconv.ParseUint(..., 10, 32)` refuses a number that does not fit 32 bits. -/
def updateCartItem (fl : CartFaults) (s : Store) (userID id : Nat)
    (req : UpdateCartItemRequest) : Store × Response CartResponse :=
  if 2 ^ 32 ≤ id then (s, .badRequest "Invalid cart item ID" "value out of range")
  else if bindUpdateCartItemRequest req = false then
    (s, .badRequest "Invalid request data" ErrValidation)
  else
    match CartService.UpdateCartItem fl s userID id req with
    | (s1, .err err) => (s1, .badRequest "Failed to update cart item" err)
    | (s1, .fault msg) => (s1, .fault msg)
    | (s1, .ok cart) => (s1, .success "Cart item updated successfully" cart)

/-! ## `UserRepository`: users and refresh tokens -/

/-- Modelled from the spec: `models.User` is declared outside `src/`; the fields
are the ones `AuthService` reads and writes (timestamps left out). -/
structure User where
  ID : Nat
  Email : String
  Password : String
  FirstName : String
  LastName : String
  Phone : String
  Role : String
  IsActive : Bool
deriving DecidableEq

/-- Modelled from the spec: `models.RefreshToken` is declared outside `src/`.
`ExpiresAt` is an instant on the same integer clock as `time.Now()`. -/
structure RefreshToken where
  ID : Nat
  UserID : Nat
  Token : String
  ExpiresAt : Int
deriving DecidableEq

/-- The claims `utils.ValidateToken` returns; `RefreshToken` reads `UserID`. -/
structure Claims where
  UserID : Nat
  Email : String
  Role : String
deriving DecidableEq

/-- What the auth service acts on: the tables of users and refresh tokens, the
events handed to the publisher so far (event type and user ID), and the shop. -/
structure AuthState where
  users : List User
  refreshTokens : List RefreshToken
  published : List (String × Nat)
  shop : Store
deriving DecidableEq

/-- The surroundings of one call of the auth service: where the sequences stand
when the call starts, the clock, the token library (`utils.ValidateToken` and
`utils.GenerateTokenPair`, both outside `src/`, with the configured secret), the
configured refresh-token lifetime, and which store or publisher operations fail. -/
structure AuthCall where
  last : Sequences
  now : Int
  issueTime : Int
  ValidateToken : String → Except String Claims
  GenerateTokenPair : Nat → String → String → Except String (String × String)
  RefreshTokenExpires : Int
  getValidFails : Bool
  getUserFails : Bool
  deleteByIDFails : Bool
  createTokenFails : Bool
  publishFails : Option String
  deleteTokenFails : Option String

/-- `UserRepository.GetByID`. -/
def GetByID (fails : Bool) (st : AuthState) (id : Nat) : Except String User :=
  if fails then .error "store failure"
  else
    match st.users.find? (fun u => u.ID = id) with
    | Option.none => .error ErrRecordNotFound
    | some user => .ok user

/-- The rows `Where("token = ? AND expires_at > ?", token, time.Now())` selects. -/
def validRefreshTokens (now : Int) (st : AuthState) (token : String) : List RefreshToken :=
  st.refreshTokens.filter (fun r => r.Token = token ∧ now < r.ExpiresAt)

/-- `UserRepository.GetValidRefreshToken`, at the instant `now`. -/
def GetValidRefreshToken (fails : Bool) (now : Int) (st : AuthState) (token : String) :
    Except String RefreshToken :=
  if fails then .error "store failure"
  else
    match firstByID (fun r => r.ID) (validRefreshTokens now st token) with
    | Option.none => .error ErrRecordNotFound
    | some refreshToken => .ok refreshToken

/-- `UserRepository.CreateRefreshToken`: the row is inserted under a fresh key. -/
def CreateRefreshToken (last : Sequences) (fails : Bool) (st : AuthState)
    (token : RefreshToken) : Except String AuthState :=
  if fails then .error "store failure"
  else
    .ok { st with refreshTokens := st.refreshTokens ++
      [{ token with
          ID := freshID last.refreshTokens (st.refreshTokens.map (fun r => r.ID)) }] }

/-- `UserRepository.DeleteRefreshTokenByID`. -/
def DeleteRefreshTokenByID (fails : Bool) (st : AuthState) (id : Nat) : Except String AuthState :=
  if fails then .error "store failure"
  else .ok { st with refreshTokens := st.refreshTokens.filter (fun r => ¬ r.ID = id) }

/-- `UserRepository.DeleteRefreshToken`: the store after the call and its error. -/
def DeleteRefreshToken (fails : Option String) (st : AuthState) (token : String) :
    AuthState × Option String :=
  match fails with
  | some e => (st, some e)
  | Option.none =>
    ({ st with refreshTokens := st.refreshTokens.filter (fun r => ¬ r.Token = token) },
      Option.none)

/-- `eventPublisher.Publish(eventType, user, ...)`: an accepted event is recorded. -/
def Publish (fails : Option String) (st : AuthState) (eventType : String) (user : User) :
    AuthState × Option String :=
  match fails with
  | some e => (st, some e)
  | Option.none => ({ st with published := st.published ++ [(eventType, user.ID)] }, Option.none)

/-! ## `AuthService` -/

/-- The type `dto.UserResponse` as `generateAuthResponse` fills it (timestamps
left out). -/
structure UserResponse where
  ID : Nat
  Email : String
  FirstName : String
  LastName : String
  Phone : String
  Role : String
  IsActive : Bool
deriving DecidableEq

/-- The type `dto.AuthResponse`. -/
structure AuthResponse where
  User : UserResponse
  AccessToken : String
  RefreshToken : String
deriving DecidableEq

/-- The type `dto.RefreshTokenRequest`. -/
structure RefreshTokenRequest where
  RefreshToken : String
deriving DecidableEq

/-- The row `generateAuthResponse` hands to `CreateRefreshToken`. -/
def newRefreshToken (env : AuthCall) (user : User) (refreshToken : String) : RefreshToken :=
  { ID := 0, UserID := user.ID, Token := refreshToken,
    ExpiresAt := env.issueTime + env.RefreshTokenExpires }

/-- The value `&dto.AuthResponse{...}` of `generateAuthResponse`. -/
def authResponse (user : User) (accessToken refreshToken : String) : AuthResponse :=
  { User := { ID := user.ID, Email := user.Email, FirstName := user.FirstName,
              LastName := user.LastName, Phone := user.Phone, Role := user.Role,
              IsActive := user.IsActive },
    AccessToken := accessToken, RefreshToken := refreshToken }

/-- `AuthService.generateAuthResponse`: a failed `CreateRefreshToken` is logged and
ignored; a failed `Publish` is returned. -/
def generateAuthResponse (env : AuthCall) (st : AuthState) (user : User) :
    AuthState × Except String AuthResponse :=
  match env.GenerateTokenPair user.ID user.Email user.Role with
  | .error err => (st, .error err)
  | .ok (accessToken, refreshToken) =>
    let st1 := match CreateRefreshToken env.last env.createTokenFails st
        (newRefreshToken env user refreshToken) with
      | .error _ => st
      | .ok st1 => st1
    match Publish env.publishFails st1 "USER_LOGGED_IN" user with
    | (st2, some err) => (st2, .error ("unable to publish user login event: " ++ err))
    | (st2, Option.none) => (st2, .ok (authResponse user accessToken refreshToken))

/-- `AuthService.RefreshToken`: a failed `DeleteRefreshTokenByID` is logged and
ignored. -/
def AuthService.RefreshToken (env : AuthCall) (st : AuthState) (req : RefreshTokenRequest) :
    AuthState × Except String AuthResponse :=
  match env.ValidateToken req.RefreshToken with
  | .error _ => (st, .error "invalid refresh token")
  | .ok claims =>
    match GetValidRefreshToken env.getValidFails env.now st req.RefreshToken with
    | .error _ => (st, .error "refresh token not found or expired")
    | .ok refreshToken =>
      match GetByID env.getUserFails st claims.UserID with
      | .error _ => (st, .error "user not found")
      | .ok user =>
        let st1 := match DeleteRefreshTokenByID env.deleteByIDFails st refreshToken.ID with
          | .error _ => st
          | .ok st1 => st1
        generateAuthResponse env st1 user

/-- `AuthService.Logout`. -/
def AuthService.Logout (env : AuthCall) (st : AuthState) (refreshToken : String) :
    AuthState × Option String :=
  DeleteRefreshToken env.deleteTokenFails st refreshToken

/-- The handler `Server.refreshToken`, on the decoded body: every error of the
service is answered with the same `utils.UnauthorizedResponse`. -/
def refreshToken (env : AuthCall) (st : AuthState) (req : RefreshTokenRequest) :
    AuthState × Response AuthResponse :=
  match AuthService.RefreshToken env st req with
  | (st1, .error _) => (st1, .unauthorized "Token refresh failed")
  | (st1, .ok response) => (st1, .success "Token refreshed successfully" response)

/-! ## Scenario A of the spec -/

/-- Product P of scenario A: stock 5, price 10.00. -/
def productP : Product :=
  { ID := 1, CategoryID := 1, Name := "P", Description := "", Price := 10, Stock := 5,
    SKU := "P-1", IsActive := true }

/-- The store of scenario A: user 7 owns cart 1, holding two units of P. -/
def storeA : Store :=
  { products := [productP],
    carts := [{ ID := 1, UserID := 7, CartItems := [] }],
    cartItems := [{ ID := 1, CartID := 1, ProductID := 1, Quantity := 2, Product := Product.zero }],
    orders := [] }

/-- Product Q: a single unit in stock. -/
def productQ : Product :=
  { ID := 2, CategoryID := 1, Name := "Q", Description := "", Price := 4, Stock := 1,
    SKU := "Q-1", IsActive := true }

/-- A store in which user 7 asks for two units of P and then three of Q, of which
only one is in stock; user 9 owns cart 2, holding one unit of Q; user 11 owns the
empty cart 3. -/
def storeB : Store :=
  { products := [productP, productQ],
    carts := [{ ID := 1, UserID := 7, CartItems := [] }, { ID := 2, UserID := 9, CartItems := [] },
      { ID := 3, UserID := 11, CartItems := [] }],
    cartItems :=
      [{ ID := 1, CartID := 1, ProductID := 1, Quantity := 2, Product := Product.zero },
       { ID := 2, CartID := 2, ProductID := 2, Quantity := 1, Product := Product.zero },
       { ID := 3, CartID := 1, ProductID := 2, Quantity := 3, Product := Product.zero }],
    orders := [] }

/-- Product R: out of stock. -/
def productR : Product :=
  { ID := 3, CategoryID := 1, Name := "R", Description := "", Price := 7, Stock := 0,
    SKU := "R-1", IsActive := true }

/-- The store of scenario C: `storeB` with the out-of-stock product R added. -/
def storeC : Store :=
  { storeB with products := [productP, productQ, productR] }

/-! ## Names for the steps of the auth service, and a sample session -/

/-- The state after the `DeleteRefreshTokenByID` of `RefreshToken`, whose error is
logged and ignored. -/
def afterDelete (env : AuthCall) (st : AuthState) (id : Nat) : AuthState :=
  match DeleteRefreshTokenByID env.deleteByIDFails st id with
  | .error _ => st
  | .ok st1 => st1

/-- The state after the `CreateRefreshToken` of `generateAuthResponse`, whose error
is logged and ignored. -/
def afterCreate (env : AuthCall) (st : AuthState) (user : User) (refreshToken : String) :
    AuthState :=
  match CreateRefreshToken env.last env.createTokenFails st
      (newRefreshToken env user refreshToken) with
  | .error _ => st
  | .ok st1 => st1

/-- A customer account. -/
def userU : User :=
  { ID := 1, Email := "u@shop.test", Password := "hash", FirstName := "U", LastName := "V",
    Phone := "", Role := "customer", IsActive := true }

/-- A state with the one user and her refresh token `refresh-0`, expiring at 120. -/
def authA : AuthState :=
  { users := [userU],
    refreshTokens := [{ ID := 1, UserID := 1, Token := "refresh-0", ExpiresAt := 120 }],
    published := [], shop := storeA }

/-- A call at instant `now` in which nothing fails: the token library accepts every
token but `forged`, reading user 1 from it, and issues the given pair; refresh
tokens live for 50; one user key and one refresh-token key have been issued. -/
def authCall (now : Int) (pair : Except String (String × String)) : AuthCall :=
  { last := { Sequences.zero with users := 1, refreshTokens := 1 },
    now := now, issueTime := now,
    ValidateToken := fun token =>
      if token = "forged" then .error "signature is invalid"
      else .ok { UserID := 1, Email := "u@shop.test", Role := "customer" },
    GenerateTokenPair := fun _ _ _ => pair,
    RefreshTokenExpires := 50, getValidFails := false, getUserFails := false,
    deleteByIDFails := false, createTokenFails := false, publishFails := Option.none,
    deleteTokenFails := Option.none }

/-- A later call of the same kind, made when `issued` refresh-token keys have been
issued. -/
def authCallAfter (issued : Nat) (now : Int) (pair : Except String (String × String)) :
    AuthCall :=
  { authCall now pair with last := { Sequences.zero with users := 1, refreshTokens := issued } }

/-! ## `AuthService`: login and registration -/

/-- The surroundings of a `Login` or `Register` call: those of `AuthCall`, the
password primitives `utils.CheckPassword` and `utils.HashPassword`, the constant
`models.UserRoleCustomer` and the column default of `is_active` (all outside
`src/`), and which further store operations fail. -/
structure AccountCall extends AuthCall where
  CheckPassword : String → String → Bool
  HashPassword : String → Except String String
  UserRoleCustomer : String
  defaultIsActive : Bool
  getByEmailFails : Bool
  createUserFails : Option String
  createCartFails : Option String

/-- The type `dto.LoginRequest`. -/
structure LoginRequest where
  Email : String
  Password : String
deriving DecidableEq

/-- The type `dto.RegisterRequest`. -/
structure RegisterRequest where
  Email : String
  Password : String
  FirstName : String
  LastName : String
  Phone : String
deriving DecidableEq

/-- `UserRepository.GetByEmail`. -/
def GetByEmail (fails : Bool) (st : AuthState) (email : String) : Except String User :=
  if fails then .error "store failure"
  else
    match firstByID (fun u => u.ID) (st.users.filter (fun u => u.Email = email)) with
    | Option.none => .error ErrRecordNotFound
    | some user => .ok user

/-- `UserRepository.GetByEmailAndActive`: the query asks for `is_active = true`
whatever its second argument is. -/
def GetByEmailAndActive (fails : Bool) (st : AuthState) (email : String) (_isActive : Bool) :
    Except String User :=
  if fails then .error "store failure"
  else
    match firstByID (fun u => u.ID)
        (st.users.filter (fun u => u.Email = email ∧ u.IsActive = true)) with
    | Option.none => .error ErrRecordNotFound
    | some user => .ok user

/-- The user row `UserRepository.Create` inserts: a fresh key, and the column
default for `is_active`, which the struct literal of `Register` leaves unset. -/
def createdUser (env : AccountCall) (st : AuthState) (user : User) : User :=
  { user with ID := freshID env.last.users (st.users.map (fun u => u.ID)),
              IsActive := env.defaultIsActive }

/-- `UserRepository.Create`: the state after the insert and the user as filled in
by it. -/
def UserRepository.Create (env : AccountCall) (st : AuthState) (user : User) :
    Except String (AuthState × User) :=
  match env.createUserFails with
  | some e => .error e
  | Option.none =>
    .ok ({ st with users := st.users ++ [createdUser env st user] }, createdUser env st user)

/-- The state after the `cartRepo.Create` of `Register`, whose error is printed
and ignored. -/
def afterCartCreate (env : AccountCall) (st : AuthState) (userID : Nat) : AuthState :=
  match CartRepository.Create env.last env.createCartFails st.shop
      { ID := 0, UserID := userID, CartItems := [] } with
  | .error _ => st
  | .ok shop => { st with shop := shop }

/-- `AuthService.Login`. -/
def AuthService.Login (env : AccountCall) (st : AuthState) (req : LoginRequest) :
    AuthState × Except String AuthResponse :=
  match GetByEmailAndActive env.getByEmailFails st req.Email true with
  | .error _ => (st, .error "invalid credentials")
  | .ok user =>
    if env.CheckPassword req.Password user.Password = false then
      (st, .error "invalid credentials")
    else generateAuthResponse env.toAuthCall st user

/-- The value `models.User{...}` of `Register`; `IsActive` is not set there. -/
def newUser (env : AccountCall) (req : RegisterRequest) (hashedPassword : String) : User :=
  { ID := 0, Email := req.Email, Password := hashedPassword,
    FirstName := req.FirstName, LastName := req.LastName, Phone := req.Phone,
    Role := env.UserRoleCustomer, IsActive := false }

/-- `AuthService.Register`: every error of `GetByEmail` counts as "no such
account". -/
def AuthService.Register (env : AccountCall) (st : AuthState) (req : RegisterRequest) :
    AuthState × Except String AuthResponse :=
  match GetByEmail env.getByEmailFails st req.Email with
  | .ok _ => (st, .error "you can't register with this email")
  | .error _ =>
    match env.HashPassword req.Password with
    | .error err => (st, .error err)
    | .ok hashedPassword =>
      match UserRepository.Create env st (newUser env req hashedPassword) with
      | .error err => (st, .error err)
      | .ok (st1, user) =>
        generateAuthResponse env.toAuthCall (afterCartCreate env st1 user.ID) user

/-! ## Pagination -/

/-- The expression `(page - 1) * limit` on Go `int`s. -/
def pageOffset (page limit : Int) : Int := wrap64 (wrap64 (page - 1) * limit)

/-- The expression `int((total + int64(limit) - 1) / int64(limit))`: 64-bit sums
and Go's division, which truncates toward zero. -/
def totalPages (total limit : Int) : Int :=
  Int.tdiv (wrap64 (wrap64 (total + limit) - 1)) limit

/-- The type `utils.PaginationMeta`, as the services fill it. -/
structure PaginationMeta where
  Page : Int
  Limit : Int
  Total : Int
  TotalPages : Int
deriving DecidableEq

/-- The rows `Offset(offset).Limit(limit)` keeps: gorm writes no `OFFSET` clause
for an offset that is not positive. -/
def offsetLimit {α : Type} (offset limit : Int) (rows : List α) : List α :=
  (rows.drop offset.toNat).take limit.toNat

/-! ## `OrderService.GetOrders` -/

/-- Which store operations of one `GetOrders` call fail. -/
structure OrderFaults where
  count : Option String
  find : Option String

/-- `OrderRepository.GetOrdersCount`. -/
def GetOrdersCount (fails : Option String) (s : Store) (userID : Nat) : Except String Int :=
  match fails with
  | some e => .error e
  | Option.none => .ok ((s.orders.filter (fun o => o.UserID = userID)).length : Int)

/-- `OrderRepository.GetOrders`: the user's orders, newest first (rows are kept in
the order of their creation), with their items and products loaded. -/
def OrderRepository.GetOrders (fails : Option String) (s : Store) (userID : Nat)
    (offset limit : Int) : Except String (List Order) :=
  match fails with
  | some e => .error e
  | Option.none =>
    .ok ((offsetLimit offset limit (s.orders.filter (fun o => o.UserID = userID)).reverse).map
      (fun o => { o with OrderItems := preloadOrderItems s o.OrderItems }))

/-- `OrderService.GetOrders`: an error of the count ends the call in
`log.Panicln`. -/
def OrderService.GetOrders (fl : OrderFaults) (s : Store) (userID : Nat) (page limit : Int) :
    Outcome (List OrderResponse × PaginationMeta) :=
  let page := if page < 1 then 1 else page
  let limit := if limit < 1 then 10 else limit
  let limit := if limit > 100 then 100 else limit
  let offset := pageOffset page limit
  match GetOrdersCount fl.count s userID with
  | .error err => .fault err
  | .ok total =>
    match OrderRepository.GetOrders fl.find s userID offset limit with
    | .error err => .err err
    | .ok orders =>
      .ok (orders.map convertToOrderResponse,
        { Page := page, Limit := limit, Total := total, TotalPages := totalPages total limit })

/-! ## `ProductService`: listing and search -/

/-- The full-text search of the database, which `SearchProducts` calls through
`search_vector @@ plainto_tsquery(...)` and `ts_rank(...)`: which products a query
matches, and the order `rank DESC, created_at DESC` puts the matches in. -/
structure SearchEngine where
  hits : String → Product → Bool
  rank : String → Product → ℚ
  ranked : String → List Product → List Product

/-- Modelled from the spec: `models.ProductsWithRank` is declared outside `src/`:
a product row with the rank selected beside it. -/
structure ProductsWithRank where
  Product : Product
  Rank : ℚ

/-- The type `dto.ProductSearchResult`. -/
structure ProductSearchResult where
  ProductResponse : ProductResponse
  Rank : ℚ

/-- The type `dto.SearchProductsRequest`; an absent query parameter is `none`. -/
structure SearchProductsRequest where
  Query : String
  Page : Int
  Limit : Int
  CategoryID : Option Nat
  MinPrice : Option ℚ
  MaxPrice : Option ℚ

/-- The `WHERE` clause `ProductRepository.SearchProducts` builds. -/
def searchFilter (eng : SearchEngine) (queryString : String) (categoryID : Option Nat)
    (minPrice maxPrice : Option ℚ) (p : Product) : Bool :=
  eng.hits queryString p && p.IsActive &&
    (match categoryID with
      | Option.none => true
      | some c => decide (p.CategoryID = c)) &&
    (match minPrice with
      | Option.none => true
      | some m => decide (m ≤ p.Price)) &&
    (match maxPrice with
      | Option.none => true
      | some m => decide (p.Price ≤ m))

/-- `ProductRepository.SearchProducts`: the rows of the page and the count of all
matches. -/
def ProductRepository.SearchProducts (fails : Option String) (eng : SearchEngine) (s : Store)
    (queryString : String) (categoryID : Option Nat) (minPrice maxPrice : Option ℚ)
    (offset limit : Int) : Except String (List ProductsWithRank × Int) :=
  match fails with
  | some e => .error e
  | Option.none =>
    let found := s.products.filter (searchFilter eng queryString categoryID minPrice maxPrice)
    .ok ((offsetLimit offset limit (eng.ranked queryString found)).map
        (fun p => { Product := p, Rank := eng.rank queryString p }),
      (found.length : Int))

/-- `ProductService.SearchProducts`. -/
def ProductService.SearchProducts (fails : Option String) (eng : SearchEngine) (s : Store)
    (req : SearchProductsRequest) : Except String (List ProductSearchResult × PaginationMeta) :=
  let page := if req.Page < 1 then 1 else req.Page
  let limit := if req.Limit < 1 then 10 else req.Limit
  let offset := pageOffset page limit
  match ProductRepository.SearchProducts fails eng s req.Query req.CategoryID
      req.MaxPrice req.MaxPrice offset limit with
  | .error err => .error err
  | .ok (rows, total) =>
    .ok (rows.map (fun row =>
        { ProductResponse := toProductResponse row.Product, Rank := row.Rank }),
      { Page := page, Limit := limit, Total := total, TotalPages := totalPages total limit })

/-- `ProductRepository.GetProductsCountByStatus`: counts the active products
whatever its argument is. -/
def GetProductsCountByStatus (fails : Option String) (s : Store) (_isActive : Bool) :
    Except String Int :=
  match fails with
  | some e => .error e
  | Option.none => .ok ((s.products.filter (fun p => p.IsActive)).length : Int)

/-- `ProductRepository.GetProductsByStatus`: a page of the active products. -/
def GetProductsByStatus (fails : Option String) (s : Store) (_isActive : Bool)
    (offset limit : Int) : Except String (List Product) :=
  match fails with
  | some e => .error e
  | Option.none => .ok (offsetLimit offset limit (s.products.filter (fun p => p.IsActive)))

/-- `ProductService.GetProducts`. -/
def ProductService.GetProducts (fl : OrderFaults) (s : Store) (page limit : Int) :
    Except String (List ProductResponse × PaginationMeta) :=
  let page := if page < 1 then 1 else page
  let limit := if limit < 1 then 10 else limit
  let offset := pageOffset page limit
  match GetProductsCountByStatus fl.count s true with
  | .error err => .error err
  | .ok total =>
    match GetProductsByStatus fl.find s true offset limit with
    | .error err => .error err
    | .ok products =>
      .ok (products.map toProductResponse,
        { Page := page, Limit := limit, Total := total, TotalPages := totalPages total limit })

/-- A call of `Login` or `Register` at instant `now` in which nothing fails:
passwords are stored as `hash:` followed by the password. -/
def accountCall (now : Int) (pair : Except String (String × String)) : AccountCall :=
  { toAuthCall := authCall now pair,
    CheckPassword := fun password hash => decide (hash = "hash:" ++ password),
    HashPassword := fun password => .ok ("hash:" ++ password),
    UserRoleCustomer := "customer", defaultIsActive := true,
    getByEmailFails := false, createUserFails := Option.none, createCartFails := Option.none }

/-- A state with an active account whose password is `secret`, and no tokens. -/
def authB : AuthState :=
  { users := [{ userU with Password := "hash:secret" }],
    refreshTokens := [], published := [], shop := storeA }

/-- The state `authB` with the refresh token `refresh-0` of the account stored. -/
def authC : AuthState :=
  { authB with refreshTokens := authA.refreshTokens }

/-- A search engine that matches every product and keeps the table order. -/
def engineAll : SearchEngine :=
  { hits := fun _ _ => true, rank := fun _ _ => 1, ranked := fun _ rows => rows }

/-! ## Pagination as the specification words it -/

/-- The effective page in the words of the specification: 1 for a page below 1,
else the page. -/
def specPage (page : Int) : Int := if page < 1 then 1 else page

/-- The effective limit of the order listing in the words of the specification:
10 for a limit below 1, 100 for a limit above 100, else the limit. -/
def specOrdersLimit (limit : Int) : Int :=
  if limit < 1 then 10 else if limit > 100 then 100 else limit

/-- The effective limit of the product listing: 10 for a limit below 1, else the
limit. -/
def specProductsLimit (limit : Int) : Int := if limit < 1 then 10 else limit

/-- The ceiling of `total / limit` in the words of the specification: `n` is 0
when `total` is 0, and otherwise the least `n` with `n × limit ≥ total`. -/
def IsCeilingOf (n total limit : Int) : Prop :=
  (total = 0 → n = 0) ∧ total ≤ n * limit ∧ ∀ m : Int, total ≤ m * limit → n ≤ m

/-- The largest Go `int`, which `strconv.Atoi` returns for a decimal string above
the range. -/
def maxInt : Int := 2 ^ 63 - 1

/-- Product M, with the largest stock an `int` holds. -/
def productM : Product :=
  { ID := 1, CategoryID := 1, Name := "M", Description := "", Price := 1, Stock := maxInt,
    SKU := "M-1", IsActive := true }

/-- A store in which the cart of user 7 holds a line of quantity -1 of M and the
cart of user 9 a line of two units of M. -/
def storeM : Store :=
  { products := [productM],
    carts :=
      [{ ID := 1, UserID := 7, CartItems := [] }, { ID := 2, UserID := 9, CartItems := [] }],
    cartItems :=
      [{ ID := 1, CartID := 1, ProductID := 1, Quantity := -1, Product := Product.zero },
       { ID := 2, CartID := 2, ProductID := 1, Quantity := 2, Product := Product.zero }],
    orders := [] }

/-- A search for `x` with `min_price=8` and no other filter. -/
def searchFrom8 : SearchProductsRequest :=
  { Query := "x", Page := 1, Limit := 10, CategoryID := Option.none, MinPrice := some 8,
    MaxPrice := Option.none }

/-! ## Lemmas on the persistence layer -/

theorem wrap64_of_range (x : Int) (h0 : -2 ^ 63 ≤ x) (h1 : x < 2 ^ 63) : wrap64 x = x := by
  unfold wrap64
  rw [Int.emod_eq_of_lt (by omega) (by omega)]
  omega

theorem saveProduct_carts (last : Sequences) (s : Store) (p : Product) :
    (saveProduct last s p).carts = s.carts := by
  unfold saveProduct; split_ifs <;> rfl

theorem saveProduct_cartItems (last : Sequences) (s : Store) (p : Product) :
    (saveProduct last s p).cartItems = s.cartItems := by
  unfold saveProduct; split_ifs <;> rfl

theorem saveProduct_orders (last : Sequences) (s : Store) (p : Product) :
    (saveProduct last s p).orders = s.orders := by
  unfold saveProduct; split_ifs <;> rfl

theorem saveProduct_stock_nonneg (last : Sequences) (s : Store) (p : Product)
    (hp : 0 ≤ p.Stock) (hs : ∀ q ∈ s.products, 0 ≤ q.Stock) :
    ∀ q ∈ (saveProduct last s p).products, 0 ≤ q.Stock := by
  intro q hq
  unfold saveProduct at hq
  split_ifs at hq with h0 h1
  · simp only [List.mem_append, List.mem_singleton] at hq
    rcases hq with hq | hq
    · exact hs q hq
    · subst hq; exact hp
  · simp only [List.mem_map] at hq
    obtain ⟨r, hr, hrq⟩ := hq
    split_ifs at hrq
    · subst hrq; exact hp
    · subst hrq; exact hs r hr
  · simp only [List.mem_append, List.mem_singleton] at hq
    rcases hq with hq | hq
    · exact hs q hq
    · subst hq; exact hp

/-! ## Lemmas on the loop of `CreateOrder` -/

theorem orderLoop_carts (fl : Faults) (items : List CartItem) :
    ∀ (i : Nat) (s : Store) (t : ℚ) (acc : List OrderItem),
      (orderLoop fl items i s t acc).1.carts = s.carts := by
  induction items with
  | nil => intro i s t acc; rfl
  | cons c rest ih =>
    intro i s t acc
    unfold orderLoop
    split_ifs
    · rfl
    · cases hsv : fl.save i with
      | some e => simp
      | none => simp only [ih]; exact saveProduct_carts _ _ _

theorem orderLoop_cartItems (fl : Faults) (items : List CartItem) :
    ∀ (i : Nat) (s : Store) (t : ℚ) (acc : List OrderItem),
      (orderLoop fl items i s t acc).1.cartItems = s.cartItems := by
  induction items with
  | nil => intro i s t acc; rfl
  | cons c rest ih =>
    intro i s t acc
    unfold orderLoop
    split_ifs
    · rfl
    · cases hsv : fl.save i with
      | some e => simp
      | none => simp only [ih]; exact saveProduct_cartItems _ _ _

theorem orderLoop_orders (fl : Faults) (items : List CartItem) :
    ∀ (i : Nat) (s : Store) (t : ℚ) (acc : List OrderItem),
      (orderLoop fl items i s t acc).1.orders = s.orders := by
  induction items with
  | nil => intro i s t acc; rfl
  | cons c rest ih =>
    intro i s t acc
    unfold orderLoop
    split_ifs
    · rfl
    · cases hsv : fl.save i with
      | some e => simp
      | none => simp only [ih]; exact saveProduct_orders _ _ _

theorem orderLoop_stock_nonneg (fl : Faults) (items : List CartItem) :
    ∀ (i : Nat) (s : Store) (t : ℚ) (acc : List OrderItem),
      (∀ c ∈ items, c.Product.Stock - c.Quantity < 2 ^ 63) →
      (∀ q ∈ s.products, 0 ≤ q.Stock) →
      ∀ q ∈ (orderLoop fl items i s t acc).1.products, 0 ≤ q.Stock := by
  induction items with
  | nil => intro i s t acc _ hs; exact hs
  | cons c rest ih =>
    intro i s t acc hfit hs
    unfold orderLoop
    split_ifs with hlt
    · exact hs
    · cases hsv : fl.save i with
      | some e => exact hs
      | none =>
        apply ih _ _ _ _ (fun x hx => hfit x (List.mem_cons_of_mem _ hx))
        apply saveProduct_stock_nonneg _ _ _ _ hs
        have hc := hfit c (List.mem_cons_self _ _)
        show 0 ≤ wrap64 (c.Product.Stock - c.Quantity)
        rw [wrap64_of_range _ (by omega) hc]
        omega

/-! ## What a successful run went through -/

theorem createOrderTx_ok (fl : Faults) (userID : Nat) (s s1 : Store) (o : Order)
    (h : createOrderTx fl userID s = (s1, Except.ok o)) :
    ∃ cart total items sl,
      loadCart s userID = some cart ∧ cart.CartItems ≠ [] ∧
      orderLoop fl cart.CartItems 0 s 0 [] = (sl, Except.ok (total, items)) ∧
      s1 = deleteCartItems (insertOrder fl.last sl (newOrder userID total items)).1 cart.ID ∧
      loadOrder s1 (insertOrder fl.last sl (newOrder userID total items)).2.ID = some o := by
  unfold createOrderTx at h
  cases hf : fl.first with
  | true => simp [hf] at h
  | false =>
    simp only [hf, Bool.false_eq_true, if_false] at h
    cases hc : loadCart s userID with
    | none => simp [hc] at h
    | some cart =>
      simp only [hc] at h
      split_ifs at h with hlen
      · simp at h
      · rcases hl : orderLoop fl cart.CartItems 0 s 0 [] with ⟨sl, r⟩
        rw [hl] at h
        cases r with
        | error e => simp at h
        | ok v =>
          obtain ⟨total, items⟩ := v
          simp only at h
          cases hcr : fl.create with
          | some e => simp [hcr] at h
          | none =>
            simp only [hcr] at h
            cases hd : fl.delete with
            | some e => simp [hd] at h
            | none =>
              simp only [hd] at h
              cases hr : fl.reload with
              | some e => simp [hr] at h
              | none =>
                simp only [hr] at h
                split at h
                · simp at h
                · rename_i o1 hlo
                  simp only [Prod.mk.injEq, Except.ok.injEq] at h
                  obtain ⟨h1, h2⟩ := h
                  refine ⟨cart, total, items, sl, rfl, ?_, hl, ?_, ?_⟩
                  · intro hnil; apply hlen; simp [hnil]
                  · exact h1.symm
                  · rw [← h1, ← h2]; exact hlo

theorem CreateOrder_ok (fl : Faults) (userID : Nat) (s s1 : Store) (o : Order)
    (h : CreateOrder fl s userID = (s1, Except.ok o)) :
    createOrderTx fl userID s = (s1, Except.ok o) := by
  unfold CreateOrder Transaction at h
  rcases hx : createOrderTx fl userID s with ⟨s2, r⟩
  rw [hx] at h
  cases r with
  | error e => simp at h
  | ok a =>
    cases hc : fl.commit with
    | some e => simp [hc] at h
    | none =>
      simp only [hc, Prod.mk.injEq, Except.ok.injEq] at h
      rw [h.1, h.2]

/-! ## The order transaction: atomicity and the stock invariant -/

theorem Transaction_error {α : Type} (commit : Option String)
    (fn : Store → Store × Except String α) (s : Store) (e : String)
    (h : (Transaction commit fn s).2 = Except.error e) : (Transaction commit fn s).1 = s := by
  unfold Transaction at h ⊢
  rcases hx : fn s with ⟨s2, r⟩
  rw [hx] at h
  cases r with
  | error e1 => rfl
  | ok a =>
    cases commit with
    | some e1 => rfl
    | none => simp at h

/-- C1: whenever `CreateOrder` returns an error (cart not found, cart empty,
insufficient stock, a failed write or a failed commit), the store after the call
is the store before it: cart, cart items, product stock and orders alike. -/
theorem CreateOrder_error_store_unchanged (fl : Faults) (s : Store) (userID : Nat) (e : String)
    (h : (CreateOrder fl s userID).2 = Except.error e) :
    (CreateOrder fl s userID).1 = s ∧
      loadCart (CreateOrder fl s userID).1 userID = loadCart s userID ∧
      (∀ id, findProduct (CreateOrder fl s userID).1 id = findProduct s id) ∧
      (CreateOrder fl s userID).1.orders = s.orders := by
  have hs : (CreateOrder fl s userID).1 = s := by
    unfold CreateOrder at h ⊢
    exact Transaction_error fl.commit (createOrderTx fl userID) s e h
  rw [hs]
  exact ⟨rfl, rfl, fun _ => rfl, rfl⟩

theorem CreateOrder_error_store_unchanged_witness :
    (CreateOrder Faults.none storeB 7).2 = Except.error "insufficient stock for product: Q" ∧
      (CreateOrder Faults.none storeB 7).1 = storeB :=
  ⟨rfl, (CreateOrder_error_store_unchanged Faults.none storeB 7 _ rfl).1⟩

/-- C2 (as stated, refuted): every stock of `storeM` is non-negative; the cart of
user 7 holds a line of quantity -1 of M, whose stock is the largest `int`.  The
check `Stock < Quantity` passes, `Stock -= Quantity` leaves the range of `int`,
`CreateOrder` succeeds and the stock of M afterwards is `-2 ^ 63`. -/
theorem CreateOrder_stock_negative :
    (∀ p ∈ storeM.products, 0 ≤ p.Stock) ∧
      ∃ s1 o, CreateOrder Faults.none storeM 7 = (s1, Except.ok o) ∧
        s1.products = [{ productM with Stock := -2 ^ 63 }] ∧
        ¬ ∀ p ∈ s1.products, 0 ≤ p.Stock :=
  ⟨by decide, _, _, rfl, by decide, by decide⟩

/-- C2 (amended): if every product's stock is non-negative before `CreateOrder`
and, for each line of the user's cart, the stock of the line's product minus the
line's quantity is below `2 ^ 63` (as it is when no line has a negative
quantity), every product's stock is non-negative after the call, whether the
call returned an order or an error. -/
theorem CreateOrder_stock_nonneg (fl : Faults) (s : Store) (userID : Nat)
    (h : ∀ p ∈ s.products, 0 ≤ p.Stock)
    (hfit : ∀ cart, loadCart s userID = some cart →
      ∀ l ∈ cart.CartItems, l.Product.Stock - l.Quantity < 2 ^ 63) :
    ∀ p ∈ (CreateOrder fl s userID).1.products, 0 ≤ p.Stock := by
  rcases hx : CreateOrder fl s userID with ⟨s1, r⟩
  cases r with
  | error e =>
    have h1 : (CreateOrder fl s userID).1 = s := by
      unfold CreateOrder
      apply Transaction_error fl.commit (createOrderTx fl userID) s e
      unfold CreateOrder at hx
      rw [hx]
    rw [hx] at h1
    simp only at h1 ⊢
    rw [h1]; exact h
  | ok o =>
    obtain ⟨cart, total, items, sl, hcart, -, hl, hs1, -⟩ :=
      createOrderTx_ok fl userID s s1 o (CreateOrder_ok fl userID s s1 o hx)
    have h2 := orderLoop_stock_nonneg fl cart.CartItems 0 s 0 [] (hfit cart hcart) h
    rw [hl] at h2
    simp only at h2 ⊢
    rw [hs1]
    exact h2

theorem CreateOrder_stock_nonneg_witness :
    (∀ p ∈ storeA.products, 0 ≤ p.Stock) ∧
      ∀ p ∈ (CreateOrder Faults.none storeA 7).1.products, 0 ≤ p.Stock :=
  ⟨by decide, CreateOrder_stock_nonneg Faults.none storeA 7 (by decide)
    (by
      intro cart hcart l hl
      have hc : cart = { ID := 1, UserID := 7, CartItems :=
          [{ ID := 1, CartID := 1, ProductID := 1, Quantity := 2, Product := productP }] } :=
        (Option.some.inj hcart).symm
      subst hc
      simp only [List.mem_singleton] at hl
      subst hl
      decide)⟩

/-! ## Lemmas on product lookup -/

theorem findProduct_some_ID (s : Store) (id : Nat) (p : Product)
    (h : findProduct s id = some p) : p.ID = id := by
  unfold findProduct at h
  have := List.find?_some h
  simpa using this

theorem find_replace_same (p : Product) (l : List Product)
    (h : (l.find? (fun q => q.ID = p.ID)).isSome) :
    (l.map (fun q => if q.ID = p.ID then p else q)).find? (fun q => q.ID = p.ID) = some p := by
  induction l with
  | nil => simp at h
  | cons a rest ih =>
    by_cases ha : a.ID = p.ID
    · simp [ha]
    · have h1 : (rest.find? (fun q => q.ID = p.ID)).isSome := by
        simpa [List.find?, ha] using h
      simp only [List.map_cons, ha, if_false, List.find?, decide_False]
      exact ih h1

theorem find_replace_other (p : Product) (id : Nat) (hne : p.ID ≠ id) (l : List Product) :
    (l.map (fun q => if q.ID = p.ID then p else q)).find? (fun q => q.ID = id) =
      l.find? (fun q => q.ID = id) := by
  induction l with
  | nil => rfl
  | cons a rest ih =>
    by_cases ha : a.ID = p.ID
    · have hai : ¬ a.ID = id := by rw [ha]; exact hne
      simp only [List.map_cons, ha, if_true, List.find?, hne, hai, decide_False]
      exact ih
    · by_cases hai : a.ID = id
      · subst hai
        simp only [List.map_cons, ha, if_false, List.find?, decide_True]
      · simp only [List.map_cons, ha, if_false, List.find?, hai, decide_False]
        exact ih

theorem findProduct_saveProduct_same (last : Sequences) (s : Store) (p : Product)
    (h0 : p.ID ≠ 0) (h : (findProduct s p.ID).isSome) :
    findProduct (saveProduct last s p) p.ID = some p := by
  have hany : s.products.any (fun q => decide (q.ID = p.ID)) = true := by
    unfold findProduct at h
    rw [List.find?_isSome] at h
    rw [List.any_eq_true]
    exact h
  unfold saveProduct
  rw [if_neg h0, if_pos hany]
  exact find_replace_same p s.products h

theorem findProduct_saveProduct_other (last : Sequences) (s : Store) (p : Product) (id : Nat)
    (hne : p.ID = 0 ∨ p.ID ≠ id) (h : (findProduct s id).isSome) :
    findProduct (saveProduct last s p) id = findProduct s id := by
  unfold findProduct at h ⊢
  obtain ⟨q, hq⟩ := Option.isSome_iff_exists.mp h
  unfold saveProduct
  split_ifs with h0 h1
  · simp only [List.find?_append, hq, Option.or_some]
  · rcases hne with hz | hne
    · exact absurd hz h0
    · exact find_replace_other p id hne s.products
  · simp only [List.find?_append, hq, Option.or_some]

/-! ## The loop of `CreateOrder`, line by line -/

theorem orderLoop_cons_ok (fl : Faults) (c : CartItem) (rest : List CartItem) (i : Nat)
    (s s1 : Store) (t : ℚ) (acc : List OrderItem) (r : ℚ × List OrderItem)
    (h : orderLoop fl (c :: rest) i s t acc = (s1, Except.ok r)) :
    ¬ c.Product.Stock < c.Quantity ∧ fl.save i = Option.none ∧
      orderLoop fl rest (i + 1) (saveProduct fl.last s (stockAfter c))
        (t + lineTotal c) (acc ++ [lineItem c]) = (s1, Except.ok r) := by
  unfold orderLoop at h
  split_ifs at h with hlt
  · simp at h
  · cases hsv : fl.save i with
    | some e => simp [hsv] at h
    | none =>
      simp only [hsv] at h
      exact ⟨hlt, rfl, h⟩

theorem orderLoop_find_other (fl : Faults) (id : Nat) (items : List CartItem) :
    ∀ (i : Nat) (s : Store) (t : ℚ) (acc : List OrderItem),
      (∀ c ∈ items, c.Product.ID = 0 ∨ c.Product.ID ≠ id) → (findProduct s id).isSome →
      findProduct (orderLoop fl items i s t acc).1 id = findProduct s id := by
  induction items with
  | nil => intro i s t acc _ _; rfl
  | cons c rest ih =>
    intro i s t acc hids hsome
    unfold orderLoop
    split_ifs with hlt
    · rfl
    · cases hsv : fl.save i with
      | some e => rfl
      | none =>
        have hc := hids c (List.mem_cons_self _ _)
        have hstep := findProduct_saveProduct_other fl.last s (stockAfter c) id hc hsome
        have hsome1 : (findProduct (saveProduct fl.last s (stockAfter c)) id).isSome := by
          rw [hstep]; exact hsome
        have := ih (i + 1) (saveProduct fl.last s (stockAfter c)) (t + lineTotal c)
          (acc ++ [lineItem c]) (fun x hx => hids x (List.mem_cons_of_mem _ hx)) hsome1
        simp only
        rw [← hstep]
        exact this

theorem orderLoop_find_line (fl : Faults) (items : List CartItem) :
    ∀ (i : Nat) (s s1 : Store) (t : ℚ) (acc : List OrderItem) (r : ℚ × List OrderItem),
      orderLoop fl items i s t acc = (s1, Except.ok r) →
      (items.map (fun c => c.ProductID)).Nodup →
      (∀ c ∈ items, c.Product.ID = 0 ∨ c.Product.ID = c.ProductID) →
      ∀ c ∈ items, c.Product.ID ≠ 0 → (findProduct s c.ProductID).isSome →
        findProduct s1 c.ProductID = some (stockAfter c) := by
  induction items with
  | nil => intro i s s1 t acc r _ _ _ c hc; simp at hc
  | cons c0 rest ih =>
    intro i s s1 t acc r hrun hnd hids c hc hc0 hsome
    obtain ⟨-, -, hrest⟩ := orderLoop_cons_ok fl c0 rest i s s1 t acc r hrun
    rw [List.map_cons, List.nodup_cons] at hnd
    obtain ⟨hnotin, hnd1⟩ := hnd
    have hdiff : ∀ x ∈ rest, x.ProductID ≠ c0.ProductID := by
      intro x hx heq
      apply hnotin
      rw [← heq]
      exact List.mem_map_of_mem (fun c => c.ProductID) hx
    rcases List.mem_cons.mp hc with heq | hin
    · subst heq
      have hid : c.Product.ID = c.ProductID := by
        rcases hids c (List.mem_cons_self _ _) with h | h
        · exact absurd h hc0
        · exact h
      have hsave : findProduct (saveProduct fl.last s (stockAfter c)) c.ProductID = some (stockAfter c) := by
        have := findProduct_saveProduct_same fl.last s (stockAfter c) hc0 (by
          show (findProduct s c.Product.ID).isSome
          rw [hid]; exact hsome)
        rw [← hid]; exact this
      have hother := orderLoop_find_other fl c.ProductID rest (i + 1)
        (saveProduct fl.last s (stockAfter c)) (t + lineTotal c) (acc ++ [lineItem c])
        (by
          intro x hx
          rcases hids x (List.mem_cons_of_mem _ hx) with h | h
          · exact Or.inl h
          · right; rw [h]; exact hdiff x hx)
        (by rw [hsave]; rfl)
      rw [hrest, hsave] at hother
      exact hother
    · apply ih (i + 1) (saveProduct fl.last s (stockAfter c0)) s1 (t + lineTotal c0)
        (acc ++ [lineItem c0]) r hrest hnd1 (fun x hx => hids x (List.mem_cons_of_mem _ hx))
        c hin hc0
      have hne : (stockAfter c0).ID = 0 ∨ (stockAfter c0).ID ≠ c.ProductID := by
        rcases hids c0 (List.mem_cons_self _ _) with h | h
        · exact Or.inl h
        · right
          show c0.Product.ID ≠ c.ProductID
          rw [h]; exact fun e => hdiff c hin e.symm
      rw [findProduct_saveProduct_other fl.last s (stockAfter c0) c.ProductID hne hsome]
      exact hsome

/-! ## The cart as loaded, the totals and the created order -/

theorem preloadProduct_ID (s : Store) (id : Nat) :
    (preloadProduct s id).ID = 0 ∨ (preloadProduct s id).ID = id := by
  unfold preloadProduct
  cases h : findProduct s id with
  | none => left; rfl
  | some p => right; exact findProduct_some_ID s id p h

theorem loadCart_items (s : Store) (userID : Nat) (cart : Cart)
    (h : loadCart s userID = some cart) : cart.CartItems = preloadCartItems s cart.ID := by
  unfold loadCart at h
  cases hr : firstCartRow s userID with
  | none => simp [hr] at h
  | some c =>
    simp only [hr, Option.map_some', Option.some.injEq] at h
    rw [← h]

theorem loadCart_line_product (s : Store) (userID : Nat) (cart : Cart)
    (h : loadCart s userID = some cart) :
    ∀ l ∈ cart.CartItems, l.Product = preloadProduct s l.ProductID := by
  intro l hl
  rw [loadCart_items s userID cart h] at hl
  unfold preloadCartItems at hl
  simp only [List.mem_map] at hl
  obtain ⟨r, -, hrl⟩ := hl
  rw [← hrl]

theorem orderLoop_result (fl : Faults) (items : List CartItem) :
    ∀ (i : Nat) (s s1 : Store) (t : ℚ) (acc : List OrderItem) (r : ℚ × List OrderItem),
      orderLoop fl items i s t acc = (s1, Except.ok r) →
      r.1 = t + (items.map lineTotal).sum ∧ r.2 = acc ++ items.map lineItem := by
  induction items with
  | nil =>
    intro i s s1 t acc r h
    unfold orderLoop at h
    simp only [Prod.mk.injEq, Except.ok.injEq] at h
    rw [← h.2]
    simp
  | cons c rest ih =>
    intro i s s1 t acc r h
    obtain ⟨-, -, hrest⟩ := orderLoop_cons_ok fl c rest i s s1 t acc r h
    obtain ⟨h1, h2⟩ := ih _ _ _ _ _ _ hrest
    constructor
    · rw [h1, List.map_cons, List.sum_cons]; ring
    · rw [h2]; simp

theorem le_foldl_max (ids : List Nat) :
    ∀ (init : Nat), init ≤ ids.foldl max init ∧ ∀ x ∈ ids, x ≤ ids.foldl max init := by
  induction ids with
  | nil => intro init; simp
  | cons a rest ih =>
    intro init
    obtain ⟨h1, h2⟩ := ih (max init a)
    simp only [List.foldl_cons, List.mem_cons, forall_eq_or_imp]
    refine ⟨le_trans (le_max_left _ _) h1, le_trans (le_max_right _ _) h1, h2⟩

theorem lt_freshID (last : Nat) (ids : List Nat) : ∀ x ∈ ids, x < freshID last ids := by
  intro x hx
  unfold freshID
  exact Nat.lt_succ_of_le (le_trans ((le_foldl_max ids 0).2 x hx) (le_max_right _ _))

theorem loadOrder_fresh (fl : Faults) (sl : Store) (no : Order) (cartID : Nat) :
    loadOrder (deleteCartItems (insertOrder fl.last sl no).1 cartID)
        (insertOrder fl.last sl no).2.ID =
      some { (insertOrder fl.last sl no).2 with
        OrderItems := preloadOrderItems (deleteCartItems (insertOrder fl.last sl no).1 cartID)
          (insertOrder fl.last sl no).2.OrderItems } := by
  unfold loadOrder
  have hnone : sl.orders.find?
      (fun o => o.ID = freshID fl.last.orders (sl.orders.map (fun x => x.ID))) =
      Option.none := by
    rw [List.find?_eq_none]
    intro x hx
    have := lt_freshID fl.last.orders (sl.orders.map (fun x => x.ID)) x.ID
      (List.mem_map_of_mem _ hx)
    simp only [decide_eq_true_eq]
    omega
  simp only [deleteCartItems, insertOrder, List.find?_append, hnone, Option.none_or,
    List.find?, decide_True, Option.map_some']

theorem insertOrder_items_fields (last : Sequences) (sl : Store) (no : Order) :
    (insertOrder last sl no).2.OrderItems.map (fun it => (it.ProductID, it.Quantity, it.Price)) =
      no.OrderItems.map (fun it => (it.ProductID, it.Quantity, it.Price)) := by
  unfold insertOrder
  simp only [List.map_map]
  conv_rhs => rw [← List.enum_map_snd no.OrderItems, List.map_map]
  rfl

theorem CreateOrder_success (fl : Faults) (s s1 : Store) (userID : Nat) (o : Order) (cart : Cart)
    (h : CreateOrder fl s userID = (s1, Except.ok o)) (hcart : loadCart s userID = some cart) :
    ∃ sl,
      orderLoop fl cart.CartItems 0 s 0 [] =
        (sl, Except.ok ((cart.CartItems.map lineTotal).sum, cart.CartItems.map lineItem)) ∧
      cart.CartItems ≠ [] ∧
      s1 = deleteCartItems (insertOrder fl.last sl
        (newOrder userID (cart.CartItems.map lineTotal).sum
          (cart.CartItems.map lineItem))).1 cart.ID ∧
      o = { (insertOrder fl.last sl (newOrder userID (cart.CartItems.map lineTotal).sum
              (cart.CartItems.map lineItem))).2 with
            OrderItems := preloadOrderItems s1
              (insertOrder fl.last sl (newOrder userID (cart.CartItems.map lineTotal).sum
                (cart.CartItems.map lineItem))).2.OrderItems } := by
  obtain ⟨cart1, total, items, sl, hc1, hne, hl, hs1, hlo⟩ :=
    createOrderTx_ok fl userID s s1 o (CreateOrder_ok fl userID s s1 o h)
  rw [hcart, Option.some.injEq] at hc1
  subst hc1
  obtain ⟨ht, hi⟩ := orderLoop_result fl cart.CartItems 0 s sl 0 [] (total, items) hl
  simp only [zero_add, List.nil_append] at ht hi
  subst ht hi
  refine ⟨sl, hl, hne, hs1, ?_⟩
  rw [hs1, loadOrder_fresh, Option.some.injEq] at hlo
  rw [← hlo, ← hs1]

/-! ## The order transaction: stock, totals, cart and order -/

theorem orderLoop_checks (fl : Faults) (items : List CartItem) :
    ∀ (i : Nat) (s s1 : Store) (t : ℚ) (acc : List OrderItem) (r : ℚ × List OrderItem),
      orderLoop fl items i s t acc = (s1, Except.ok r) →
      ∀ c ∈ items, ¬ c.Product.Stock < c.Quantity := by
  induction items with
  | nil => intro i s s1 t acc r _ c hc; simp at hc
  | cons c0 rest ih =>
    intro i s s1 t acc r hrun c hc
    obtain ⟨hchk, -, hrest⟩ := orderLoop_cons_ok fl c0 rest i s s1 t acc r hrun
    rcases List.mem_cons.mp hc with heq | hin
    · rw [heq]; exact hchk
    · exact ih _ _ _ _ _ _ hrest c hin

/-- C3 (as stated, refuted): the cart of user 7 in `storeM` holds the one line of
quantity -1 of M, whose stock is `2 ^ 63 - 1`.  `CreateOrder` succeeds, and the
stock of M afterwards is `-2 ^ 63`, not the stock before minus the quantity,
`2 ^ 63`. -/
theorem CreateOrder_stock_wraps :
    ∃ s1 o, CreateOrder Faults.none storeM 7 = (s1, Except.ok o) ∧
      findProduct storeM 1 = some productM ∧ productM.Stock - (-1) = 2 ^ 63 ∧
      findProduct s1 1 = some { productM with Stock := -2 ^ 63 } ∧
      findProduct s1 1 ≠ some { productM with Stock := productM.Stock - (-1) } :=
  ⟨_, _, rfl, rfl, by decide, rfl, by decide⟩

/-- C3 (amended): when `CreateOrder` succeeds on a cart whose lines reference
pairwise distinct products, the stock of each line's product (a row with a
non-zero primary key) afterwards is its stock before the call minus the line's
quantity in 64-bit arithmetic, which is the exact difference whenever that is
below `2 ^ 63` (as for every line whose quantity is not negative); every product
that no line references is unchanged. -/
theorem CreateOrder_stock_decrement (fl : Faults) (s s1 : Store) (userID : Nat) (o : Order)
    (cart : Cart) (hrun : CreateOrder fl s userID = (s1, Except.ok o))
    (hcart : loadCart s userID = some cart)
    (hdist : (cart.CartItems.map (fun l => l.ProductID)).Nodup) :
    (∀ l ∈ cart.CartItems, ∀ p, findProduct s l.ProductID = some p → p.ID ≠ 0 →
        findProduct s1 l.ProductID = some { p with Stock := wrap64 (p.Stock - l.Quantity) } ∧
        (p.Stock - l.Quantity < 2 ^ 63 →
          findProduct s1 l.ProductID = some { p with Stock := p.Stock - l.Quantity })) ∧
    (∀ id p, findProduct s id = some p → id ∉ cart.CartItems.map (fun l => l.ProductID) →
        findProduct s1 id = some p) := by
  obtain ⟨sl, hl, -, hs1, -⟩ := CreateOrder_success fl s s1 userID o cart hrun hcart
  have hprod : ∀ id, findProduct s1 id = findProduct sl id := by
    intro id; rw [hs1]; rfl
  have hids : ∀ c ∈ cart.CartItems, c.Product.ID = 0 ∨ c.Product.ID = c.ProductID := by
    intro c hc
    rw [loadCart_line_product s userID cart hcart c hc]
    exact preloadProduct_ID s c.ProductID
  constructor
  · intro l hl1 p hp hp0
    have hlp : l.Product = p := by
      rw [loadCart_line_product s userID cart hcart l hl1]
      unfold preloadProduct; rw [hp]; rfl
    have := orderLoop_find_line fl cart.CartItems 0 s sl 0 [] _ hl hdist hids l hl1
      (by rw [hlp]; exact hp0) (by rw [hp]; rfl)
    have hwrap : findProduct s1 l.ProductID =
        some { p with Stock := wrap64 (p.Stock - l.Quantity) } := by
      rw [hprod, this]
      unfold stockAfter
      rw [hlp]
    refine ⟨hwrap, ?_⟩
    intro hfit
    have hchk := orderLoop_checks fl cart.CartItems 0 s sl 0 [] _ hl l hl1
    rw [hlp] at hchk
    rw [hwrap, wrap64_of_range _ (by omega) hfit]
  · intro id p hp hnot
    have := orderLoop_find_other fl id cart.CartItems 0 s 0 []
      (by
        intro c hc
        rcases hids c hc with h | h
        · exact Or.inl h
        · right; rw [h]; intro heq; apply hnot; rw [← heq]
          exact List.mem_map_of_mem (fun l => l.ProductID) hc)
      (by rw [hp]; rfl)
    rw [hl] at this
    rw [hprod, this, hp]

theorem CreateOrder_stock_decrement_witness :
    ∃ s1 o cart, CreateOrder Faults.none storeA 7 = (s1, Except.ok o) ∧
      loadCart storeA 7 = some cart ∧ (cart.CartItems.map (fun l => l.ProductID)).Nodup ∧
      findProduct storeA 1 = some productP ∧ productP.Stock = 5 ∧
      findProduct s1 1 = some { productP with Stock := 3 } :=
  ⟨_, _, _, rfl, rfl, by decide, rfl, rfl,
    ((CreateOrder_stock_decrement Faults.none storeA _ 7 _ _ rfl rfl (by decide)).1
      { ID := 1, CartID := 1, ProductID := 1, Quantity := 2, Product := productP }
      (by decide) productP rfl (by decide)).2 (by decide)⟩

/-- C4: when `CreateOrder` succeeds, the order's `TotalAmount` is the sum, over the
cart lines as loaded at the start of the call, of line quantity times the unit
price of the line's product, prices being exact numbers. -/
theorem CreateOrder_total (fl : Faults) (s s1 : Store) (userID : Nat) (o : Order) (cart : Cart)
    (hrun : CreateOrder fl s userID = (s1, Except.ok o))
    (hcart : loadCart s userID = some cart) :
    o.TotalAmount =
      (cart.CartItems.map
        (fun l => (l.Quantity : ℚ) * (preloadProduct s l.ProductID).Price)).sum := by
  obtain ⟨sl, -, -, -, ho⟩ := CreateOrder_success fl s s1 userID o cart hrun hcart
  rw [ho]
  show (cart.CartItems.map lineTotal).sum = _
  congr 1
  apply List.map_congr_left
  intro l hl
  unfold lineTotal
  rw [loadCart_line_product s userID cart hcart l hl]

theorem CreateOrder_total_witness :
    ∃ s1 o cart, CreateOrder Faults.none storeA 7 = (s1, Except.ok o) ∧
      loadCart storeA 7 = some cart ∧ o.TotalAmount = 20 := by
  refine ⟨_, _, _, rfl, rfl, ?_⟩
  rw [CreateOrder_total Faults.none storeA _ 7 _ _ rfl rfl]
  simp [loadCart, firstCartRow, storeA, firstByID, preloadCartItems, preloadProduct,
    findProduct, productP]
  norm_num

/-- C5 (as stated, refuted): in scenario A the created order has total 20, its one
item has quantity 2 and `Price` 20, the line total and not the unit price 10, so
the sum of `Price` times `Quantity` is 40. -/
theorem CreateOrder_total_ne_price_times_quantity :
    ∃ s1 o, CreateOrder Faults.none storeA 7 = (s1, Except.ok o) ∧
      o.TotalAmount = 20 ∧
      o.OrderItems.map (fun it => (it.Quantity, it.Price)) = [(2, 20)] ∧
      (preloadProduct storeA 1).Price = 10 ∧
      o.TotalAmount ≠ (o.OrderItems.map (fun it => it.Price * (it.Quantity : ℚ))).sum := by
  refine ⟨_, _, rfl, ?_⟩
  obtain ⟨sl, -, -, -, ho⟩ := CreateOrder_success Faults.none storeA _ 7 _
    { ID := 1, UserID := 7, CartItems :=
        [{ ID := 1, CartID := 1, ProductID := 1, Quantity := 2, Product := productP }] } rfl rfl
  rw [ho]
  simp [insertOrder, newOrder, lineTotal, lineItem, preloadOrderItems, productP,
    preloadProduct, findProduct, storeA, List.enum, List.enumFrom]
  norm_num

theorem CreateOrder_order_fields (fl : Faults) (s s1 : Store) (userID : Nat)
    (o : Order) (cart : Cart) (hrun : CreateOrder fl s userID = (s1, Except.ok o))
    (hcart : loadCart s userID = some cart) :
    o.UserID = userID ∧ o.Status = OrderStatusPending ∧
    o.TotalAmount = (cart.CartItems.map lineTotal).sum ∧
    o.OrderItems.map (fun it => (it.ProductID, it.Quantity, it.Price)) =
      cart.CartItems.map (fun l => (l.ProductID, l.Quantity, lineTotal l)) := by
  obtain ⟨sl, -, -, -, ho⟩ := CreateOrder_success fl s s1 userID o cart hrun hcart
  have hfields := insertOrder_items_fields fl.last sl
    (newOrder userID (cart.CartItems.map lineTotal).sum (cart.CartItems.map lineItem))
  refine ⟨by rw [ho]; rfl, by rw [ho]; rfl, by rw [ho]; rfl, ?_⟩
  rw [ho]
  simp only [preloadOrderItems, List.map_map]
  show List.map (fun (it : OrderItem) => (it.ProductID, it.Quantity, it.Price)) _ = _
  rw [hfields]
  simp only [newOrder, List.map_map]
  rfl

/-- C5 (amended): for every order created by `CreateOrder`, `TotalAmount` is the
sum of the `Price` of its items, each item's `Price` being its line total, the
line quantity times the product's unit price at purchase time; the response of
`OrderService.CreateOrder` carries the same total and item prices. -/
theorem CreateOrder_total_eq_sum_item_price (fl : Faults) (s s1 : Store) (userID : Nat)
    (o : Order) (cart : Cart) (hrun : CreateOrder fl s userID = (s1, Except.ok o))
    (hcart : loadCart s userID = some cart) :
    o.TotalAmount = (o.OrderItems.map (fun it => it.Price)).sum ∧
    o.OrderItems.map (fun it => (it.Quantity, it.Price)) =
      cart.CartItems.map
        (fun l => (l.Quantity, (l.Quantity : ℚ) * (preloadProduct s l.ProductID).Price)) ∧
    OrderService.CreateOrder fl s userID = (s1, Except.ok (convertToOrderResponse o)) ∧
    (convertToOrderResponse o).TotalAmount =
      ((convertToOrderResponse o).OrderItems.map (fun it => it.Price)).sum := by
  obtain ⟨-, -, htotal, hitems⟩ := CreateOrder_order_fields fl s s1 userID o cart hrun hcart
  have hprice : o.OrderItems.map (fun it => it.Price) = cart.CartItems.map lineTotal := by
    have := congrArg (List.map (fun (t : Nat × Int × ℚ) => t.2.2)) hitems
    simpa [List.map_map, Function.comp] using this
  refine ⟨by rw [htotal, hprice], ?_, ?_, ?_⟩
  · have := congrArg (List.map (fun (t : Nat × Int × ℚ) => (t.2.1, t.2.2))) hitems
    rw [List.map_map, List.map_map] at this
    refine Eq.trans this ?_
    apply List.map_congr_left
    intro l hl
    show (l.Quantity, lineTotal l) = _
    unfold lineTotal
    rw [loadCart_line_product s userID cart hcart l hl]
  · unfold OrderService.CreateOrder
    rw [hrun]
  · show o.TotalAmount = _
    unfold convertToOrderResponse
    simp only [List.map_map]
    rw [htotal, ← hprice]
    rfl

theorem CreateOrder_total_eq_sum_item_price_witness :
    ∃ s1 o cart, CreateOrder Faults.none storeB 9 = (s1, Except.ok o) ∧
      loadCart storeB 9 = some cart ∧
      o.TotalAmount = (o.OrderItems.map (fun it => it.Price)).sum :=
  ⟨_, _, _, rfl, rfl,
    (CreateOrder_total_eq_sum_item_price Faults.none storeB _ 9 _ _ rfl rfl).1⟩

/-! ## The order transaction: failures -/

theorem orderLoop_first_shortage (fl : Faults) (l : CartItem) (post : List CartItem)
    (hl : l.Product.Stock < l.Quantity) (pre : List CartItem) :
    ∀ (i : Nat) (s : Store) (t : ℚ) (acc : List OrderItem),
      (∀ x ∈ pre, ¬ x.Product.Stock < x.Quantity) →
      (∀ j, j < pre.length → fl.save (i + j) = Option.none) →
      (orderLoop fl (pre ++ l :: post) i s t acc).2 =
        Except.error ("insufficient stock for product: " ++ l.Product.Name) := by
  induction pre with
  | nil =>
    intro i s t acc _ _
    simp only [List.nil_append]
    unfold orderLoop
    rw [if_pos hl]
  | cons c rest ih =>
    intro i s t acc hpre hsave
    simp only [List.cons_append]
    unfold orderLoop
    rw [if_neg (hpre c (List.mem_cons_self _ _))]
    have h0 : fl.save i = Option.none := by
      have := hsave 0 (by simp)
      simpa using this
    simp only [h0]
    apply ih
    · intro x hx; exact hpre x (List.mem_cons_of_mem _ hx)
    · intro j hj
      have := hsave (j + 1) (by simp; omega)
      rw [← this]
      congr 1
      omega

/-- C6: for a cart in which some line asks for more than its product's stock,
`CreateOrder` fails with `insufficient stock for product: <name>`, naming the
product of the first such line in cart-line order, and the store is left as it was,
the decrements saved for earlier lines included.  The run is one in which the cart
load and the saves before that line do not fail in the store. -/
theorem CreateOrder_insufficient_stock (fl : Faults) (s : Store) (userID : Nat) (cart : Cart)
    (pre post : List CartItem) (l : CartItem)
    (hfirst : fl.first = false) (hcart : loadCart s userID = some cart)
    (hlines : cart.CartItems = pre ++ l :: post)
    (hpre : ∀ x ∈ pre, ¬ x.Product.Stock < x.Quantity)
    (hl : l.Product.Stock < l.Quantity)
    (hsave : ∀ j, j < pre.length → fl.save j = Option.none) :
    CreateOrder fl s userID =
      (s, Except.error ("insufficient stock for product: " ++ l.Product.Name)) := by
  have hloop := orderLoop_first_shortage fl l post hl pre 0 s 0 [] hpre
    (by intro j hj; rw [Nat.zero_add]; exact hsave j hj)
  rw [← hlines] at hloop
  have hlen : ¬ cart.CartItems.length = 0 := by rw [hlines]; simp
  unfold CreateOrder Transaction createOrderTx
  simp only [hfirst, Bool.false_eq_true, if_false, hcart, hlen]
  rcases hx : orderLoop fl cart.CartItems 0 s 0 [] with ⟨s2, r⟩
  rw [hx] at hloop
  simp only at hloop
  rw [hloop]

theorem CreateOrder_insufficient_stock_witness :
    loadCart storeB 7 = some
        { ID := 1, UserID := 7, CartItems :=
          [{ ID := 1, CartID := 1, ProductID := 1, Quantity := 2, Product := productP }] ++
            { ID := 3, CartID := 1, ProductID := 2, Quantity := 3, Product := productQ } :: [] } ∧
      productQ.Stock < 3 ∧
      CreateOrder Faults.none storeB 7 =
        (storeB, Except.error ("insufficient stock for product: " ++ "Q")) :=
  ⟨rfl, by decide,
    CreateOrder_insufficient_stock Faults.none storeB 7 _
      [{ ID := 1, CartID := 1, ProductID := 1, Quantity := 2, Product := productP }] []
      { ID := 3, CartID := 1, ProductID := 2, Quantity := 3, Product := productQ }
      rfl rfl rfl (by decide) (by decide) (fun _ _ => rfl)⟩

/-- C7: for a user whose cart exists and has no lines, `CreateOrder` fails with
`cart is empty`; no order is created and no stock changes, the store being left as
it was. -/
theorem CreateOrder_empty_cart (fl : Faults) (s : Store) (userID : Nat) (cart : Cart)
    (hfirst : fl.first = false) (hcart : loadCart s userID = some cart)
    (hempty : cart.CartItems = []) :
    CreateOrder fl s userID = (s, Except.error "cart is empty") := by
  unfold CreateOrder Transaction createOrderTx
  simp only [hfirst, Bool.false_eq_true, if_false, hcart, hempty, List.length_nil, if_true]

theorem CreateOrder_empty_cart_witness :
    loadCart storeB 11 = some { ID := 3, UserID := 11, CartItems := [] } ∧
      CreateOrder Faults.none storeB 11 = (storeB, Except.error "cart is empty") :=
  ⟨rfl, CreateOrder_empty_cart Faults.none storeB 11 _ rfl rfl rfl⟩

/-! ## The order transaction: the cart and the order afterwards -/

theorem firstByID_mem {α : Type} (key : α → Nat) (l : List α) (x : α)
    (h : firstByID key l = some x) : x ∈ l := by
  induction l generalizing x with
  | nil => simp [firstByID] at h
  | cons a rest ih =>
    unfold firstByID at h
    cases hr : firstByID key rest with
    | none =>
      simp only [hr, Option.some.injEq] at h
      rw [← h]; exact List.mem_cons_self _ _
    | some y =>
      simp only [hr] at h
      split_ifs at h
      · simp only [Option.some.injEq] at h
        rw [← h]; exact List.mem_cons_of_mem _ (ih y hr)
      · simp only [Option.some.injEq] at h
        rw [← h]; exact List.mem_cons_self _ _

theorem loadCart_row (s : Store) (userID : Nat) (cart : Cart)
    (h : loadCart s userID = some cart) :
    ∃ row, firstCartRow s userID = some row ∧ row ∈ s.carts ∧ row.UserID = userID ∧
      row.ID = cart.ID ∧ cart.UserID = userID := by
  unfold loadCart at h
  cases hr : firstCartRow s userID with
  | none => simp [hr] at h
  | some row =>
    simp only [hr, Option.map_some', Option.some.injEq] at h
    have hmem := firstByID_mem _ _ _ hr
    simp only [List.mem_filter, decide_eq_true_eq] at hmem
    refine ⟨row, rfl, hmem.1, hmem.2, ?_, ?_⟩
    · rw [← h]
    · rw [← h]; exact hmem.2

/-- C8: after a successful `CreateOrder` the table of carts is unchanged, so the
user's cart still exists; loading it gives the same cart with zero items; the
`cart_items` rows left are those of the other carts, so the items of every other
user's cart are unchanged (cart keys being pairwise distinct). -/
theorem CreateOrder_clears_cart (fl : Faults) (s s1 : Store) (userID : Nat) (o : Order)
    (cart : Cart) (hrun : CreateOrder fl s userID = (s1, Except.ok o))
    (hcart : loadCart s userID = some cart) :
    s1.carts = s.carts ∧
    loadCart s1 userID = some { cart with CartItems := [] } ∧
    s1.cartItems = s.cartItems.filter (fun ci => ¬ ci.CartID = cart.ID) ∧
    (∀ cid, cid ≠ cart.ID →
      s1.cartItems.filter (fun ci => ci.CartID = cid) =
        s.cartItems.filter (fun ci => ci.CartID = cid)) ∧
    ((s.carts.map (fun c => c.ID)).Nodup → ∀ c ∈ s.carts, c.UserID ≠ userID →
      s1.cartItems.filter (fun ci => ci.CartID = c.ID) =
        s.cartItems.filter (fun ci => ci.CartID = c.ID)) := by
  obtain ⟨sl, hl, -, hs1, -⟩ := CreateOrder_success fl s s1 userID o cart hrun hcart
  have hcarts : s1.carts = s.carts := by
    have := orderLoop_carts fl cart.CartItems 0 s 0 []
    rw [hl] at this
    rw [hs1]; exact this
  have hitems : s1.cartItems = s.cartItems.filter (fun ci => ¬ ci.CartID = cart.ID) := by
    have := orderLoop_cartItems fl cart.CartItems 0 s 0 []
    rw [hl] at this
    simp only at this
    rw [hs1]
    show sl.cartItems.filter _ = _
    rw [this]
  have hother : ∀ cid, cid ≠ cart.ID →
      s1.cartItems.filter (fun ci => ci.CartID = cid) =
        s.cartItems.filter (fun ci => ci.CartID = cid) := by
    intro cid hne
    rw [hitems, List.filter_filter]
    apply List.filter_congr
    intro ci _
    by_cases h : ci.CartID = cid
    · have : ¬ ci.CartID = cart.ID := by rw [h]; exact hne
      simp [h, hne]
    · simp [h]
  obtain ⟨row, hrow, hmem, huser, hid, -⟩ := loadCart_row s userID cart hcart
  refine ⟨hcarts, ?_, hitems, hother, ?_⟩
  · have hc : cart = { row with CartItems := preloadCartItems s row.ID } := by
      unfold loadCart at hcart
      rw [hrow] at hcart
      simp only [Option.map_some', Option.some.injEq] at hcart
      exact hcart.symm
    have hrow1 : firstCartRow s1 userID = some row := by
      unfold firstCartRow at hrow ⊢
      rw [hcarts]; exact hrow
    have hnil : preloadCartItems s1 row.ID = [] := by
      unfold preloadCartItems
      rw [hitems, List.filter_filter, hid]
      simp
    unfold loadCart
    rw [hrow1, Option.map_some', hnil, hc]
  · intro hnd c hc huc
    apply hother
    intro heq
    apply huc
    have : c = row := List.inj_on_of_nodup_map hnd hc hmem (by rw [heq, hid])
    rw [this]; exact huser

theorem CreateOrder_clears_cart_witness :
    ∃ s1 o, CreateOrder Faults.none storeB 9 = (s1, Except.ok o) ∧
      loadCart storeB 9 = some { ID := 2, UserID := 9, CartItems :=
        [{ ID := 2, CartID := 2, ProductID := 2, Quantity := 1, Product := productQ }] } ∧
      loadCart s1 9 = some { ID := 2, UserID := 9, CartItems := [] } ∧
      (storeB.carts.map (fun c => c.ID)).Nodup ∧
      s1.cartItems.filter (fun ci => ci.CartID = 1) =
        storeB.cartItems.filter (fun ci => ci.CartID = 1) :=
  ⟨_, _, rfl, rfl,
    (CreateOrder_clears_cart Faults.none storeB _ 9 _ _ rfl rfl).2.1, by decide,
    (CreateOrder_clears_cart Faults.none storeB _ 9 _
      { ID := 2, UserID := 9, CartItems :=
        [{ ID := 2, CartID := 2, ProductID := 2, Quantity := 1, Product := productQ }] }
      rfl rfl).2.2.2.2 (by decide) { ID := 1, UserID := 7, CartItems := [] }
      (by decide) (by decide)⟩

/-- C9: a successful `CreateOrder` appends exactly one row to the table of orders,
under a key no earlier order has; the row is owned by `userID`, has status pending
and one item per cart line, in cart-line order, each with that line's product ID
and quantity and the key of the order; the order returned is that row. -/
theorem CreateOrder_adds_one_order (fl : Faults) (s s1 : Store) (userID : Nat) (o : Order)
    (cart : Cart) (hrun : CreateOrder fl s userID = (s1, Except.ok o))
    (hcart : loadCart s userID = some cart) :
    ∃ row, s1.orders = s.orders ++ [row] ∧ (∀ x ∈ s.orders, x.ID ≠ row.ID) ∧
      row.UserID = userID ∧ row.Status = OrderStatusPending ∧
      row.OrderItems.map (fun it => (it.ProductID, it.Quantity)) =
        cart.CartItems.map (fun l => (l.ProductID, l.Quantity)) ∧
      (∀ it ∈ row.OrderItems, it.OrderID = row.ID) ∧
      o.ID = row.ID ∧ o.UserID = userID ∧ o.Status = OrderStatusPending ∧
      o.OrderItems.map (fun it => (it.ProductID, it.Quantity)) =
        cart.CartItems.map (fun l => (l.ProductID, l.Quantity)) ∧
      o.OrderItems.length = cart.CartItems.length := by
  obtain ⟨sl, hl, -, hs1, ho⟩ := CreateOrder_success fl s s1 userID o cart hrun hcart
  obtain ⟨huser, hstatus, -, hfields⟩ :=
    CreateOrder_order_fields fl s s1 userID o cart hrun hcart
  have horders : sl.orders = s.orders := by
    have := orderLoop_orders fl cart.CartItems 0 s 0 []
    rw [hl] at this
    exact this
  have hrowfields := insertOrder_items_fields fl.last sl
    (newOrder userID (cart.CartItems.map lineTotal).sum (cart.CartItems.map lineItem))
  have hpair : o.OrderItems.map (fun it => (it.ProductID, it.Quantity)) =
      cart.CartItems.map (fun l => (l.ProductID, l.Quantity)) := by
    have := congrArg (List.map (fun (t : Nat × Int × ℚ) => (t.1, t.2.1))) hfields
    rw [List.map_map, List.map_map] at this
    exact this
  refine ⟨(insertOrder fl.last sl (newOrder userID (cart.CartItems.map lineTotal).sum
    (cart.CartItems.map lineItem))).2, ?_, ?_, rfl, rfl, ?_, ?_, ?_, huser, hstatus, hpair, ?_⟩
  · rw [hs1, ← horders]; rfl
  · intro x hx
    have := lt_freshID fl.last.orders (s.orders.map (fun x => x.ID)) x.ID
      (List.mem_map_of_mem _ hx)
    show x.ID ≠ freshID fl.last.orders (sl.orders.map (fun x => x.ID))
    rw [horders]
    omega
  · have := congrArg (List.map (fun (t : Nat × Int × ℚ) => (t.1, t.2.1))) hrowfields
    rw [List.map_map, List.map_map] at this
    refine Eq.trans this ?_
    show List.map _ (cart.CartItems.map lineItem) = _
    rw [List.map_map]
    rfl
  · intro it hit
    unfold insertOrder at hit
    simp only [List.mem_map] at hit
    obtain ⟨p, -, hp⟩ := hit
    rw [← hp]
    rfl
  · rw [ho]
  · have := congrArg List.length hpair
    simpa using this

theorem CreateOrder_adds_one_order_witness :
    ∃ s1 o cart row, CreateOrder Faults.none storeB 9 = (s1, Except.ok o) ∧
      loadCart storeB 9 = some cart ∧ s1.orders = storeB.orders ++ [row] ∧
      row.UserID = 9 ∧ row.Status = "pending" ∧
      row.OrderItems.map (fun it => (it.ProductID, it.Quantity)) = [(2, 1)] := by
  obtain ⟨row, h1, -, h2, h3, h4, -⟩ :=
    CreateOrder_adds_one_order Faults.none storeB _ 9 _
      { ID := 2, UserID := 9, CartItems :=
        [{ ID := 2, CartID := 2, ProductID := 2, Quantity := 1, Product := productQ }] }
      rfl rfl
  exact ⟨_, _, _, row, rfl, rfl, h1, h2, h3, h4⟩

/-! ## `CartService.AddToCart` for a user without a cart -/

theorem AddToCart_without_cart_never_ok (fl : CartFaults) (s : Store) (userID : Nat)
    (req : AddToCartRequest) (hno : loadCart s userID = Option.none) :
    ∀ s1 resp, AddToCart fl s userID req ≠ (s1, Outcome.ok resp) := by
  intro s1 resp h
  have hfound : ∀ c, GetByUserID fl.getCart s userID ≠ Except.ok c := by
    intro c
    unfold GetByUserID
    cases fl.getCart with
    | some e => simp
    | none => simp [hno]
  unfold AddToCart at h
  cases hp : GetProductByID fl.getProduct s req.ProductID with
  | error e => simp [hp] at h
  | ok product =>
    simp only [hp] at h
    split_ifs at h with hstock
    · simp at h
    · cases hg : GetByUserID fl.getCart s userID with
      | ok c => exact hfound c hg
      | error e =>
        simp only [hg, Except.toOption] at h
        cases hc : CartRepository.Create fl.last fl.createCart s
            { ID := 0, UserID := userID, CartItems := [] } with
        | error e1 => simp [hc] at h
        | ok s2 => simp [hc] at h

/-- C10 (the code at the failing input): user 8 has no cart, product 1 exists with
stock 5 and the request asks for 2 units; no store operation fails.  `AddToCart`
inserts a cart for user 8 and then ends in a nil-pointer fault instead of
returning the cart. -/
theorem AddToCart_without_cart_faults :
    loadCart storeA 8 = Option.none ∧ findProduct storeA 1 = some productP ∧
      AddToCart CartFaults.none storeA 8 { ProductID := 1, Quantity := 2 } =
        ({ storeA with carts := storeA.carts ++ [{ ID := 2, UserID := 8, CartItems := [] }] },
          Outcome.fault nilDereference) :=
  ⟨rfl, rfl, rfl⟩

/-! ## `CartService.RemoveFromCart` -/

theorem mem_withoutItemOf (s : Store) (userID itemID : Nat) (ci : CartItem) :
    ci ∈ withoutItemOf s userID itemID ↔
      ci ∈ s.cartItems ∧ ¬ (ci.ID = itemID ∧ inCartOf s userID ci.CartID = true) := by
  unfold withoutItemOf
  simp only [List.mem_filter, decide_eq_true_eq]

theorem withoutItemOf_eq_self (s : Store) (userID itemID : Nat)
    (h : ∀ ci ∈ s.cartItems, ci.ID = itemID → inCartOf s userID ci.CartID = false) :
    withoutItemOf s userID itemID = s.cartItems := by
  unfold withoutItemOf
  rw [List.filter_eq_self]
  intro ci hci
  simp only [decide_eq_true_eq]
  rintro ⟨hid, hin⟩
  rw [h ci hci hid] at hin
  exact Bool.false_ne_true hin

theorem inCartOf_true (s : Store) (userID cartID : Nat) (h : inCartOf s userID cartID = true) :
    ∃ c ∈ s.carts, c.UserID = userID ∧ c.ID = cartID := by
  unfold inCartOf at h
  rw [List.any_eq_true] at h
  obtain ⟨c, hc, hid⟩ := h
  simp only [List.mem_filter, decide_eq_true_eq] at hc hid
  exact ⟨c, hc.1, hc.2, hid⟩

/-- C14: when `itemID` is the key of an item lying in a cart owned by a user other
than `userID` (keys of carts and of cart items being pairwise distinct),
`RemoveFromCart(userID, itemID)` leaves the whole store as it was, whether or not
the delete statement fails: every cart item is present afterwards with the same
quantity. -/
theorem RemoveFromCart_other_user (fails : Option String) (s : Store) (userID itemID : Nat)
    (item : CartItem) (cart : Cart)
    (hitem : item ∈ s.cartItems) (hid : item.ID = itemID)
    (hcart : cart ∈ s.carts) (hin : cart.ID = item.CartID) (hother : cart.UserID ≠ userID)
    (hcarts : (s.carts.map (fun c => c.ID)).Nodup)
    (hitems : (s.cartItems.map (fun ci => ci.ID)).Nodup) :
    (RemoveFromCart fails s userID itemID).1 = s ∧
      (RemoveFromCart fails s userID itemID).1.cartItems = s.cartItems := by
  have hnone : ∀ ci ∈ s.cartItems, ci.ID = itemID → inCartOf s userID ci.CartID = false := by
    intro ci hci hci_id
    have hsame : ci = item := List.inj_on_of_nodup_map hitems hci hitem (by rw [hci_id, hid])
    rw [hsame]
    cases hb : inCartOf s userID item.CartID with
    | false => rfl
    | true =>
      obtain ⟨c, hc, hu, hcid⟩ := inCartOf_true s userID item.CartID hb
      have : c = cart := List.inj_on_of_nodup_map hcarts hc hcart (by rw [hcid, hin])
      rw [this] at hu
      exact absurd hu hother
  have hstore : (RemoveFromCart fails s userID itemID).1 = s := by
    unfold RemoveFromCart RemoveCartItemFromCart
    cases fails with
    | some e => rfl
    | none =>
      simp only
      rw [withoutItemOf_eq_self s userID itemID hnone]
  exact ⟨hstore, by rw [hstore]⟩

theorem RemoveFromCart_other_user_witness :
    ({ ID := 2, CartID := 2, ProductID := 2, Quantity := 1, Product := Product.zero } : CartItem)
        ∈ storeB.cartItems ∧
      ({ ID := 2, UserID := 9, CartItems := [] } : Cart) ∈ storeB.carts ∧
      (RemoveFromCart Option.none storeB 7 2).1 = storeB :=
  ⟨by decide, by decide,
    (RemoveFromCart_other_user Option.none storeB 7 2
      { ID := 2, CartID := 2, ProductID := 2, Quantity := 1, Product := Product.zero }
      { ID := 2, UserID := 9, CartItems := [] }
      (by decide) rfl (by decide) rfl (by decide) (by decide) (by decide)).1⟩

/-- C15 (as stated, refuted): item 2 lies in the cart of user 9 and no item has key
99; `RemoveFromCart` for user 7 deletes nothing in either case and returns no
error, not a not-found error. -/
theorem RemoveFromCart_no_match_returns_nil :
    RemoveFromCart Option.none storeB 7 2 = (storeB, Option.none) ∧
      RemoveFromCart Option.none storeB 7 99 = (storeB, Option.none) ∧
      storeB.cartItems.filter (fun ci => ci.ID = 99) = [] ∧
      (storeB.cartItems.filter (fun ci => ci.ID = 2)).map (fun ci => ci.CartID) = [2] ∧
      inCartOf storeB 7 2 = false :=
  ⟨by decide, by decide, by decide, by decide, by decide⟩

/-- C15 (amended): `RemoveFromCart(userID, itemID)` returns an error exactly when
the store's delete statement fails, and then changes nothing; otherwise it returns
success and removes exactly the cart items with key `itemID` lying in a cart owned
by `userID`, which may be none at all. -/
theorem RemoveFromCart_result (fails : Option String) (s : Store) (userID itemID : Nat) :
    (RemoveFromCart fails s userID itemID).2 = fails ∧
    (∀ e, fails = some e → (RemoveFromCart fails s userID itemID).1 = s) ∧
    (∀ ci, ci ∈ (RemoveFromCart Option.none s userID itemID).1.cartItems ↔
      ci ∈ s.cartItems ∧ ¬ (ci.ID = itemID ∧ inCartOf s userID ci.CartID = true)) ∧
    (RemoveFromCart Option.none s userID itemID).1.carts = s.carts ∧
    (RemoveFromCart Option.none s userID itemID).1.products = s.products ∧
    (RemoveFromCart Option.none s userID itemID).1.orders = s.orders := by
  refine ⟨?_, ?_, ?_, rfl, rfl, rfl⟩
  · unfold RemoveFromCart RemoveCartItemFromCart
    cases fails <;> rfl
  · intro e he
    rw [he]; rfl
  · intro ci
    exact mem_withoutItemOf s userID itemID ci

/-! ## `CartService.GetCart` -/

theorem foldl_add_eq_sum {α : Type} (f : α → ℚ) (l : List α) :
    ∀ (init : ℚ), l.foldl (fun total x => total + f x) init = init + (l.map f).sum := by
  induction l with
  | nil => intro init; simp
  | cons a rest ih =>
    intro init
    rw [List.foldl_cons, ih, List.map_cons, List.sum_cons]
    ring

theorem convertToCartResponse_total (cart : Cart) :
    (convertToCartResponse cart).Total =
      ((convertToCartResponse cart).CartItems.map (fun it => it.Subtotal)).sum := by
  unfold convertToCartResponse
  simp only [List.map_map]
  rw [foldl_add_eq_sum (fun ci : CartItem => (ci.Quantity : ℚ) * ci.Product.Price), zero_add]
  rfl

/-- C16: `GetCart(userID)` leaves the store as it found it, and a second call on
the store the first one left returns the same result, be it the same error or the
same cart: the ID of the loaded cart, one line per cart item with its subtotal
quantity times unit price, and the total of the subtotals. -/
theorem GetCart_idempotent (fails : Option String) (s : Store) (userID : Nat) :
    (GetCartCall fails s userID).1 = s ∧
    GetCartCall fails (GetCartCall fails s userID).1 userID = GetCartCall fails s userID ∧
    (∀ resp, (GetCartCall fails s userID).2 = Except.ok resp →
      ∃ cart, loadCart s userID = some cart ∧ resp.ID = cart.ID ∧ resp.UserID = cart.UserID ∧
        resp.CartItems.map (fun it => (it.ID, it.Quantity, it.Subtotal)) =
          cart.CartItems.map
            (fun ci => (ci.ID, ci.Quantity, (ci.Quantity : ℚ) * ci.Product.Price)) ∧
        resp.Total = (resp.CartItems.map (fun it => it.Subtotal)).sum) ∧
    (∀ e, (GetCartCall fails s userID).2 = Except.error e →
      fails = some e ∨ (fails = Option.none ∧ loadCart s userID = Option.none)) := by
  refine ⟨rfl, rfl, ?_, ?_⟩
  · intro resp h
    unfold GetCartCall GetCart GetByUserID at h
    cases fails with
    | some e => simp at h
    | none =>
      cases hc : loadCart s userID with
      | none => simp [hc] at h
      | some cart =>
        simp only [hc, Except.ok.injEq] at h
        refine ⟨cart, rfl, ?_, ?_, ?_, ?_⟩
        · rw [← h]; rfl
        · rw [← h]; rfl
        · rw [← h]
          unfold convertToCartResponse
          simp only [List.map_map]
          rfl
        · rw [← h]; exact convertToCartResponse_total cart
  · intro e h
    unfold GetCartCall GetCart GetByUserID at h
    cases fails with
    | some e1 =>
      simp only [Except.error.injEq] at h
      left; rw [h]
    | none =>
      cases hc : loadCart s userID with
      | none => right; exact ⟨rfl, rfl⟩
      | some cart => simp [hc] at h

/-! ## `CartService`: insufficient stock -/

/-- What the two checks of the cart service reject: `AddToCart` returns
`insufficient stock` and leaves the store unchanged when the product's stock is
below the requested quantity, and also when the cart already has a line for the
product, the sum of the line's quantity and the requested one fits an `int`, and
the stock is below that sum; `UpdateCartItem` does so when the stock of the line's
product is below the requested quantity. -/
theorem cart_insufficient_stock (fl : CartFaults) (s : Store) (userID : Nat) :
    (∀ (req : AddToCartRequest) (product : Product),
      GetProductByID fl.getProduct s req.ProductID = Except.ok product →
      product.Stock < req.Quantity →
      AddToCart fl s userID req = (s, Outcome.err "insufficient stock")) ∧
    (∀ (req : AddToCartRequest) (product : Product) (cart : Cart) (line : CartItem),
      GetProductByID fl.getProduct s req.ProductID = Except.ok product →
      GetByUserID fl.getCart s userID = Except.ok cart →
      GetCartItemByCartIDAndProductID fl.getItem s cart.ID req.ProductID = Except.ok line →
      -2 ^ 63 ≤ line.Quantity + req.Quantity → line.Quantity + req.Quantity < 2 ^ 63 →
      product.Stock < line.Quantity + req.Quantity →
      AddToCart fl s userID req = (s, Outcome.err "insufficient stock")) ∧
    (∀ (itemID : Nat) (req : UpdateCartItemRequest) (line : CartItem) (product : Product),
      GetCartItemByCartItemIDAndUserID fl.getItem s itemID userID = Except.ok line →
      GetProductByID fl.getProduct s line.ProductID = Except.ok product →
      product.Stock < req.Quantity →
      CartService.UpdateCartItem fl s userID itemID req =
        (s, Outcome.err "insufficient stock")) := by
  refine ⟨?_, ?_, ?_⟩
  · intro req product hp hlt
    unfold AddToCart
    simp only [hp, hlt, if_true]
  · intro req product cart line hp hc hi hlo hhi hlt
    unfold AddToCart
    simp only [hp]
    split_ifs with h1
    · rfl
    · simp only [hc, Except.toOption, hi]
      rw [wrap64_of_range _ hlo hhi, if_pos (by omega)]
  · intro itemID req line product hi hp hlt
    unfold CartService.UpdateCartItem
    simp only [hi, hp, hlt, if_true]

theorem cart_insufficient_stock_witness :
    GetProductByID false storeC 3 = Except.ok productR ∧ productR.Stock = 0 ∧
      AddToCart CartFaults.none storeC 7 { ProductID := 3, Quantity := 1 } =
        (storeC, Outcome.err "insufficient stock") ∧
      AddToCart CartFaults.none storeC 7 { ProductID := 1, Quantity := 4 } =
        (storeC, Outcome.err "insufficient stock") ∧
      CartService.UpdateCartItem CartFaults.none storeC 7 1 { Quantity := 6 } =
        (storeC, Outcome.err "insufficient stock") :=
  ⟨rfl, rfl,
    (cart_insufficient_stock CartFaults.none storeC 7).1 { ProductID := 3, Quantity := 1 }
      productR rfl (by decide),
    (cart_insufficient_stock CartFaults.none storeC 7).2.1 { ProductID := 1, Quantity := 4 }
      productP
      { ID := 1, UserID := 7, CartItems :=
        [{ ID := 1, CartID := 1, ProductID := 1, Quantity := 2, Product := productP },
         { ID := 3, CartID := 1, ProductID := 2, Quantity := 3, Product := productQ }] }
      { ID := 1, CartID := 1, ProductID := 1, Quantity := 2, Product := Product.zero }
      rfl rfl rfl (by decide) (by decide) (by decide),
    (cart_insufficient_stock CartFaults.none storeC 7).2.2 1 { Quantity := 6 }
      { ID := 1, CartID := 1, ProductID := 1, Quantity := 2, Product := Product.zero }
      productP rfl rfl (by decide)⟩

/-- C13 (the code at the failing input): in `storeM` the stock of M is
`2 ^ 63 - 1` and the cart of user 9 holds two units of M.  A request for
`2 ^ 63 - 1` more passes the first check; the sum of the line's quantity and the
requested one leaves the range of `int`, comes out as `-(2 ^ 63 - 1)`, passes the
second check and is saved.  Although the stock is below the line's quantity plus
the requested one, `AddToCart` returns the cart and the handler replies with
success, not with `insufficient stock`. -/
theorem AddToCart_accepts_overflowing_sum :
    GetProductByID false storeM 1 = Except.ok productM ∧
      GetCartItemByCartIDAndProductID false storeM 2 1 =
        Except.ok { ID := 2, CartID := 2, ProductID := 1, Quantity := 2,
                    Product := Product.zero } ∧
      productM.Stock < 2 + maxInt ∧ bindAddToCartRequest { ProductID := 1, Quantity := maxInt } ∧
      ∃ s1 resp,
        AddToCart CartFaults.none storeM 9 { ProductID := 1, Quantity := maxInt } =
          (s1, Outcome.ok resp) ∧
        addToCart CartFaults.none storeM 9 { ProductID := 1, Quantity := maxInt } =
          (s1, Response.success "Item added to cart successfully" resp) ∧
        s1.cartItems.map (fun ci => (ci.ID, ci.CartID, ci.ProductID, ci.Quantity)) =
          [(1, 1, 1, -1), (2, 2, 1, -(2 ^ 63 - 1))] :=
  ⟨rfl, rfl, by decide, by decide, _, _, rfl, rfl, by decide⟩

/-! ## `CartService`: the lower bound on line quantities -/

theorem UpdateCartItem_quantities (last : Sequences) (fails : Bool) (s s1 : Store)
    (cartItem : CartItem) (h : UpdateCartItem last fails s cartItem = Except.ok s1)
    (hq : 1 ≤ cartItem.Quantity) (hs : ∀ ci ∈ s.cartItems, 1 ≤ ci.Quantity) :
    ∀ ci ∈ s1.cartItems, 1 ≤ ci.Quantity := by
  unfold UpdateCartItem at h
  split_ifs at h with hf h0 hany
  · simp only [Except.ok.injEq] at h
    rw [← h]
    intro ci hci
    simp only [List.mem_append, List.mem_singleton] at hci
    rcases hci with hci | hci
    · exact hs ci hci
    · rw [hci]; exact hq
  · simp only [Except.ok.injEq] at h
    rw [← h]
    intro ci hci
    simp only [List.mem_map] at hci
    obtain ⟨r, hr, hrc⟩ := hci
    split_ifs at hrc
    · rw [← hrc]; exact hq
    · rw [← hrc]; exact hs r hr
  · simp only [Except.ok.injEq] at h
    rw [← h]
    intro ci hci
    simp only [List.mem_append, List.mem_singleton] at hci
    rcases hci with hci | hci
    · exact hs ci hci
    · rw [hci]; exact hq

theorem CreateCartItem_quantities (last : Sequences) (fails : Bool) (s s1 : Store)
    (cartItem : CartItem) (h : CreateCartItem last fails s cartItem = Except.ok s1)
    (hq : 1 ≤ cartItem.Quantity) (hs : ∀ ci ∈ s.cartItems, 1 ≤ ci.Quantity) :
    ∀ ci ∈ s1.cartItems, 1 ≤ ci.Quantity := by
  unfold CreateCartItem at h
  split_ifs at h
  simp only [Except.ok.injEq] at h
  rw [← h]
  intro ci hci
  simp only [List.mem_append, List.mem_singleton] at hci
  rcases hci with hci | hci
  · exact hs ci hci
  · rw [hci]; exact hq

theorem GetCartItemByCartIDAndProductID_mem (fails : Bool) (s : Store) (cartID productID : Nat)
    (line : CartItem)
    (h : GetCartItemByCartIDAndProductID fails s cartID productID = Except.ok line) :
    ∃ row ∈ s.cartItems, row.CartID = cartID ∧ row.ProductID = productID ∧
      line = { row with Product := Product.zero } := by
  unfold GetCartItemByCartIDAndProductID at h
  split_ifs at h
  split at h
  · simp at h
  · rename_i ci hci
    have hmem := firstByID_mem _ _ _ hci
    simp only [List.mem_filter, decide_eq_true_eq] at hmem
    simp only [Except.ok.injEq] at h
    exact ⟨ci, hmem.1, hmem.2.1, hmem.2.2, h.symm⟩

theorem GetCartItemByCartItemIDAndUserID_mem (fails : Bool) (s : Store) (itemID userID : Nat)
    (line : CartItem)
    (h : GetCartItemByCartItemIDAndUserID fails s itemID userID = Except.ok line) :
    ∃ row ∈ s.cartItems, row.ID = itemID ∧ inCartOf s userID row.CartID = true ∧
      line = { row with Product := Product.zero } := by
  unfold GetCartItemByCartItemIDAndUserID at h
  split_ifs at h
  split at h
  · simp at h
  · rename_i ci hci
    have hmem := firstByID_mem _ _ _ hci
    simp only [List.mem_filter, decide_eq_true_eq] at hmem
    simp only [Except.ok.injEq] at h
    exact ⟨ci, hmem.1, hmem.2.1, hmem.2.2, h.symm⟩

theorem AddToCart_quantities (fl : CartFaults) (s : Store) (userID : Nat)
    (req : AddToCartRequest) (hq : 1 ≤ req.Quantity)
    (hfit : ∀ ci ∈ s.cartItems, ci.Quantity + req.Quantity < 2 ^ 63)
    (hs : ∀ ci ∈ s.cartItems, 1 ≤ ci.Quantity) :
    ∀ ci ∈ (AddToCart fl s userID req).1.cartItems, 1 ≤ ci.Quantity := by
  unfold AddToCart
  cases hp : GetProductByID fl.getProduct s req.ProductID with
  | error e => exact hs
  | ok product =>
    simp only
    split_ifs with hstock
    · exact hs
    · cases hg : GetByUserID fl.getCart s userID with
      | error e =>
        simp only [Except.toOption]
        cases hc : CartRepository.Create fl.last fl.createCart s
            { ID := 0, UserID := userID, CartItems := [] } with
        | error e1 => exact hs
        | ok s1 =>
          simp only
          unfold CartRepository.Create at hc
          cases hcf : fl.createCart with
          | some e2 => simp [hcf] at hc
          | none =>
            simp only [hcf, Except.ok.injEq] at hc
            rw [← hc]; exact hs
      | ok cart =>
        simp only [Except.toOption]
        cases hi : GetCartItemByCartIDAndProductID fl.getItem s cart.ID req.ProductID with
        | error e =>
          simp only
          cases hcr : CreateCartItem fl.last fl.createItem s
              { ID := 0, CartID := cart.ID, ProductID := req.ProductID,
                Quantity := req.Quantity, Product := Product.zero } with
          | error e1 =>
            simp only
            cases GetCart fl.reloadCart s userID <;> exact hs
          | ok s2 =>
            simp only
            have := CreateCartItem_quantities _ _ _ _ _ hcr hq hs
            cases GetCart fl.reloadCart s2 userID <;> exact this
        | ok line =>
          simp only
          split_ifs with hbig
          · exact hs
          · obtain ⟨row, hrow, -, -, hline⟩ := GetCartItemByCartIDAndProductID_mem _ _ _ _ _ hi
            have hlq : 1 ≤ line.Quantity := by rw [hline]; exact hs row hrow
            have hlf : line.Quantity + req.Quantity < 2 ^ 63 := by
              rw [hline]; exact hfit row hrow
            cases hu : UpdateCartItem fl.last fl.updateItem s
                { line with Quantity := wrap64 (line.Quantity + req.Quantity) } with
            | error e1 =>
              simp only
              cases GetCart fl.reloadCart s userID <;> exact hs
            | ok s2 =>
              simp only
              have := UpdateCartItem_quantities _ _ _ _ _ hu
                (by
                  show 1 ≤ wrap64 (line.Quantity + req.Quantity)
                  rw [wrap64_of_range _ (by omega) hlf]
                  omega) hs
              cases GetCart fl.reloadCart s2 userID <;> exact this

theorem CartService_UpdateCartItem_quantities (fl : CartFaults) (s : Store)
    (userID itemID : Nat) (req : UpdateCartItemRequest) (hq : 1 ≤ req.Quantity)
    (hs : ∀ ci ∈ s.cartItems, 1 ≤ ci.Quantity) :
    ∀ ci ∈ (CartService.UpdateCartItem fl s userID itemID req).1.cartItems,
      1 ≤ ci.Quantity := by
  unfold CartService.UpdateCartItem
  cases hi : GetCartItemByCartItemIDAndUserID fl.getItem s itemID userID with
  | error e => exact hs
  | ok line =>
    simp only
    cases hp : GetProductByID fl.getProduct s line.ProductID with
    | error e => exact hs
    | ok product =>
      simp only
      split_ifs with hstock
      · exact hs
      · cases hu : UpdateCartItem fl.last fl.updateItem s
            { line with Quantity := req.Quantity } with
        | error e1 => exact hs
        | ok s2 =>
          simp only
          have := UpdateCartItem_quantities _ _ _ _ _ hu hq hs
          cases GetCart fl.reloadCart s2 userID <;> exact this

/-- C12 (as stated, refuted): every line of `storeB` has quantity at least 1, yet
`CartService.AddToCart` called with quantity -1 creates a line with quantity -1,
and `CartService.UpdateCartItem` called with quantity 0 sets a line to 0; both
return a cart.  Through the handler `addToCart`, which refuses a quantity below 1,
a request for `2 ^ 63 - 1` units on a line of two sets the line to
`-(2 ^ 63 - 1)`, the sum leaving the range of `int`. -/
theorem CartService_accepts_quantity_below_one :
    (∀ ci ∈ storeB.cartItems, 1 ≤ ci.Quantity) ∧
      (∃ s1 resp, AddToCart CartFaults.none storeB 11 { ProductID := 1, Quantity := -1 } =
          (s1, Outcome.ok resp) ∧
        s1.cartItems.map (fun ci => (ci.ID, ci.CartID, ci.Quantity)) =
          [(1, 1, 2), (2, 2, 1), (3, 1, 3), (4, 3, -1)]) ∧
      (∃ s2 resp, CartService.UpdateCartItem CartFaults.none storeB 7 1 { Quantity := 0 } =
          (s2, Outcome.ok resp) ∧
        s2.cartItems.map (fun ci => (ci.ID, ci.CartID, ci.Quantity)) =
          [(1, 1, 0), (2, 2, 1), (3, 1, 3)]) ∧
      (∃ s3 resp, addToCart CartFaults.none storeM 9 { ProductID := 1, Quantity := maxInt } =
          (s3, Response.success "Item added to cart successfully" resp) ∧
        (storeM.cartItems.filter (fun ci => ci.CartID = 2)).map (fun ci => ci.Quantity) = [2] ∧
        (s3.cartItems.filter (fun ci => ci.CartID = 2)).map (fun ci => ci.Quantity) =
          [-(2 ^ 63 - 1)]) :=
  ⟨by decide, ⟨_, _, rfl, by decide⟩, ⟨_, _, rfl, by decide⟩, ⟨_, _, rfl, by decide, by decide⟩⟩

/-- C12 (amended): the bound is kept by the binding tags `required,min=1` that the
HTTP handlers check, not by the service.  In a store whose lines all have quantity
at least 1, the handlers `addToCart` and `updateCartItem` leave every line at
quantity at least 1 for every request body, for `addToCart` as long as the
requested quantity added to the quantity of a line stays below `2 ^ 63`, the
addition being one of `int`s; a body with quantity below 1 is answered with a bad
request and an unchanged store; `CartService.AddToCart` (under the same
condition) and `CartService.UpdateCartItem` keep the bound when called with
quantity at least 1. -/
theorem cart_handlers_keep_quantity_bound (fl : CartFaults) (s : Store) (userID : Nat)
    (hs : ∀ ci ∈ s.cartItems, 1 ≤ ci.Quantity) :
    (∀ (req : AddToCartRequest),
      (∀ ci ∈ s.cartItems, ci.Quantity + req.Quantity < 2 ^ 63) →
      ∀ ci ∈ (addToCart fl s userID req).1.cartItems, 1 ≤ ci.Quantity) ∧
    (∀ id req, ∀ ci ∈ (updateCartItem fl s userID id req).1.cartItems, 1 ≤ ci.Quantity) ∧
    (∀ (req : AddToCartRequest), req.Quantity < 1 →
      addToCart fl s userID req = (s, Response.badRequest "Invalid request data" ErrValidation)) ∧
    (∀ id (req : UpdateCartItemRequest), req.Quantity < 1 →
      (updateCartItem fl s userID id req).1 = s) ∧
    (∀ (req : AddToCartRequest), 1 ≤ req.Quantity →
      (∀ ci ∈ s.cartItems, ci.Quantity + req.Quantity < 2 ^ 63) →
      ∀ ci ∈ (AddToCart fl s userID req).1.cartItems, 1 ≤ ci.Quantity) ∧
    (∀ id (req : UpdateCartItemRequest), 1 ≤ req.Quantity →
      ∀ ci ∈ (CartService.UpdateCartItem fl s userID id req).1.cartItems, 1 ≤ ci.Quantity) := by
  refine ⟨?_, ?_, ?_, ?_, ?_, ?_⟩
  · intro req hfit
    unfold addToCart
    split_ifs with hb
    · exact hs
    · have hq : 1 ≤ req.Quantity := by
        unfold bindAddToCartRequest at hb
        by_contra hlt
        have := hb
        simp [Bool.and_eq_true] at this
        omega
      have := AddToCart_quantities fl s userID req hq hfit hs
      rcases hr : AddToCart fl s userID req with ⟨s1, r⟩
      rw [hr] at this
      cases r <;> exact this
  · intro id req
    unfold updateCartItem
    split_ifs with hid hb
    · exact hs
    · exact hs
    · have hq : 1 ≤ req.Quantity := by
        unfold bindUpdateCartItemRequest at hb
        by_contra hlt
        have := hb
        simp [Bool.and_eq_true] at this
        omega
      have := CartService_UpdateCartItem_quantities fl s userID id req hq hs
      rcases hr : CartService.UpdateCartItem fl s userID id req with ⟨s1, r⟩
      rw [hr] at this
      cases r <;> exact this
  · intro req hlt
    unfold addToCart
    have hb : bindAddToCartRequest req = false := by
      unfold bindAddToCartRequest
      have : ¬ 1 ≤ req.Quantity := by omega
      simp [this]
    rw [if_pos hb]
  · intro id req hlt
    unfold updateCartItem
    have hb : bindUpdateCartItemRequest req = false := by
      unfold bindUpdateCartItemRequest
      have : ¬ 1 ≤ req.Quantity := by omega
      simp [this]
    split_ifs
    · rfl
    · rfl
  · intro req hq hfit
    exact AddToCart_quantities fl s userID req hq hfit hs
  · intro id req hq
    exact CartService_UpdateCartItem_quantities fl s userID id req hq hs

theorem cart_handlers_keep_quantity_bound_witness :
    (∀ ci ∈ storeB.cartItems, 1 ≤ ci.Quantity) ∧
      addToCart CartFaults.none storeB 11 { ProductID := 1, Quantity := -1 } =
        (storeB, Response.badRequest "Invalid request data" ErrValidation) ∧
      (∀ ci ∈ (addToCart CartFaults.none storeB 11
          { ProductID := 1, Quantity := 2 }).1.cartItems, 1 ≤ ci.Quantity) :=
  ⟨by decide,
    (cart_handlers_keep_quantity_bound CartFaults.none storeB 11 (by decide)).2.2.1
      { ProductID := 1, Quantity := -1 } (by decide),
    (cart_handlers_keep_quantity_bound CartFaults.none storeB 11 (by decide)).1
      { ProductID := 1, Quantity := 2 } (by decide)⟩

/-! ## `CartService.AddToCart` on a product already in the cart -/

theorem filter_map_of_invariant {α : Type} (f : α → α) (p : α → Bool)
    (h : ∀ x, p (f x) = p x) (l : List α) : (l.map f).filter p = (l.filter p).map f := by
  induction l with
  | nil => rfl
  | cons a rest ih =>
    simp only [List.map_cons, List.filter_cons, h a]
    split_ifs
    · rw [List.map_cons, ih]
    · exact ih

/-- The row `UpdateCartItem` leaves where the line for the product was: the same
row with the requested quantity added, as `int`s. -/
theorem AddToCart_existing_line_store (fl : CartFaults) (s s1 : Store) (userID : Nat)
    (req : AddToCartRequest) (resp : CartResponse) (cart : Cart) (line : CartItem)
    (hrun : AddToCart fl s userID req = (s1, Outcome.ok resp))
    (hcart : GetByUserID fl.getCart s userID = Except.ok cart)
    (hline : GetCartItemByCartIDAndProductID fl.getItem s cart.ID req.ProductID =
      Except.ok line)
    (hwrite : fl.updateItem = false) (hkey : line.ID ≠ 0)
    (hpk : (s.cartItems.map (fun ci => ci.ID)).Nodup) :
    s1.cartItems = s.cartItems.map (fun ci =>
        if ci.ID = line.ID then
          { ci with Quantity := wrap64 (ci.Quantity + req.Quantity), Product := Product.zero }
        else ci) ∧
      s1.carts = s.carts ∧ s1.products = s.products ∧
      GetCart fl.reloadCart s1 userID = Except.ok resp := by
  obtain ⟨row, hrow, hrc, hrp, hlr⟩ := GetCartItemByCartIDAndProductID_mem _ _ _ _ _ hline
  have hany : s.cartItems.any (fun ci => decide (ci.ID = line.ID)) = true := by
    rw [List.any_eq_true]
    exact ⟨row, hrow, by rw [hlr]; simp⟩
  have hupd : UpdateCartItem fl.last fl.updateItem s
      { line with Quantity := wrap64 (line.Quantity + req.Quantity) } =
      Except.ok { s with cartItems := s.cartItems.map (fun ci =>
        if ci.ID = line.ID then
          { ({ line with Quantity := wrap64 (line.Quantity + req.Quantity) } : CartItem) with
            Product := Product.zero }
        else ci) } := by
    unfold UpdateCartItem
    rw [hwrite]
    simp only [Bool.false_eq_true, if_false]
    rw [if_neg hkey, if_pos hany]
  unfold AddToCart at hrun
  cases hp : GetProductByID fl.getProduct s req.ProductID with
  | error e => simp [hp] at hrun
  | ok product =>
    simp only [hp, hcart, Except.toOption, hline] at hrun
    split_ifs at hrun with hstock hbig
    · simp at hrun
    · simp at hrun
    · rw [hupd] at hrun
      simp only at hrun
      cases hg : GetCart fl.reloadCart
          { s with cartItems := s.cartItems.map (fun ci =>
            if ci.ID = line.ID then
              { ({ line with Quantity := wrap64 (line.Quantity + req.Quantity) } : CartItem) with
                Product := Product.zero }
            else ci) } userID with
      | error e => simp [hg] at hrun
      | ok resp1 =>
        simp only [hg, Prod.mk.injEq, Outcome.ok.injEq] at hrun
        obtain ⟨hs1, hresp⟩ := hrun
        refine ⟨?_, by rw [← hs1], by rw [← hs1], by rw [← hs1, ← hresp]; exact hg⟩
        rw [← hs1]
        simp only
        apply List.map_congr_left
        intro ci hci
        by_cases hid : ci.ID = line.ID
        · have hsame : ci = row :=
            List.inj_on_of_nodup_map hpk hci hrow (by rw [hid, hlr])
          simp only [hid, if_true]
          rw [hlr, hsame]
        · simp only [hid, if_false]
theorem preloadCartItems_length (s : Store) (cartID : Nat) :
    (preloadCartItems s cartID).length =
      (s.cartItems.filter (fun ci => ci.CartID = cartID)).length := by
  unfold preloadCartItems
  rw [List.length_map]

theorem loadCart_of_same_carts (s s1 : Store) (userID : Nat) (cart cart1 : Cart)
    (hcarts : s1.carts = s.carts) (h : loadCart s userID = some cart)
    (h1 : loadCart s1 userID = some cart1) :
    cart1.ID = cart.ID ∧ cart1.CartItems = preloadCartItems s1 cart.ID := by
  have hi := loadCart_items s1 userID cart1 h1
  unfold loadCart firstCartRow at h h1
  rw [hcarts] at h1
  cases hr : firstByID (fun c => c.ID) (s.carts.filter (fun c => c.UserID = userID)) with
  | none => simp [hr] at h
  | some row =>
    simp only [hr, Option.map_some', Option.some.injEq] at h h1
    have hid : cart1.ID = cart.ID := by rw [← h, ← h1]
    exact ⟨hid, by rw [hi, hid]⟩

/-- C11 (as stated, refuted): the cart of user 7 in `storeA` holds two units of
product 1, the cart of user 9 in `storeM` two units of M, and `AddToCart`
succeeds in each of three runs.  When the save of the line fails, the error is
logged and ignored and the line keeps quantity 2, not 2 + 1.  When the lookup of
the line fails, the line is taken to be missing and a second line for the product
is created.  When the sum `2 + (2 ^ 63 - 1)` leaves the range of `int`, the line
is set to `-(2 ^ 63 - 1)`. -/
theorem AddToCart_existing_line_not_summed :
    (∃ s1 resp, AddToCart { CartFaults.none with updateItem := true } storeA 7
          { ProductID := 1, Quantity := 1 } = (s1, Outcome.ok resp) ∧
        s1.cartItems.map (fun ci => (ci.CartID, ci.ProductID, ci.Quantity)) = [(1, 1, 2)]) ∧
      (∃ s1 resp, AddToCart { CartFaults.none with getItem := true } storeA 7
          { ProductID := 1, Quantity := 1 } = (s1, Outcome.ok resp) ∧
        s1.cartItems.map (fun ci => (ci.CartID, ci.ProductID, ci.Quantity)) =
          [(1, 1, 2), (1, 1, 1)] ∧
        resp.CartItems.length = 2) ∧
      (∃ s1 resp, AddToCart CartFaults.none storeM 9
          { ProductID := 1, Quantity := maxInt } = (s1, Outcome.ok resp) ∧
        (storeM.cartItems.filter (fun ci => ci.CartID = 2)).map (fun ci => ci.Quantity) = [2] ∧
        (s1.cartItems.filter (fun ci => ci.CartID = 2)).map (fun ci => ci.Quantity) =
          [-(2 ^ 63 - 1)]) :=
  ⟨⟨_, _, rfl, by decide⟩, ⟨_, _, rfl, by decide, by decide⟩, ⟨_, _, rfl, by decide, by decide⟩⟩

/-- C11 (amended): when the cart already has a line for product P with quantity q,
a successful `AddToCart(userID, {P, n})` in which the lookup of the line and the
save of the line do not fail in the store replaces that row by the same row with
quantity q + n as `int`s (exactly q + n whenever that fits an `int`) and changes
no other row: the keys of the rows, the number of lines of the cart and the number
of its lines for P are as before, and the returned cart has as many lines as the
cart had.  Keys of cart items are non-zero and pairwise distinct. -/
theorem AddToCart_existing_line (fl : CartFaults) (s s1 : Store) (userID : Nat)
    (req : AddToCartRequest) (resp : CartResponse) (cart : Cart) (line : CartItem)
    (hrun : AddToCart fl s userID req = (s1, Outcome.ok resp))
    (hcart : GetByUserID fl.getCart s userID = Except.ok cart)
    (hline : GetCartItemByCartIDAndProductID fl.getItem s cart.ID req.ProductID =
      Except.ok line)
    (hwrite : fl.updateItem = false) (hkey : line.ID ≠ 0)
    (hpk : (s.cartItems.map (fun ci => ci.ID)).Nodup) :
    (∃ row ∈ s.cartItems, row.ID = line.ID ∧ row.CartID = cart.ID ∧
      row.ProductID = req.ProductID ∧ row.Quantity = line.Quantity) ∧
    (∀ row ∈ s1.cartItems, row.ID = line.ID →
      row.CartID = cart.ID ∧ row.ProductID = req.ProductID ∧
        row.Quantity = wrap64 (line.Quantity + req.Quantity) ∧
        (-2 ^ 63 ≤ line.Quantity + req.Quantity → line.Quantity + req.Quantity < 2 ^ 63 →
          row.Quantity = line.Quantity + req.Quantity)) ∧
    (∀ row ∈ s.cartItems, row.ID ≠ line.ID → row ∈ s1.cartItems) ∧
    s1.cartItems.map (fun ci => ci.ID) = s.cartItems.map (fun ci => ci.ID) ∧
    (s1.cartItems.filter (fun ci => ci.CartID = cart.ID)).length =
      (s.cartItems.filter (fun ci => ci.CartID = cart.ID)).length ∧
    (s1.cartItems.filter
        (fun ci => ci.CartID = cart.ID ∧ ci.ProductID = req.ProductID)).length =
      (s.cartItems.filter
        (fun ci => ci.CartID = cart.ID ∧ ci.ProductID = req.ProductID)).length ∧
    resp.CartItems.length = cart.CartItems.length := by
  obtain ⟨hitems, hcarts, -, hget⟩ :=
    AddToCart_existing_line_store fl s s1 userID req resp cart line hrun hcart hline hwrite
      hkey hpk
  obtain ⟨row, hrow, hrc, hrp, hlr⟩ := GetCartItemByCartIDAndProductID_mem _ _ _ _ _ hline
  have hlid : line.ID = row.ID := by rw [hlr]
  have hlq : line.Quantity = row.Quantity := by rw [hlr]
  refine ⟨⟨row, hrow, hlid.symm, hrc, hrp, hlq.symm⟩, ?_, ?_, ?_, ?_, ?_, ?_⟩
  · intro r hr hid
    rw [hitems, List.mem_map] at hr
    obtain ⟨ci, hci, hcr⟩ := hr
    by_cases hc : ci.ID = line.ID
    · have hsame : ci = row := List.inj_on_of_nodup_map hpk hci hrow (by rw [hc, hlid])
      rw [if_pos hc] at hcr
      rw [← hcr, hsame, hlq]
      exact ⟨hrc, hrp, rfl, fun hlo hhi => wrap64_of_range _ hlo hhi⟩
    · rw [if_neg hc] at hcr
      rw [hcr] at hc
      exact absurd hid hc
  · intro r hr hne
    rw [hitems, List.mem_map]
    exact ⟨r, hr, by rw [if_neg hne]⟩
  · rw [hitems, List.map_map]
    apply List.map_congr_left
    intro ci _
    simp only [Function.comp]
    split_ifs <;> rfl
  · rw [hitems, filter_map_of_invariant _ _ _ s.cartItems, List.length_map]
    intro x
    split_ifs <;> rfl
  · rw [hitems, filter_map_of_invariant _ _ _ s.cartItems, List.length_map]
    intro x
    split_ifs <;> rfl
  · have hload : loadCart s userID = some cart := by
      unfold GetByUserID at hcart
      cases hf : fl.getCart with
      | some e => simp [hf] at hcart
      | none =>
        simp only [hf] at hcart
        cases hl : loadCart s userID with
        | none => simp [hl] at hcart
        | some c =>
          simp only [hl, Except.ok.injEq] at hcart
          rw [hcart]
    unfold GetCart GetByUserID at hget
    cases hf : fl.reloadCart with
    | some e => simp [hf] at hget
    | none =>
      simp only [hf] at hget
      cases hl : loadCart s1 userID with
      | none => simp [hl] at hget
      | some cart1 =>
        simp only [hl, Except.ok.injEq] at hget
        obtain ⟨-, hci⟩ := loadCart_of_same_carts s s1 userID cart cart1 hcarts hload hl
        rw [← hget]
        show (cart1.CartItems.map _).length = _
        rw [List.length_map, hci, preloadCartItems_length,
          loadCart_items s userID cart hload, preloadCartItems_length,
          hitems, filter_map_of_invariant _ _ _ s.cartItems, List.length_map]
        intro x
        split_ifs <;> rfl

theorem AddToCart_existing_line_witness :
    ∃ s1 resp, AddToCart CartFaults.none storeA 7 { ProductID := 1, Quantity := 1 } =
        (s1, Outcome.ok resp) ∧
      GetCartItemByCartIDAndProductID false storeA 1 1 =
        Except.ok { ID := 1, CartID := 1, ProductID := 1, Quantity := 2,
                    Product := Product.zero } ∧
      (∀ row ∈ s1.cartItems, row.ID = 1 →
        row.CartID = 1 ∧ row.ProductID = 1 ∧ row.Quantity = 2 + 1) ∧
      s1.cartItems.length = 1 := by
  have h := (AddToCart_existing_line CartFaults.none storeA _ 7
    { ProductID := 1, Quantity := 1 } _
    { ID := 1, UserID := 7, CartItems :=
      [{ ID := 1, CartID := 1, ProductID := 1, Quantity := 2, Product := productP }] }
    { ID := 1, CartID := 1, ProductID := 1, Quantity := 2, Product := Product.zero }
    rfl rfl rfl rfl (by decide) (by decide)).2.1
  refine ⟨_, _, rfl, rfl, fun row hrow hid => ?_, by decide⟩
  obtain ⟨h1, h2, -, h4⟩ := h row hrow hid
  exact ⟨h1, h2, h4 (by decide) (by decide)⟩

/-! ## `AuthService.RefreshToken`: what a call does -/

/-- The table of refresh tokens after the `DeleteRefreshTokenByID` of a call. -/
theorem deleted_tokens (fails : Bool) (st : AuthState) (id : Nat) :
    (match DeleteRefreshTokenByID fails st id with
      | Except.error _ => st
      | Except.ok st1 => st1) =
      { st with refreshTokens :=
          if fails then st.refreshTokens
          else st.refreshTokens.filter (fun r => ¬ r.ID = id) } := by
  unfold DeleteRefreshTokenByID
  cases fails <;> simp

theorem GetValidRefreshToken_ok (fails : Bool) (now : Int) (st : AuthState) (token : String)
    (row : RefreshToken) (h : GetValidRefreshToken fails now st token = Except.ok row) :
    row ∈ st.refreshTokens ∧ row.Token = token ∧ now < row.ExpiresAt := by
  unfold GetValidRefreshToken at h
  split_ifs at h
  split at h
  · simp at h
  · rename_i r hr
    have hmem := firstByID_mem _ _ _ hr
    unfold validRefreshTokens at hmem
    simp only [List.mem_filter, decide_eq_true_eq] at hmem
    simp only [Except.ok.injEq] at h
    rw [← h]
    exact ⟨hmem.1, hmem.2.1, hmem.2.2⟩

theorem firstByID_ne_none {α : Type} (key : α → Nat) (l : List α) (h : l ≠ []) :
    ∃ x, firstByID key l = some x := by
  cases l with
  | nil => exact absurd rfl h
  | cons a rest =>
    unfold firstByID
    cases firstByID key rest with
    | none => exact ⟨a, rfl⟩
    | some y =>
      simp only
      split_ifs
      · exact ⟨y, rfl⟩
      · exact ⟨a, rfl⟩

theorem GetValidRefreshToken_error (fails : Bool) (now : Int) (st : AuthState) (token : String)
    (h : ∀ row ∈ st.refreshTokens, row.Token = token → ¬ now < row.ExpiresAt) :
    ∃ e, GetValidRefreshToken fails now st token = Except.error e := by
  unfold GetValidRefreshToken
  split_ifs
  · exact ⟨_, rfl⟩
  · have hnil : validRefreshTokens now st token = [] := by
      unfold validRefreshTokens
      rw [List.filter_eq_nil_iff]
      intro r hr
      simp only [decide_eq_true_eq, not_and]
      exact h r hr
    rw [hnil]
    exact ⟨_, rfl⟩

theorem GetValidRefreshToken_some (now : Int) (st : AuthState) (token : String)
    (row : RefreshToken) (hrow : row ∈ st.refreshTokens) (ht : row.Token = token)
    (hnow : now < row.ExpiresAt) :
    ∃ r, GetValidRefreshToken false now st token = Except.ok r := by
  unfold GetValidRefreshToken
  simp only [Bool.false_eq_true, if_false]
  have hne : validRefreshTokens now st token ≠ [] := by
    intro hnil
    have : row ∈ validRefreshTokens now st token := by
      unfold validRefreshTokens
      simp only [List.mem_filter, decide_eq_true_eq]
      exact ⟨hrow, ht, hnow⟩
    rw [hnil] at this
    exact List.not_mem_nil _ this
  obtain ⟨x, hx⟩ := firstByID_ne_none (fun r => r.ID) _ hne
  rw [hx]
  exact ⟨x, rfl⟩

theorem generateAuthResponse_gen_error (env : AuthCall) (st : AuthState) (user : User)
    (e : String) (hg : env.GenerateTokenPair user.ID user.Email user.Role = Except.error e) :
    generateAuthResponse env st user = (st, Except.error e) := by
  unfold generateAuthResponse
  rw [hg]

theorem generateAuthResponse_publish_error (env : AuthCall) (st : AuthState) (user : User)
    (a r e : String)
    (hg : env.GenerateTokenPair user.ID user.Email user.Role = Except.ok (a, r))
    (hp : env.publishFails = some e) :
    generateAuthResponse env st user =
      (afterCreate env st user r,
        Except.error ("unable to publish user login event: " ++ e)) := by
  unfold generateAuthResponse Publish afterCreate
  rw [hg]
  simp only [hp]

theorem generateAuthResponse_ok (env : AuthCall) (st : AuthState) (user : User)
    (a r : String)
    (hg : env.GenerateTokenPair user.ID user.Email user.Role = Except.ok (a, r))
    (hp : env.publishFails = Option.none) :
    generateAuthResponse env st user =
      ({ afterCreate env st user r with
          published := (afterCreate env st user r).published ++ [("USER_LOGGED_IN", user.ID)] },
        Except.ok (authResponse user a r)) := by
  unfold generateAuthResponse Publish afterCreate
  rw [hg]
  simp only [hp]

theorem generateAuthResponse_ok_inv (env : AuthCall) (st st1 : AuthState) (user : User)
    (resp : AuthResponse) (h : generateAuthResponse env st user = (st1, Except.ok resp)) :
    ∃ a r, env.GenerateTokenPair user.ID user.Email user.Role = Except.ok (a, r) ∧
      env.publishFails = Option.none ∧ resp = authResponse user a r ∧
      st1 = { afterCreate env st user r with
        published := (afterCreate env st user r).published ++ [("USER_LOGGED_IN", user.ID)] } := by
  cases hg : env.GenerateTokenPair user.ID user.Email user.Role with
  | error e =>
    rw [generateAuthResponse_gen_error env st user e hg] at h
    simp at h
  | ok pair =>
    obtain ⟨a, r⟩ := pair
    cases hp : env.publishFails with
    | some e =>
      rw [generateAuthResponse_publish_error env st user a r e hg hp] at h
      simp at h
    | none =>
      rw [generateAuthResponse_ok env st user a r hg hp] at h
      simp only [Prod.mk.injEq, Except.ok.injEq] at h
      exact ⟨a, r, rfl, rfl, h.2.symm, h.1.symm⟩

theorem RefreshToken_passed (env : AuthCall) (st : AuthState) (req : RefreshTokenRequest)
    (claims : Claims) (row : RefreshToken) (user : User)
    (hv : env.ValidateToken req.RefreshToken = Except.ok claims)
    (hr : GetValidRefreshToken env.getValidFails env.now st req.RefreshToken = Except.ok row)
    (hu : GetByID env.getUserFails st claims.UserID = Except.ok user) :
    AuthService.RefreshToken env st req =
      generateAuthResponse env (afterDelete env st row.ID) user := by
  unfold AuthService.RefreshToken afterDelete
  simp only [hv, hr, hu]

theorem RefreshToken_ok_inv (env : AuthCall) (st st1 : AuthState) (req : RefreshTokenRequest)
    (resp : AuthResponse) (h : AuthService.RefreshToken env st req = (st1, Except.ok resp)) :
    ∃ claims row user,
      env.ValidateToken req.RefreshToken = Except.ok claims ∧
      GetValidRefreshToken env.getValidFails env.now st req.RefreshToken = Except.ok row ∧
      GetByID env.getUserFails st claims.UserID = Except.ok user ∧
      generateAuthResponse env (afterDelete env st row.ID) user = (st1, Except.ok resp) := by
  cases hv : env.ValidateToken req.RefreshToken with
  | error e => unfold AuthService.RefreshToken at h; simp [hv] at h
  | ok claims =>
    cases hr : GetValidRefreshToken env.getValidFails env.now st req.RefreshToken with
    | error e => unfold AuthService.RefreshToken at h; simp [hv, hr] at h
    | ok row =>
      cases hu : GetByID env.getUserFails st claims.UserID with
      | error e => unfold AuthService.RefreshToken at h; simp [hv, hr, hu] at h
      | ok user =>
        rw [RefreshToken_passed env st req claims row user hv hr hu] at h
        exact ⟨claims, row, user, rfl, rfl, hu, h⟩

/-! ## `AuthService.RefreshToken`: which tokens are honoured -/

/-- C18: `RefreshToken` returns a token pair only if the presented token passes
`ValidateToken` and the store holds a record with exactly that token value and an
expiry strictly later than the current instant; a token that passes validation
but has no such record is rejected, with the store unchanged. -/
theorem RefreshToken_requires_record (env : AuthCall) (st : AuthState)
    (req : RefreshTokenRequest) :
    (∀ st1 resp, AuthService.RefreshToken env st req = (st1, Except.ok resp) →
      (∃ claims, env.ValidateToken req.RefreshToken = Except.ok claims) ∧
      ∃ row ∈ st.refreshTokens, row.Token = req.RefreshToken ∧ env.now < row.ExpiresAt) ∧
    (∀ claims, env.ValidateToken req.RefreshToken = Except.ok claims →
      (∀ row ∈ st.refreshTokens, row.Token = req.RefreshToken → ¬ env.now < row.ExpiresAt) →
      AuthService.RefreshToken env st req =
        (st, Except.error "refresh token not found or expired")) := by
  constructor
  · intro st1 resp h
    obtain ⟨claims, row, user, hv, hr, -, -⟩ := RefreshToken_ok_inv env st st1 req resp h
    obtain ⟨hmem, htok, hnow⟩ := GetValidRefreshToken_ok _ _ _ _ _ hr
    exact ⟨⟨claims, hv⟩, row, hmem, htok, hnow⟩
  · intro claims hv hnone
    obtain ⟨e, he⟩ := GetValidRefreshToken_error env.getValidFails env.now st req.RefreshToken hnone
    unfold AuthService.RefreshToken
    simp only [hv, he]

theorem RefreshToken_requires_record_witness :
    (∃ st1 resp, AuthService.RefreshToken (authCall 100 (Except.ok ("access-1", "refresh-1")))
        authA { RefreshToken := "refresh-0" } = (st1, Except.ok resp) ∧
      ∃ row ∈ authA.refreshTokens, row.Token = "refresh-0" ∧ (100 : Int) < row.ExpiresAt) ∧
    AuthService.RefreshToken (authCall 100 (Except.ok ("access-1", "refresh-1")))
        authA { RefreshToken := "refresh-9" } =
      (authA, Except.error "refresh token not found or expired") ∧
    AuthService.RefreshToken (authCall 120 (Except.ok ("access-1", "refresh-1")))
        authA { RefreshToken := "refresh-0" } =
      (authA, Except.error "refresh token not found or expired") :=
  ⟨⟨_, _, rfl,
      ((RefreshToken_requires_record (authCall 100 (Except.ok ("access-1", "refresh-1")))
        authA { RefreshToken := "refresh-0" }).1 _ _ rfl).2⟩,
    (RefreshToken_requires_record (authCall 100 (Except.ok ("access-1", "refresh-1")))
      authA { RefreshToken := "refresh-9" }).2 _ rfl (by decide),
    (RefreshToken_requires_record (authCall 120 (Except.ok ("access-1", "refresh-1")))
      authA { RefreshToken := "refresh-0" }).2 _ rfl (by decide)⟩

/-! ## `AuthService.RefreshToken`: the order of delete and issue, and the errors -/

/-- C19 (as stated, refuted): the token `refresh-0` is valid, stored and unexpired
and its user exists.  When generating the new pair fails, and likewise when the
publish of the login event fails, `RefreshToken` returns an error and the record
of `refresh-0` is no longer in the store. -/
theorem RefreshToken_deletes_before_issuing :
    authA.refreshTokens.map (fun r => r.Token) = ["refresh-0"] ∧
      AuthService.RefreshToken (authCall 100 (Except.error "signing failed")) authA
          { RefreshToken := "refresh-0" } =
        ({ authA with refreshTokens := [] }, Except.error "signing failed") ∧
      (∃ st1 e, AuthService.RefreshToken
          { authCall 100 (Except.ok ("access-1", "refresh-1")) with
            publishFails := some "broker down" }
          authA { RefreshToken := "refresh-0" } = (st1, Except.error e) ∧
        st1.refreshTokens.map (fun r => r.Token) = ["refresh-1"]) :=
  ⟨by decide, rfl, ⟨_, _, rfl, by decide⟩⟩

theorem afterCreate_rows (env : AuthCall) (st : AuthState) (user : User) (r : String) :
    (afterCreate env st user r).published = st.published ∧
    (afterCreate env st user r).users = st.users ∧
    (env.createTokenFails = true → afterCreate env st user r = st) ∧
    (env.createTokenFails = false →
      ∃ k, (∀ x ∈ st.refreshTokens, x.ID ≠ k) ∧
        (afterCreate env st user r).refreshTokens =
          st.refreshTokens ++ [{ newRefreshToken env user r with ID := k }]) := by
  unfold afterCreate CreateRefreshToken
  cases hc : env.createTokenFails with
  | true => exact ⟨rfl, rfl, fun _ => rfl, fun h => absurd h (by simp)⟩
  | false =>
    refine ⟨rfl, rfl, fun h => absurd h (by simp), fun _ => ?_⟩
    refine ⟨freshID env.last.refreshTokens (st.refreshTokens.map (fun x => x.ID)), ?_, ?_⟩
    · intro x hx
      have := lt_freshID env.last.refreshTokens (st.refreshTokens.map (fun x => x.ID)) x.ID
        (List.mem_map_of_mem _ hx)
      omega
    · simp

theorem afterDelete_rows (env : AuthCall) (st : AuthState) (id : Nat) :
    (afterDelete env st id).published = st.published ∧
    (afterDelete env st id).users = st.users ∧
    (env.deleteByIDFails = true → afterDelete env st id = st) ∧
    (env.deleteByIDFails = false →
      (afterDelete env st id).refreshTokens =
        st.refreshTokens.filter (fun r => ¬ r.ID = id)) := by
  unfold afterDelete DeleteRefreshTokenByID
  cases hd : env.deleteByIDFails with
  | true => exact ⟨rfl, rfl, fun _ => rfl, fun h => absurd h (by simp)⟩
  | false => exact ⟨rfl, rfl, fun h => absurd h (by simp), fun _ => rfl⟩

/-- C19 (amended): in `RefreshToken` the delete of the old record is attempted
before the new pair is issued, and its failure is logged and ignored.  Once the
token has passed validation and lookup and its user is found, the state in which
the pair is issued is the one the delete left: without the rows that have the key
of the record found when the delete succeeded, unchanged when it failed.  If
generating the pair fails the call returns that error in that state; if the
publish fails the call returns the publish error, in that state with the new
record added after the others when its insert succeeded, and in that state as it
is when the insert failed. -/
theorem RefreshToken_old_record_deleted_first (env : AuthCall) (st : AuthState)
    (req : RefreshTokenRequest) (claims : Claims) (old : RefreshToken) (user : User)
    (hv : env.ValidateToken req.RefreshToken = Except.ok claims)
    (hr : GetValidRefreshToken env.getValidFails env.now st req.RefreshToken = Except.ok old)
    (hu : GetByID env.getUserFails st claims.UserID = Except.ok user) :
    old ∈ st.refreshTokens ∧
    (env.deleteByIDFails = false →
      (afterDelete env st old.ID).refreshTokens =
          st.refreshTokens.filter (fun r => ¬ r.ID = old.ID) ∧
        old ∉ (afterDelete env st old.ID).refreshTokens) ∧
    (env.deleteByIDFails = true → afterDelete env st old.ID = st) ∧
    (∀ e, env.GenerateTokenPair user.ID user.Email user.Role = Except.error e →
      AuthService.RefreshToken env st req = (afterDelete env st old.ID, Except.error e)) ∧
    (∀ a r e, env.GenerateTokenPair user.ID user.Email user.Role = Except.ok (a, r) →
      env.publishFails = some e →
      ∃ st1, AuthService.RefreshToken env st req =
          (st1, Except.error ("unable to publish user login event: " ++ e)) ∧
        (env.createTokenFails = true → st1 = afterDelete env st old.ID) ∧
        (env.createTokenFails = false →
          ∃ k, (∀ x ∈ (afterDelete env st old.ID).refreshTokens, x.ID ≠ k) ∧
            st1.refreshTokens = (afterDelete env st old.ID).refreshTokens ++
              [{ newRefreshToken env user r with ID := k }])) := by
  obtain ⟨-, -, hdfail, hdok⟩ := afterDelete_rows env st old.ID
  refine ⟨(GetValidRefreshToken_ok _ _ _ _ _ hr).1, ?_, hdfail, ?_, ?_⟩
  · intro hd
    refine ⟨hdok hd, ?_⟩
    rw [hdok hd]
    simp
  · intro e hg
    rw [RefreshToken_passed env st req claims old user hv hr hu]
    exact generateAuthResponse_gen_error env _ user e hg
  · intro a r e hg hp
    obtain ⟨-, -, hcfail, hcok⟩ := afterCreate_rows env (afterDelete env st old.ID) user r
    refine ⟨afterCreate env (afterDelete env st old.ID) user r, ?_, hcfail, hcok⟩
    rw [RefreshToken_passed env st req claims old user hv hr hu]
    exact generateAuthResponse_publish_error env _ user a r e hg hp

theorem RefreshToken_old_record_deleted_first_witness :
    GetValidRefreshToken false 100 authA "refresh-0" =
        Except.ok { ID := 1, UserID := 1, Token := "refresh-0", ExpiresAt := 120 } ∧
      AuthService.RefreshToken (authCall 100 (Except.error "signing failed")) authA
          { RefreshToken := "refresh-0" } =
        (afterDelete (authCall 100 (Except.error "signing failed")) authA 1,
          Except.error "signing failed") ∧
      (afterDelete (authCall 100 (Except.error "signing failed")) authA 1).refreshTokens = [] ∧
      (afterDelete { authCall 100 (Except.error "signing failed") with deleteByIDFails := true }
        authA 1).refreshTokens = authA.refreshTokens :=
  ⟨rfl,
    (RefreshToken_old_record_deleted_first (authCall 100 (Except.error "signing failed")) authA
      { RefreshToken := "refresh-0" } { UserID := 1, Email := "u@shop.test", Role := "customer" }
      { ID := 1, UserID := 1, Token := "refresh-0", ExpiresAt := 120 } userU
      rfl rfl rfl).2.2.2.1 "signing failed" rfl,
    rfl, rfl⟩

/-- C20 (as stated, refuted): for a token with an invalid signature `RefreshToken`
returns `invalid refresh token`, for a valid token absent from the store and for
one whose record has expired it returns `refresh token not found or expired`; the
two error values differ. -/
theorem RefreshToken_errors_differ :
    (AuthService.RefreshToken (authCall 100 (Except.ok ("access-1", "refresh-1"))) authA
        { RefreshToken := "forged" }).2 = Except.error "invalid refresh token" ∧
      (AuthService.RefreshToken (authCall 100 (Except.ok ("access-1", "refresh-1"))) authA
        { RefreshToken := "refresh-9" }).2 =
          Except.error "refresh token not found or expired" ∧
      (AuthService.RefreshToken (authCall 120 (Except.ok ("access-1", "refresh-1"))) authA
        { RefreshToken := "refresh-0" }).2 =
          Except.error "refresh token not found or expired" ∧
      (AuthService.RefreshToken (authCall 100 (Except.ok ("access-1", "refresh-1"))) authA
        { RefreshToken := "forged" }).2 ≠
      (AuthService.RefreshToken (authCall 100 (Except.ok ("access-1", "refresh-1"))) authA
        { RefreshToken := "refresh-9" }).2 := by
  refine ⟨rfl, rfl, rfl, ?_⟩
  intro h
  have h1 : (AuthService.RefreshToken (authCall 100 (Except.ok ("access-1", "refresh-1")))
      authA { RefreshToken := "forged" }).2 = Except.error "invalid refresh token" := rfl
  have h2 : (AuthService.RefreshToken (authCall 100 (Except.ok ("access-1", "refresh-1")))
      authA { RefreshToken := "refresh-9" }).2 =
        Except.error "refresh token not found or expired" := rfl
  rw [h1, h2] at h
  simp only [Except.error.injEq] at h
  exact absurd h (by decide)

/-- C20 (amended): `AuthService.RefreshToken` returns `invalid refresh token` when
the signature check fails and `refresh token not found or expired` both when no
record has the token and when its records have expired, none of the three
changing the store; the handler `refreshToken` answers every error of the service
with the one reply `Token refresh failed`, so the three cases are the same to the
HTTP caller. -/
theorem RefreshToken_failure_replies (env : AuthCall) (st : AuthState)
    (req : RefreshTokenRequest) :
    (∀ e, env.ValidateToken req.RefreshToken = Except.error e →
      AuthService.RefreshToken env st req = (st, Except.error "invalid refresh token")) ∧
    (∀ claims, env.ValidateToken req.RefreshToken = Except.ok claims →
      (∀ row ∈ st.refreshTokens, row.Token = req.RefreshToken → ¬ env.now < row.ExpiresAt) →
      AuthService.RefreshToken env st req =
        (st, Except.error "refresh token not found or expired")) ∧
    (∀ e, (AuthService.RefreshToken env st req).2 = Except.error e →
      (refreshToken env st req).2 = Response.unauthorized "Token refresh failed") := by
  refine ⟨?_, ?_, ?_⟩
  · intro e hv
    unfold AuthService.RefreshToken
    simp only [hv]
  · intro claims hv hnone
    obtain ⟨e, he⟩ :=
      GetValidRefreshToken_error env.getValidFails env.now st req.RefreshToken hnone
    unfold AuthService.RefreshToken
    simp only [hv, he]
  · intro e h
    unfold refreshToken
    rcases hx : AuthService.RefreshToken env st req with ⟨st1, r⟩
    rw [hx] at h
    simp only at h
    rw [h]

theorem RefreshToken_failure_replies_witness :
    (refreshToken (authCall 100 (Except.ok ("access-1", "refresh-1"))) authA
        { RefreshToken := "forged" }).2 = Response.unauthorized "Token refresh failed" ∧
      (refreshToken (authCall 100 (Except.ok ("access-1", "refresh-1"))) authA
        { RefreshToken := "refresh-9" }).2 = Response.unauthorized "Token refresh failed" ∧
      (refreshToken (authCall 120 (Except.ok ("access-1", "refresh-1"))) authA
        { RefreshToken := "refresh-0" }).2 = Response.unauthorized "Token refresh failed" :=
  ⟨(RefreshToken_failure_replies (authCall 100 (Except.ok ("access-1", "refresh-1"))) authA
      { RefreshToken := "forged" }).2.2 _ rfl,
    (RefreshToken_failure_replies (authCall 100 (Except.ok ("access-1", "refresh-1"))) authA
      { RefreshToken := "refresh-9" }).2.2 _ rfl,
    (RefreshToken_failure_replies (authCall 120 (Except.ok ("access-1", "refresh-1"))) authA
      { RefreshToken := "refresh-0" }).2.2 _ rfl⟩

/-! ## Refresh-token rotation -/

theorem afterDelete_tokens (env : AuthCall) (st : AuthState) (id : Nat)
    (hd : env.deleteByIDFails = false) :
    (afterDelete env st id).refreshTokens = st.refreshTokens.filter (fun r => ¬ r.ID = id) ∧
      (afterDelete env st id).users = st.users := by
  unfold afterDelete DeleteRefreshTokenByID
  rw [hd]
  exact ⟨rfl, rfl⟩

theorem afterCreate_tokens (env : AuthCall) (st : AuthState) (user : User) (r : String) :
    (afterCreate env st user r).users = st.users ∧
    ((afterCreate env st user r).refreshTokens = st.refreshTokens ∨
      (env.createTokenFails = false ∧
        (afterCreate env st user r).refreshTokens = st.refreshTokens ++
          [{ newRefreshToken env user r with
              ID := freshID env.last.refreshTokens (st.refreshTokens.map (fun x => x.ID)) }])) := by
  unfold afterCreate CreateRefreshToken
  cases hc : env.createTokenFails with
  | true => exact ⟨rfl, Or.inl rfl⟩
  | false => exact ⟨rfl, Or.inr ⟨rfl, rfl⟩⟩

theorem RefreshToken_rejects_unknown (env : AuthCall) (st : AuthState) (token : String)
    (h : ∀ row ∈ st.refreshTokens, row.Token ≠ token) :
    ∃ e, AuthService.RefreshToken env st { RefreshToken := token } = (st, Except.error e) := by
  cases hv : env.ValidateToken token with
  | error e =>
    refine ⟨"invalid refresh token", ?_⟩
    unfold AuthService.RefreshToken
    simp only [hv]
  | ok claims =>
    refine ⟨"refresh token not found or expired", ?_⟩
    obtain ⟨e, he⟩ := GetValidRefreshToken_error env.getValidFails env.now st token
      (fun row hrow htok => absurd htok (h row hrow))
    unfold AuthService.RefreshToken
    simp only [hv, he]

/-- What one successful rotation leaves in the table: the records other than the
one found, then possibly the new record, whose token is the one returned. -/
theorem RefreshToken_rotation (env : AuthCall) (st st1 : AuthState) (token : String)
    (resp : AuthResponse)
    (h : AuthService.RefreshToken env st { RefreshToken := token } = (st1, Except.ok resp))
    (hd : env.deleteByIDFails = false) :
    ∃ old user, old ∈ st.refreshTokens ∧ old.Token = token ∧ st1.users = st.users ∧
      (st1.refreshTokens = st.refreshTokens.filter (fun r => ¬ r.ID = old.ID) ∨
        (env.createTokenFails = false ∧
          st1.refreshTokens = st.refreshTokens.filter (fun r => ¬ r.ID = old.ID) ++
            [{ newRefreshToken env user resp.RefreshToken with
                ID := freshID env.last.refreshTokens ((st.refreshTokens.filter
                  (fun r => ¬ r.ID = old.ID)).map (fun x => x.ID)) }])) := by
  obtain ⟨claims, old, user, -, hr, -, hgen⟩ :=
    RefreshToken_ok_inv env st st1 { RefreshToken := token } resp h
  obtain ⟨a, r, -, -, hresp, hst1⟩ := generateAuthResponse_ok_inv env _ st1 user resp hgen
  obtain ⟨hmem, htok, -⟩ := GetValidRefreshToken_ok _ _ _ _ _ hr
  obtain ⟨hdt, hdu⟩ := afterDelete_tokens env st old.ID hd
  obtain ⟨hcu, hct⟩ := afterCreate_tokens env (afterDelete env st old.ID) user r
  have hrr : resp.RefreshToken = r := by rw [hresp]; rfl
  refine ⟨old, user, hmem, htok, ?_, ?_⟩
  · rw [hst1]
    show (afterCreate env (afterDelete env st old.ID) user r).users = _
    rw [hcu, hdu]
  · rw [hst1, hrr]
    show (afterCreate env (afterDelete env st old.ID) user r).refreshTokens = _ ∨ _ ∧
      (afterCreate env (afterDelete env st old.ID) user r).refreshTokens = _
    rcases hct with hct | ⟨hcf, hct⟩
    · left; rw [hct, hdt]
    · right; rw [hct, hdt]; exact ⟨hcf, rfl⟩

theorem RefreshToken_retires_token (env : AuthCall) (st st1 : AuthState) (token : String)
    (resp : AuthResponse)
    (hU : (st.refreshTokens.map (fun r => r.Token)).Nodup)
    (h : AuthService.RefreshToken env st { RefreshToken := token } = (st1, Except.ok resp))
    (hd : env.deleteByIDFails = false) (hne : resp.RefreshToken ≠ token) :
    ∀ row ∈ st1.refreshTokens, row.Token ≠ token := by
  obtain ⟨old, user, hmem, htok, -, hrows⟩ := RefreshToken_rotation env st st1 token resp h hd
  have hfilter : ∀ row ∈ st.refreshTokens.filter (fun r => ¬ r.ID = old.ID),
      row.Token ≠ token := by
    intro row hrow heq
    simp only [List.mem_filter, decide_eq_true_eq] at hrow
    have : row = old := List.inj_on_of_nodup_map hU hrow.1 hmem (by rw [heq, htok])
    exact hrow.2 (by rw [this])
  intro row hrow
  rcases hrows with hrows | ⟨-, hrows⟩
  · rw [hrows] at hrow
    exact hfilter row hrow
  · rw [hrows, List.mem_append, List.mem_singleton] at hrow
    rcases hrow with hrow | hrow
    · exact hfilter row hrow
    · rw [hrow]; exact hne

theorem RefreshToken_tokens_nodup (env : AuthCall) (st st1 : AuthState) (token : String)
    (resp : AuthResponse)
    (hU : (st.refreshTokens.map (fun r => r.Token)).Nodup)
    (h : AuthService.RefreshToken env st { RefreshToken := token } = (st1, Except.ok resp))
    (hd : env.deleteByIDFails = false)
    (hfresh : resp.RefreshToken ∉ st.refreshTokens.map (fun r => r.Token)) :
    (st1.refreshTokens.map (fun r => r.Token)).Nodup := by
  obtain ⟨old, user, -, -, -, hrows⟩ := RefreshToken_rotation env st st1 token resp h hd
  have hsub : (st.refreshTokens.filter (fun r => ¬ r.ID = old.ID)).Sublist st.refreshTokens :=
    List.filter_sublist _
  have hnd : ((st.refreshTokens.filter (fun r => ¬ r.ID = old.ID)).map
      (fun r => r.Token)).Nodup := List.Nodup.sublist (hsub.map _) hU
  rcases hrows with hrows | ⟨-, hrows⟩
  · rw [hrows]; exact hnd
  · rw [hrows, List.map_append, List.map_singleton]
    rw [List.nodup_append]
    refine ⟨hnd, List.nodup_singleton _, ?_⟩
    intro t ht1 ht2
    rw [List.mem_singleton] at ht2
    apply hfresh
    have : t ∈ st.refreshTokens.map (fun r => r.Token) := (hsub.map _).subset ht1
    rw [ht2] at this
    exact this

theorem RefreshToken_accepts_new (env env3 : AuthCall) (st st1 : AuthState) (token : String)
    (resp : AuthResponse) (claims3 : Claims) (user3 : User) (a3 r3 : String)
    (h : AuthService.RefreshToken env st { RefreshToken := token } = (st1, Except.ok resp))
    (hd : env.deleteByIDFails = false) (hc : env.createTokenFails = false)
    (hv3 : env3.ValidateToken resp.RefreshToken = Except.ok claims3)
    (hg3 : env3.getValidFails = false)
    (hnow3 : env3.now < env.issueTime + env.RefreshTokenExpires)
    (hu3 : GetByID env3.getUserFails st claims3.UserID = Except.ok user3)
    (hgen3 : env3.GenerateTokenPair user3.ID user3.Email user3.Role = Except.ok (a3, r3))
    (hpub3 : env3.publishFails = Option.none) :
    ∃ st2, AuthService.RefreshToken env3 st1 { RefreshToken := resp.RefreshToken } =
      (st2, Except.ok (authResponse user3 a3 r3)) := by
  obtain ⟨old, user, -, -, husers, hrows⟩ := RefreshToken_rotation env st st1 token resp h hd
  rcases hrows with hrows | ⟨-, hrows⟩
  · obtain ⟨claims, old1, user1, -, hr, -, hgen⟩ :=
      RefreshToken_ok_inv env st st1 { RefreshToken := token } resp h
    obtain ⟨a, r, -, -, hresp, hst1⟩ := generateAuthResponse_ok_inv env _ st1 user1 resp hgen
    have hex : ∃ row ∈ st1.refreshTokens, row.Token = resp.RefreshToken ∧
        row.ExpiresAt = env.issueTime + env.RefreshTokenExpires := by
      rw [hst1, hresp]
      show ∃ row ∈ (afterCreate env (afterDelete env st old1.ID) user1 r).refreshTokens, _
      unfold afterCreate CreateRefreshToken
      rw [hc]
      simp only [Bool.false_eq_true, if_false, List.mem_append, List.mem_singleton]
      exact ⟨_, Or.inr rfl, rfl, rfl⟩
    obtain ⟨row, hrow, htok, hexp⟩ := hex
    obtain ⟨found, hfound⟩ := GetValidRefreshToken_some env3.now st1 resp.RefreshToken row hrow
      htok (by rw [hexp]; exact hnow3)
    have hu3' : GetByID env3.getUserFails st1 claims3.UserID = Except.ok user3 := by
      unfold GetByID at hu3 ⊢
      rw [husers]; exact hu3
    rw [← hg3] at hfound
    rw [RefreshToken_passed env3 st1 { RefreshToken := resp.RefreshToken } claims3 found user3
      hv3 hfound hu3', generateAuthResponse_ok env3 _ user3 a3 r3 hgen3 hpub3]
    exact ⟨_, rfl⟩
  · have hrow : ({ newRefreshToken env user resp.RefreshToken with
        ID := freshID env.last.refreshTokens ((st.refreshTokens.filter
          (fun r => ¬ r.ID = old.ID)).map (fun x => x.ID)) } : RefreshToken) ∈
        st1.refreshTokens := by
      rw [hrows]; simp
    obtain ⟨found, hfound⟩ := GetValidRefreshToken_some env3.now st1 resp.RefreshToken _ hrow
      rfl (by exact hnow3)
    have hu3' : GetByID env3.getUserFails st1 claims3.UserID = Except.ok user3 := by
      unfold GetByID at hu3 ⊢
      rw [husers]; exact hu3
    rw [← hg3] at hfound
    rw [RefreshToken_passed env3 st1 { RefreshToken := resp.RefreshToken } claims3 found user3
      hv3 hfound hu3', generateAuthResponse_ok env3 _ user3 a3 r3 hgen3 hpub3]
    exact ⟨_, rfl⟩
/-- C17 (as stated, refuted): three sessions on `authA`, each starting with a
successful `RefreshToken` of `refresh-0`.  When the delete of the old record
fails, the failure is logged and ignored and a second `RefreshToken` of
`refresh-0` succeeds.  When the insert of the new record fails, the call still
returns the pair and `RefreshToken` with the new token `refresh-1` fails.  When
the token library issues `refresh-0` once more, a second `RefreshToken` of
`refresh-0` succeeds. -/
theorem RefreshToken_rotation_broken :
    (∃ st1 resp1 st2 resp2,
      AuthService.RefreshToken
          { authCall 100 (Except.ok ("access-1", "refresh-1")) with deleteByIDFails := true }
          authA { RefreshToken := "refresh-0" } = (st1, Except.ok resp1) ∧
        resp1.RefreshToken = "refresh-1" ∧
        AuthService.RefreshToken (authCallAfter 2 101 (Except.ok ("access-2", "refresh-2")))
          st1 { RefreshToken := "refresh-0" } = (st2, Except.ok resp2)) ∧
      (∃ st1 resp1 e,
        AuthService.RefreshToken
            { authCall 100 (Except.ok ("access-1", "refresh-1")) with createTokenFails := true }
            authA { RefreshToken := "refresh-0" } = (st1, Except.ok resp1) ∧
          resp1.RefreshToken = "refresh-1" ∧
          AuthService.RefreshToken (authCallAfter 2 101 (Except.ok ("access-2", "refresh-2")))
            st1 { RefreshToken := "refresh-1" } = (st1, Except.error e)) ∧
      (∃ st1 resp1 st2 resp2,
        AuthService.RefreshToken (authCall 100 (Except.ok ("access-1", "refresh-0")))
            authA { RefreshToken := "refresh-0" } = (st1, Except.ok resp1) ∧
          AuthService.RefreshToken (authCallAfter 2 101 (Except.ok ("access-2", "refresh-2")))
            st1 { RefreshToken := "refresh-0" } = (st2, Except.ok resp2)) :=
  ⟨⟨_, _, _, _, rfl, rfl, rfl⟩, ⟨_, _, _, rfl, rfl, rfl⟩, ⟨_, _, _, _, rfl, rfl⟩⟩

/-- C17 (amended): after a successful `RefreshToken(old)` has returned a new pair,
every further `RefreshToken(old)` fails and leaves the store unchanged;
`RefreshToken` with the newly returned refresh token succeeds, and every attempt
with it after that fails.  This holds when token values are unique in the store,
each issued refresh token is new to the store, the deletes and the insert of the
two successful calls do not fail there, and the second successful call is made
before the new token expires, with a token library that accepts it and issues a
pair, and a publisher that accepts the event. -/
theorem RefreshToken_rotation_invariant (env1 env3 : AuthCall) (st0 st1 : AuthState)
    (old : String) (resp1 : AuthResponse) (claims3 : Claims) (user3 : User) (a3 r3 : String)
    (hU : (st0.refreshTokens.map (fun r => r.Token)).Nodup)
    (h1 : AuthService.RefreshToken env1 st0 { RefreshToken := old } = (st1, Except.ok resp1))
    (hd1 : env1.deleteByIDFails = false) (hc1 : env1.createTokenFails = false)
    (hfresh1 : resp1.RefreshToken ∉ st0.refreshTokens.map (fun r => r.Token))
    (hv3 : env3.ValidateToken resp1.RefreshToken = Except.ok claims3)
    (hg3 : env3.getValidFails = false)
    (hnow3 : env3.now < env1.issueTime + env1.RefreshTokenExpires)
    (hu3 : GetByID env3.getUserFails st0 claims3.UserID = Except.ok user3)
    (hgen3 : env3.GenerateTokenPair user3.ID user3.Email user3.Role = Except.ok (a3, r3))
    (hpub3 : env3.publishFails = Option.none)
    (hd3 : env3.deleteByIDFails = false) (hne3 : r3 ≠ resp1.RefreshToken) :
    (∀ env2, ∃ e, AuthService.RefreshToken env2 st1 { RefreshToken := old } =
        (st1, Except.error e)) ∧
    ∃ st2 resp2,
      AuthService.RefreshToken env3 st1 { RefreshToken := resp1.RefreshToken } =
        (st2, Except.ok resp2) ∧
      ∀ env4, ∃ e, AuthService.RefreshToken env4 st2 { RefreshToken := resp1.RefreshToken } =
        (st2, Except.error e) := by
  obtain ⟨oldRow, -, hmem, htok, -, -⟩ :=
    RefreshToken_rotation env1 st0 st1 old resp1 h1 hd1
  have hne1 : resp1.RefreshToken ≠ old := by
    intro heq
    apply hfresh1
    rw [heq, ← htok]
    exact List.mem_map_of_mem (fun r => r.Token) hmem
  constructor
  · intro env2
    exact RefreshToken_rejects_unknown env2 st1 old
      (RefreshToken_retires_token env1 st0 st1 old resp1 hU h1 hd1 hne1)
  · obtain ⟨st2, h3⟩ := RefreshToken_accepts_new env1 env3 st0 st1 old resp1 claims3 user3 a3 r3
      h1 hd1 hc1 hv3 hg3 hnow3 hu3 hgen3 hpub3
    refine ⟨st2, authResponse user3 a3 r3, h3, ?_⟩
    intro env4
    have hU1 := RefreshToken_tokens_nodup env1 st0 st1 old resp1 hU h1 hd1 hfresh1
    exact RefreshToken_rejects_unknown env4 st2 resp1.RefreshToken
      (RefreshToken_retires_token env3 st1 st2 resp1.RefreshToken _ hU1 h3 hd3 hne3)

theorem RefreshToken_rotation_invariant_witness :
    ∃ st1 resp1,
      AuthService.RefreshToken (authCall 100 (Except.ok ("access-1", "refresh-1"))) authA
        { RefreshToken := "refresh-0" } = (st1, Except.ok resp1) ∧
      resp1.RefreshToken = "refresh-1" ∧
      (∃ e, AuthService.RefreshToken (authCallAfter 2 101 (Except.ok ("access-2", "refresh-2")))
        st1 { RefreshToken := "refresh-0" } = (st1, Except.error e)) ∧
      ∃ st2 resp2,
        AuthService.RefreshToken (authCallAfter 2 110 (Except.ok ("access-2", "refresh-2"))) st1
          { RefreshToken := resp1.RefreshToken } = (st2, Except.ok resp2) ∧
        ∀ env4, ∃ e, AuthService.RefreshToken env4 st2
          { RefreshToken := resp1.RefreshToken } = (st2, Except.error e) := by
  have h := RefreshToken_rotation_invariant
    (authCall 100 (Except.ok ("access-1", "refresh-1")))
    (authCallAfter 2 110 (Except.ok ("access-2", "refresh-2"))) authA _ "refresh-0" _
    { UserID := 1, Email := "u@shop.test", Role := "customer" } userU "access-2" "refresh-2"
    (by decide) rfl rfl rfl (by decide) rfl rfl (by decide) rfl rfl rfl rfl (by decide)
  exact ⟨_, _, rfl, rfl, h.1 _, h.2⟩

/-! ## The auth service: failures, logout, login, registration -/

theorem GetByEmailAndActive_error (fails : Bool) (st : AuthState) (email : String)
    (h : ∀ u ∈ st.users, u.Email = email → u.IsActive = false) :
    ∃ e, GetByEmailAndActive fails st email true = Except.error e := by
  unfold GetByEmailAndActive
  split_ifs
  · exact ⟨_, rfl⟩
  · have hnil : st.users.filter (fun u => u.Email = email ∧ u.IsActive = true) = [] := by
      rw [List.filter_eq_nil_iff]
      intro u hu
      simp only [decide_eq_true_eq, not_and]
      intro he
      rw [h u hu he]
      simp
    rw [hnil]
    exact ⟨_, rfl⟩

theorem GetByEmailAndActive_ok (fails : Bool) (st : AuthState) (email : String) (user : User)
    (h : GetByEmailAndActive fails st email true = Except.ok user) :
    user ∈ st.users ∧ user.Email = email ∧ user.IsActive = true := by
  unfold GetByEmailAndActive at h
  split_ifs at h
  split at h
  · simp at h
  · rename_i u hu
    have hmem := firstByID_mem _ _ _ hu
    simp only [List.mem_filter, decide_eq_true_eq] at hmem
    simp only [Except.ok.injEq] at h
    rw [← h]
    exact ⟨hmem.1, hmem.2.1, hmem.2.2⟩

theorem GetByEmailAndActive_some (st : AuthState) (email : String) (user : User)
    (hu : user ∈ st.users) (he : user.Email = email) (ha : user.IsActive = true) :
    ∃ found, GetByEmailAndActive false st email true = Except.ok found := by
  unfold GetByEmailAndActive
  simp only [Bool.false_eq_true, if_false]
  have hne : st.users.filter (fun u => u.Email = email ∧ u.IsActive = true) ≠ [] := by
    intro hnil
    have : user ∈ st.users.filter (fun u => u.Email = email ∧ u.IsActive = true) := by
      simp only [List.mem_filter, decide_eq_true_eq]
      exact ⟨hu, he, ha⟩
    rw [hnil] at this
    exact List.not_mem_nil _ this
  obtain ⟨x, hx⟩ := firstByID_ne_none (fun u => u.ID) _ hne
  rw [hx]
  exact ⟨x, rfl⟩

theorem GetByEmail_some (st : AuthState) (email : String) (user : User)
    (hu : user ∈ st.users) (he : user.Email = email) :
    ∃ found, GetByEmail false st email = Except.ok found := by
  unfold GetByEmail
  simp only [Bool.false_eq_true, if_false]
  have hne : st.users.filter (fun u => u.Email = email) ≠ [] := by
    intro hnil
    have : user ∈ st.users.filter (fun u => u.Email = email) := by
      simp only [List.mem_filter, decide_eq_true_eq]
      exact ⟨hu, he⟩
    rw [hnil] at this
    exact List.not_mem_nil _ this
  obtain ⟨x, hx⟩ := firstByID_ne_none (fun u => u.ID) _ hne
  rw [hx]
  exact ⟨x, rfl⟩

theorem Login_lookup_error (env : AccountCall) (st : AuthState) (req : LoginRequest) (e : String)
    (h : GetByEmailAndActive env.getByEmailFails st req.Email true = Except.error e) :
    AuthService.Login env st req = (st, Except.error "invalid credentials") := by
  unfold AuthService.Login
  simp only [h]

theorem Login_password_error (env : AccountCall) (st : AuthState) (req : LoginRequest)
    (user : User)
    (h : GetByEmailAndActive env.getByEmailFails st req.Email true = Except.ok user)
    (hpw : env.CheckPassword req.Password user.Password = false) :
    AuthService.Login env st req = (st, Except.error "invalid credentials") := by
  unfold AuthService.Login
  simp only [h, hpw, if_true]

theorem Login_passed (env : AccountCall) (st : AuthState) (req : LoginRequest) (user : User)
    (h : GetByEmailAndActive env.getByEmailFails st req.Email true = Except.ok user)
    (hpw : env.CheckPassword req.Password user.Password = true) :
    AuthService.Login env st req = generateAuthResponse env.toAuthCall st user := by
  unfold AuthService.Login
  simp only [h, hpw, Bool.true_eq_false, if_false]

theorem afterCreate_inserts (env : AuthCall) (st : AuthState) (user : User) (r : String)
    (hc : env.createTokenFails = false) :
    afterCreate env st user r =
      { st with refreshTokens := st.refreshTokens ++
          [{ newRefreshToken env user r with
              ID := freshID env.last.refreshTokens (st.refreshTokens.map (fun x => x.ID)) }] } := by
  unfold afterCreate CreateRefreshToken
  rw [hc]
  rfl

theorem afterCreate_fails (env : AuthCall) (st : AuthState) (user : User) (r : String)
    (hc : env.createTokenFails = true) : afterCreate env st user r = st := by
  unfold afterCreate CreateRefreshToken
  rw [hc]
  rfl

/-- C21: when `RefreshToken` is called with a token that `ValidateToken` rejects,
or with one for which the store holds no unexpired record (no record at all, or
only records whose expiry is not after the current instant, whatever the
signature check says), it returns an error and no response, and the state after
the call is the state before it: the same refresh-token records and the same
published events. -/
theorem RefreshToken_failure_no_effect (env : AuthCall) (st : AuthState)
    (req : RefreshTokenRequest)
    (h : (∃ e, env.ValidateToken req.RefreshToken = Except.error e) ∨
      (∀ row ∈ st.refreshTokens, row.Token = req.RefreshToken → ¬ env.now < row.ExpiresAt)) :
    (AuthService.RefreshToken env st req).1 = st ∧
    (AuthService.RefreshToken env st req).1.refreshTokens = st.refreshTokens ∧
    (AuthService.RefreshToken env st req).1.published = st.published ∧
    ∃ e, (AuthService.RefreshToken env st req).2 = Except.error e := by
  have key : ∃ e, AuthService.RefreshToken env st req = (st, Except.error e) := by
    cases hv : env.ValidateToken req.RefreshToken with
    | error e =>
      refine ⟨"invalid refresh token", ?_⟩
      unfold AuthService.RefreshToken
      simp only [hv]
    | ok claims =>
      rcases h with ⟨e, he⟩ | hnone
      · rw [hv] at he
        simp at he
      · obtain ⟨e, he⟩ :=
          GetValidRefreshToken_error env.getValidFails env.now st req.RefreshToken hnone
        refine ⟨"refresh token not found or expired", ?_⟩
        unfold AuthService.RefreshToken
        simp only [hv, he]
  obtain ⟨e, he⟩ := key
  rw [he]
  exact ⟨rfl, rfl, rfl, e, rfl⟩

theorem RefreshToken_failure_no_effect_witness :
    (∀ row ∈ authA.refreshTokens, row.Token = "refresh-0" → ¬ (120 : Int) < row.ExpiresAt) ∧
      (AuthService.RefreshToken (authCall 120 (Except.ok ("access-1", "refresh-1"))) authA
        { RefreshToken := "refresh-0" }).1 = authA ∧
      (AuthService.RefreshToken (authCall 100 (Except.ok ("access-1", "refresh-1"))) authA
        { RefreshToken := "forged" }).1.published = [] :=
  ⟨by decide,
    (RefreshToken_failure_no_effect (authCall 120 (Except.ok ("access-1", "refresh-1"))) authA
      { RefreshToken := "refresh-0" } (Or.inr (by decide))).1,
    (RefreshToken_failure_no_effect (authCall 100 (Except.ok ("access-1", "refresh-1"))) authA
      { RefreshToken := "forged" } (Or.inl ⟨_, rfl⟩)).2.2.1⟩

/-- C22: after `Logout(t)` returns no error the store holds no refresh-token
record with value `t`, the records with other values are the ones held before, in
the same order, users and published events are as before, and every later
`RefreshToken(t)` fails, leaving the store as it is. -/
theorem Logout_revokes_token (env : AuthCall) (st st1 : AuthState) (t : String)
    (h : AuthService.Logout env st t = (st1, Option.none)) :
    (∀ row ∈ st1.refreshTokens, row.Token ≠ t) ∧
    st1.refreshTokens = st.refreshTokens.filter (fun r => ¬ r.Token = t) ∧
    (∀ row, row.Token ≠ t → (row ∈ st1.refreshTokens ↔ row ∈ st.refreshTokens)) ∧
    st1.users = st.users ∧ st1.published = st.published ∧
    ∀ env2, ∃ e, AuthService.RefreshToken env2 st1 { RefreshToken := t } =
      (st1, Except.error e) := by
  unfold AuthService.Logout DeleteRefreshToken at h
  cases hf : env.deleteTokenFails with
  | some e => simp [hf] at h
  | none =>
    simp only [hf, Prod.mk.injEq, and_true] at h
    have hgone : ∀ row ∈ st1.refreshTokens, row.Token ≠ t := by
      intro row hrow
      rw [← h] at hrow
      simp only [List.mem_filter, decide_eq_true_eq] at hrow
      exact hrow.2
    refine ⟨hgone, by rw [← h], ?_, by rw [← h], by rw [← h], ?_⟩
    · intro row hne
      rw [← h]
      simp only [List.mem_filter, decide_eq_true_eq]
      exact ⟨fun hx => hx.1, fun hx => ⟨hx, hne⟩⟩
    · intro env2
      exact RefreshToken_rejects_unknown env2 st1 t hgone

theorem Logout_revokes_token_witness :
    AuthService.Logout (authCall 100 (Except.ok ("access-1", "refresh-1"))) authA "refresh-0" =
        ({ authA with refreshTokens := [] }, Option.none) ∧
      ∃ e, AuthService.RefreshToken (authCall 101 (Except.ok ("access-1", "refresh-1")))
        { authA with refreshTokens := [] } { RefreshToken := "refresh-0" } =
          ({ authA with refreshTokens := [] }, Except.error e) :=
  ⟨rfl,
    (Logout_revokes_token (authCall 100 (Except.ok ("access-1", "refresh-1"))) authA
      { authA with refreshTokens := [] } "refresh-0" rfl).2.2.2.2.2 _⟩

theorem Register_passed (env : AccountCall) (st : AuthState) (req : RegisterRequest)
    (e hashed : String)
    (hg : GetByEmail env.getByEmailFails st req.Email = Except.error e)
    (hh : env.HashPassword req.Password = Except.ok hashed)
    (hc : env.createUserFails = Option.none) :
    AuthService.Register env st req =
      generateAuthResponse env.toAuthCall
        (afterCartCreate env
          { st with users := st.users ++ [createdUser env st (newUser env req hashed)] }
          (createdUser env st (newUser env req hashed)).ID)
        (createdUser env st (newUser env req hashed)) := by
  unfold AuthService.Register UserRepository.Create
  simp only [hg, hh, hc]

theorem afterCartCreate_auth (env : AccountCall) (st : AuthState) (userID : Nat) :
    (afterCartCreate env st userID).refreshTokens = st.refreshTokens ∧
      (afterCartCreate env st userID).users = st.users ∧
      (afterCartCreate env st userID).published = st.published := by
  unfold afterCartCreate
  cases CartRepository.Create env.last env.createCartFails st.shop
      { ID := 0, UserID := userID, CartItems := [] } with
  | error e => exact ⟨rfl, rfl, rfl⟩
  | ok shop => exact ⟨rfl, rfl, rfl⟩

/-- C23: `Login` returns the one error `invalid credentials`, and leaves the
state as it was, both when no active account has the email (no account, or only
inactive ones) and when the account is found but `CheckPassword` rejects the
password; the two replies are equal. -/
theorem Login_failures_indistinguishable (env1 env2 : AccountCall) (st1 st2 : AuthState)
    (req1 req2 : LoginRequest) (user : User)
    (hmiss : ∀ u ∈ st1.users, u.Email = req1.Email → u.IsActive = false)
    (hfound : GetByEmailAndActive env2.getByEmailFails st2 req2.Email true = Except.ok user)
    (hpw : env2.CheckPassword req2.Password user.Password = false) :
    AuthService.Login env1 st1 req1 = (st1, Except.error "invalid credentials") ∧
    AuthService.Login env2 st2 req2 = (st2, Except.error "invalid credentials") ∧
    (AuthService.Login env1 st1 req1).2 = (AuthService.Login env2 st2 req2).2 := by
  obtain ⟨e, he⟩ := GetByEmailAndActive_error env1.getByEmailFails st1 req1.Email hmiss
  have h1 := Login_lookup_error env1 st1 req1 e he
  have h2 := Login_password_error env2 st2 req2 user hfound hpw
  refine ⟨h1, h2, ?_⟩
  rw [h1, h2]

theorem Login_failures_indistinguishable_witness :
    (AuthService.Login (accountCall 100 (Except.ok ("access-1", "refresh-1"))) authB
        { Email := "nobody@shop.test", Password := "secret" }).2 =
      (AuthService.Login (accountCall 100 (Except.ok ("access-1", "refresh-1"))) authB
        { Email := "u@shop.test", Password := "guess" }).2 :=
  (Login_failures_indistinguishable (accountCall 100 (Except.ok ("access-1", "refresh-1")))
    (accountCall 100 (Except.ok ("access-1", "refresh-1"))) authB authB
    { Email := "nobody@shop.test", Password := "secret" }
    { Email := "u@shop.test", Password := "guess" }
    { userU with Password := "hash:secret" } (by decide) rfl (by decide)).2.2

/-- C24: when an active account has the email and `CheckPassword` rejects the
password against every active account with that email, the account lookup finds
an account when the store does not fail, and `Login` returns `invalid
credentials` with the state unchanged: no refresh-token record is created and
nothing is handed to the publisher. -/
theorem Login_wrong_password (env : AccountCall) (st : AuthState) (req : LoginRequest)
    (user : User) (hu : user ∈ st.users) (he : user.Email = req.Email)
    (ha : user.IsActive = true)
    (hpw : ∀ u ∈ st.users, u.Email = req.Email → u.IsActive = true →
      env.CheckPassword req.Password u.Password = false) :
    (∃ found, GetByEmailAndActive false st req.Email true = Except.ok found) ∧
    AuthService.Login env st req = (st, Except.error "invalid credentials") ∧
    (AuthService.Login env st req).1.refreshTokens = st.refreshTokens ∧
    (AuthService.Login env st req).1.published = st.published := by
  have key : AuthService.Login env st req = (st, Except.error "invalid credentials") := by
    cases hl : GetByEmailAndActive env.getByEmailFails st req.Email true with
    | error e => exact Login_lookup_error env st req e hl
    | ok found =>
      obtain ⟨hmem, hem, hact⟩ := GetByEmailAndActive_ok _ _ _ _ hl
      exact Login_password_error env st req found hl (hpw found hmem hem hact)
  refine ⟨GetByEmailAndActive_some st req.Email user hu he ha, key, ?_, ?_⟩
  · rw [key]
  · rw [key]

theorem Login_wrong_password_witness :
    AuthService.Login (accountCall 100 (Except.ok ("access-1", "refresh-1"))) authB
        { Email := "u@shop.test", Password := "guess" } =
      (authB, Except.error "invalid credentials") :=
  (Login_wrong_password (accountCall 100 (Except.ok ("access-1", "refresh-1"))) authB
    { Email := "u@shop.test", Password := "guess" } { userU with Password := "hash:secret" }
    (by decide) rfl rfl (by decide)).2.1

/-- C25 (as stated, refuted): the account of `authB` has the email `u@shop.test`.
When the lookup by email fails in the store, `Register` takes the error for "no
such account": it returns a token pair, and the table of users then holds two
accounts with that email. -/
theorem Register_after_failed_lookup :
    authB.users.map (fun u => u.Email) = ["u@shop.test"] ∧
      ∃ st1 resp, AuthService.Register
          { accountCall 100 (Except.ok ("access-1", "refresh-1")) with getByEmailFails := true }
          authB { Email := "u@shop.test", Password := "other", FirstName := "W",
                  LastName := "X", Phone := "" } = (st1, Except.ok resp) ∧
        st1.users.map (fun u => (u.ID, u.Email)) = [(1, "u@shop.test"), (2, "u@shop.test")] ∧
        st1.refreshTokens.map (fun r => (r.UserID, r.Token)) = [(2, "refresh-1")] ∧
        st1.published = [("USER_LOGGED_IN", 2)] :=
  ⟨by decide, _, _, rfl, by decide, by decide, by decide⟩

/-- C25 (amended): when an account has the email and the lookup by email does not
fail in the store, `Register` returns the error `you can't register with this
email` and the state is unchanged: no user, cart or refresh-token record is
created and no event is published. -/
theorem Register_existing_email (env : AccountCall) (st : AuthState) (req : RegisterRequest)
    (user : User) (hu : user ∈ st.users) (he : user.Email = req.Email)
    (hf : env.getByEmailFails = false) :
    AuthService.Register env st req = (st, Except.error "you can't register with this email") ∧
    (AuthService.Register env st req).1.users = st.users ∧
    (AuthService.Register env st req).1.shop.carts = st.shop.carts ∧
    (AuthService.Register env st req).1.refreshTokens = st.refreshTokens ∧
    (AuthService.Register env st req).1.published = st.published := by
  have key : AuthService.Register env st req =
      (st, Except.error "you can't register with this email") := by
    obtain ⟨found, hfound⟩ := GetByEmail_some st req.Email user hu he
    unfold AuthService.Register
    rw [hf]
    simp only [hfound]
  rw [key]
  exact ⟨rfl, rfl, rfl, rfl, rfl⟩

theorem Register_existing_email_witness :
    AuthService.Register (accountCall 100 (Except.ok ("access-1", "refresh-1"))) authB
        { Email := "u@shop.test", Password := "other", FirstName := "W", LastName := "X",
          Phone := "" } =
      (authB, Except.error "you can't register with this email") :=
  (Register_existing_email (accountCall 100 (Except.ok ("access-1", "refresh-1"))) authB
    { Email := "u@shop.test", Password := "other", FirstName := "W", LastName := "X",
      Phone := "" } { userU with Password := "hash:secret" } (by decide) rfl rfl).1

/-- C26 (as stated, refuted): `refresh-0` is valid, stored in `authA` and
unexpired, and the publisher fails.  When the delete of the old record fails as
well, the failure is logged and ignored, `RefreshToken` returns the publish error
and the old record is still in the store, beside the new one.  When the insert of
the new record fails, `RefreshToken` returns the publish error and the call has
left no record. -/
theorem publish_error_old_record_kept :
    authA.refreshTokens.map (fun r => r.Token) = ["refresh-0"] ∧
      (∃ st1, AuthService.RefreshToken
          { authCall 100 (Except.ok ("access-1", "refresh-1")) with
            deleteByIDFails := true, publishFails := some "broker down" }
          authA { RefreshToken := "refresh-0" } =
          (st1, Except.error "unable to publish user login event: broker down") ∧
        st1.refreshTokens.map (fun r => r.Token) = ["refresh-0", "refresh-1"]) ∧
      (∃ st1, AuthService.RefreshToken
          { authCall 100 (Except.ok ("access-1", "refresh-1")) with
            createTokenFails := true, publishFails := some "broker down" }
          authA { RefreshToken := "refresh-0" } =
          (st1, Except.error "unable to publish user login event: broker down") ∧
        st1.refreshTokens = []) :=
  ⟨by decide, ⟨_, rfl, by decide⟩, ⟨_, rfl, by decide⟩⟩

/-- C26 (amended): when the publisher returns an error, each of `Login`,
`Register` and `RefreshToken`, having passed its checks and generated a token
pair, returns the publish error and no response, and publishes nothing.  The
refresh-token record of the call is then in the store, after the records that
were there, when its insert succeeded, and the table is as it was when the insert
failed (the failure is logged and ignored).  For `RefreshToken` the records that
were there are those other than the old one when the delete of the old record
succeeded, and all of them when it failed (which is logged and ignored too). -/
theorem publish_error_after_token_created (env : AccountCall) (st : AuthState) (e : String)
    (hp : env.publishFails = some e) :
    (∀ (req : LoginRequest) (user : User) (a r : String),
      GetByEmailAndActive env.getByEmailFails st req.Email true = Except.ok user →
      env.CheckPassword req.Password user.Password = true →
      env.GenerateTokenPair user.ID user.Email user.Role = Except.ok (a, r) →
      ∃ st1, AuthService.Login env st req =
          (st1, Except.error ("unable to publish user login event: " ++ e)) ∧
        st1.published = st.published ∧
        (env.createTokenFails = true → st1.refreshTokens = st.refreshTokens) ∧
        (env.createTokenFails = false →
          ∃ k, (∀ x ∈ st.refreshTokens, x.ID ≠ k) ∧
            st1.refreshTokens = st.refreshTokens ++
              [{ newRefreshToken env.toAuthCall user r with ID := k }])) ∧
    (∀ (req : RegisterRequest) (e0 hashed a r : String),
      GetByEmail env.getByEmailFails st req.Email = Except.error e0 →
      env.HashPassword req.Password = Except.ok hashed →
      env.createUserFails = Option.none →
      env.GenerateTokenPair (createdUser env st (newUser env req hashed)).ID req.Email
        env.UserRoleCustomer = Except.ok (a, r) →
      ∃ st1, AuthService.Register env st req =
          (st1, Except.error ("unable to publish user login event: " ++ e)) ∧
        st1.published = st.published ∧
        st1.users = st.users ++ [createdUser env st (newUser env req hashed)] ∧
        (env.createTokenFails = true → st1.refreshTokens = st.refreshTokens) ∧
        (env.createTokenFails = false →
          ∃ k, (∀ x ∈ st.refreshTokens, x.ID ≠ k) ∧
            st1.refreshTokens = st.refreshTokens ++
              [{ newRefreshToken env.toAuthCall (createdUser env st (newUser env req hashed)) r
                  with ID := k }])) ∧
    (∀ (req : RefreshTokenRequest) (claims : Claims) (old : RefreshToken) (user : User)
      (a r : String),
      env.ValidateToken req.RefreshToken = Except.ok claims →
      GetValidRefreshToken env.getValidFails env.now st req.RefreshToken = Except.ok old →
      GetByID env.getUserFails st claims.UserID = Except.ok user →
      env.GenerateTokenPair user.ID user.Email user.Role = Except.ok (a, r) →
      ∃ st1 kept, AuthService.RefreshToken env.toAuthCall st req =
          (st1, Except.error ("unable to publish user login event: " ++ e)) ∧
        st1.published = st.published ∧ old ∈ st.refreshTokens ∧
        (env.deleteByIDFails = true → kept = st.refreshTokens) ∧
        (env.deleteByIDFails = false →
          kept = st.refreshTokens.filter (fun x => ¬ x.ID = old.ID) ∧ old ∉ kept) ∧
        (env.createTokenFails = true → st1.refreshTokens = kept) ∧
        (env.createTokenFails = false →
          ∃ k, (∀ x ∈ kept, x.ID ≠ k) ∧
            st1.refreshTokens = kept ++
              [{ newRefreshToken env.toAuthCall user r with ID := k }])) := by
  refine ⟨?_, ?_, ?_⟩
  · intro req user a r hl hpw hg
    obtain ⟨hpub, -, hcfail, hcok⟩ := afterCreate_rows env.toAuthCall st user r
    refine ⟨afterCreate env.toAuthCall st user r, ?_, hpub,
      fun hc => by rw [hcfail hc], hcok⟩
    rw [Login_passed env st req user hl hpw]
    exact generateAuthResponse_publish_error env.toAuthCall st user a r e hg hp
  · intro req e0 hashed a r hl hh hcu hg
    obtain ⟨ht, hus, hpb⟩ := afterCartCreate_auth env
      { st with users := st.users ++ [createdUser env st (newUser env req hashed)] }
      (createdUser env st (newUser env req hashed)).ID
    obtain ⟨hpub, husers, hcfail, hcok⟩ := afterCreate_rows env.toAuthCall
      (afterCartCreate env
        { st with users := st.users ++ [createdUser env st (newUser env req hashed)] }
        (createdUser env st (newUser env req hashed)).ID)
      (createdUser env st (newUser env req hashed)) r
    refine ⟨afterCreate env.toAuthCall (afterCartCreate env
      { st with users := st.users ++ [createdUser env st (newUser env req hashed)] }
      (createdUser env st (newUser env req hashed)).ID)
      (createdUser env st (newUser env req hashed)) r, ?_, ?_, ?_, ?_, ?_⟩
    · rw [Register_passed env st req e0 hashed hl hh hcu]
      exact generateAuthResponse_publish_error env.toAuthCall _ _ a r e hg hp
    · rw [hpub, hpb]
    · rw [husers, hus]
    · intro hc
      rw [hcfail hc, ht]
    · intro hc
      obtain ⟨k, hk, hrows⟩ := hcok hc
      rw [ht] at hk hrows
      exact ⟨k, hk, hrows⟩
  · intro req claims old user a r hv hr hu hg
    obtain ⟨hdpub, -, hdfail, hdok⟩ := afterDelete_rows env.toAuthCall st old.ID
    obtain ⟨hpub, -, hcfail, hcok⟩ :=
      afterCreate_rows env.toAuthCall (afterDelete env.toAuthCall st old.ID) user r
    refine ⟨afterCreate env.toAuthCall (afterDelete env.toAuthCall st old.ID) user r,
      (afterDelete env.toAuthCall st old.ID).refreshTokens, ?_, ?_,
      (GetValidRefreshToken_ok _ _ _ _ _ hr).1, ?_, ?_, ?_, hcok⟩
    · rw [RefreshToken_passed env.toAuthCall st req claims old user hv hr hu]
      exact generateAuthResponse_publish_error env.toAuthCall _ user a r e hg hp
    · rw [hpub, hdpub]
    · intro hd
      rw [hdfail hd]
    · intro hd
      refine ⟨hdok hd, ?_⟩
      rw [hdok hd]
      simp
    · intro hc
      rw [hcfail hc]

theorem publish_error_after_token_created_witness :
    ∃ st1, AuthService.Login
        { accountCall 100 (Except.ok ("access-1", "refresh-1")) with
          publishFails := some "broker down" }
        authB { Email := "u@shop.test", Password := "secret" } =
        (st1, Except.error "unable to publish user login event: broker down") ∧
      st1.refreshTokens.map (fun r => (r.UserID, r.Token, r.ExpiresAt)) =
        [(1, "refresh-1", 150)] ∧
      st1.published = [] := by
  obtain ⟨st1, h1, h2, -, -⟩ := (publish_error_after_token_created
    { accountCall 100 (Except.ok ("access-1", "refresh-1")) with
      publishFails := some "broker down" }
    authB "broker down" rfl).1 { Email := "u@shop.test", Password := "secret" }
    { userU with Password := "hash:secret" } "access-1" "refresh-1" rfl rfl rfl
  refine ⟨st1, h1, ?_, h2⟩
  have hst : st1 = (AuthService.Login
      { accountCall 100 (Except.ok ("access-1", "refresh-1")) with
        publishFails := some "broker down" }
      authB { Email := "u@shop.test", Password := "secret" }).1 := by rw [h1]
  rw [hst]
  decide

/-- C27 (as stated, refuted): the store `authC` holds a record of the token
`refresh-0`, the token library issues `refresh-0` once more and the insert of the
record fails.  `Login` returns the pair; the returned refresh token is in the
store and a subsequent `RefreshToken` with it succeeds. -/
theorem Login_returns_stored_token :
    ∃ st1 resp st2 resp2,
      AuthService.Login
          { accountCall 100 (Except.ok ("access-1", "refresh-0")) with createTokenFails := true }
          authC { Email := "u@shop.test", Password := "secret" } = (st1, Except.ok resp) ∧
        resp.RefreshToken = "refresh-0" ∧
        st1.refreshTokens.map (fun r => r.Token) = ["refresh-0"] ∧
        AuthService.RefreshToken (authCall 101 (Except.ok ("access-2", "refresh-2"))) st1
          { RefreshToken := resp.RefreshToken } = (st2, Except.ok resp2) :=
  ⟨_, _, _, _, rfl, rfl, by decide, rfl⟩

/-- C27 (amended): when the insert of the refresh-token record fails while the
token pair is generated and the publisher accepts the event, `Login` with valid
credentials still returns a response carrying the access token and the refresh
token, and the refresh-token records are the ones held before.  The returned
token therefore has a record only if one with its value was stored already; when
none was, every later `RefreshToken` with it fails. -/
theorem Login_ignores_failed_token_insert (env : AccountCall) (st : AuthState)
    (req : LoginRequest) (user : User) (a r : String)
    (hl : GetByEmailAndActive env.getByEmailFails st req.Email true = Except.ok user)
    (hpw : env.CheckPassword req.Password user.Password = true)
    (hg : env.GenerateTokenPair user.ID user.Email user.Role = Except.ok (a, r))
    (hc : env.createTokenFails = true) (hp : env.publishFails = Option.none) :
    ∃ st1 resp, AuthService.Login env st req = (st1, Except.ok resp) ∧
      resp.AccessToken = a ∧ resp.RefreshToken = r ∧
      st1.refreshTokens = st.refreshTokens ∧
      ((∀ row ∈ st.refreshTokens, row.Token ≠ r) →
        (∀ row ∈ st1.refreshTokens, row.Token ≠ resp.RefreshToken) ∧
        ∀ env2, ∃ e, AuthService.RefreshToken env2 st1 { RefreshToken := resp.RefreshToken } =
          (st1, Except.error e)) := by
  have hrun := generateAuthResponse_ok env.toAuthCall st user a r hg hp
  rw [afterCreate_fails env.toAuthCall st user r hc] at hrun
  refine ⟨{ st with published := st.published ++ [("USER_LOGGED_IN", user.ID)] },
    authResponse user a r, ?_, rfl, rfl, rfl, ?_⟩
  · rw [Login_passed env st req user hl hpw]
    exact hrun
  · intro hnew
    exact ⟨hnew, fun env2 => RefreshToken_rejects_unknown env2 _ r hnew⟩

theorem Login_ignores_failed_token_insert_witness :
    (∀ row ∈ authB.refreshTokens, row.Token ≠ "refresh-1") ∧
      ∃ st1 resp, AuthService.Login
          { accountCall 100 (Except.ok ("access-1", "refresh-1")) with createTokenFails := true }
          authB { Email := "u@shop.test", Password := "secret" } = (st1, Except.ok resp) ∧
        resp.AccessToken = "access-1" ∧ resp.RefreshToken = "refresh-1" ∧
        st1.refreshTokens = authB.refreshTokens ∧
        ∀ env2, ∃ e, AuthService.RefreshToken env2 st1 { RefreshToken := resp.RefreshToken } =
          (st1, Except.error e) := by
  obtain ⟨st1, resp, h1, h2, h3, h4, h5⟩ := Login_ignores_failed_token_insert
    { accountCall 100 (Except.ok ("access-1", "refresh-1")) with createTokenFails := true }
    authB { Email := "u@shop.test", Password := "secret" }
    { userU with Password := "hash:secret" } "access-1" "refresh-1" rfl rfl rfl rfl rfl
  exact ⟨by decide, st1, resp, h1, h2, h3, h4, (h5 (by decide)).2⟩

/-! ## Product search -/

/-- C28 (the code diverges): `ProductService.SearchProducts` hands the request's
`MaxPrice` to the repository twice, as minimum and as maximum price, and never
reads `MinPrice`: the result is the same whatever `MinPrice` holds.  Over the
products P (10.00), Q (4.00) and R (7.00) a search with `min_price=8` and no
`max_price` returns all three, while the repository given that minimum and no
maximum returns P alone. -/
theorem SearchProducts_ignores_MinPrice :
    (∀ (fails : Option String) (eng : SearchEngine) (s : Store) (req : SearchProductsRequest)
        (m : Option ℚ),
      ProductService.SearchProducts fails eng s { req with MinPrice := m } =
        ProductService.SearchProducts fails eng s req) ∧
    (∃ results meta,
      ProductService.SearchProducts Option.none engineAll storeC searchFrom8 =
        Except.ok (results, meta) ∧
      results.map (fun r => r.ProductResponse.ID) = [1, 2, 3] ∧ meta.Total = 3) ∧
    (∃ rows,
      ProductRepository.SearchProducts Option.none engineAll storeC "x" Option.none (some 8)
        Option.none 0 10 = Except.ok (rows, 1) ∧
      rows.map (fun r => r.Product.ID) = [1]) := by
  refine ⟨fun _ _ _ _ _ => rfl, ⟨_, _, rfl, by decide, by decide⟩, ?_⟩
  have hf : storeC.products.filter
      (searchFilter engineAll "x" Option.none (some 8) Option.none) = [productP] := by
    simp [storeC, storeB, searchFilter, engineAll, productP, productQ, productR, List.filter]
    norm_num
  refine ⟨[{ Product := productP, Rank := 1 }], ?_, rfl⟩
  unfold ProductRepository.SearchProducts
  simp only [hf]
  rfl

/-! ## Pagination -/

theorem wrap64_sub_one (x : Int) : wrap64 (wrap64 x - 1) = wrap64 (x - 1) := by
  unfold wrap64
  have h : (x + 2 ^ 63) % 2 ^ 64 - 2 ^ 63 - 1 + 2 ^ 63 = (x + 2 ^ 63) % 2 ^ 64 - 1 := by ring
  rw [h, Int.sub_emod, Int.emod_emod_of_dvd _ (dvd_refl _), ← Int.sub_emod]
  have h2 : x - 1 + 2 ^ 63 = x + 2 ^ 63 - 1 := by ring
  rw [h2]

theorem pageOffset_exact (page limit : Int) (hp : 1 ≤ page) (hl : 1 ≤ limit)
    (h : (page - 1) * limit < 2 ^ 63) :
    pageOffset page limit = (page - 1) * limit ∧ 0 ≤ pageOffset page limit := by
  have h0 : 0 ≤ page - 1 := by omega
  have hmul : 0 ≤ (page - 1) * limit := Int.mul_nonneg h0 (by omega)
  have hle : page - 1 ≤ (page - 1) * limit := by nlinarith
  have hw : wrap64 (page - 1) = page - 1 := wrap64_of_range _ (by omega) (by omega)
  unfold pageOffset
  rw [hw, wrap64_of_range _ (by omega) h]
  exact ⟨rfl, hmul⟩

theorem totalPages_exact (total limit : Int) (ht : 0 ≤ total) (hl : 1 ≤ limit)
    (h : total + limit - 1 < 2 ^ 63) :
    totalPages total limit = (total + limit - 1) / limit ∧
      IsCeilingOf (totalPages total limit) total limit := by
  have hval : totalPages total limit = (total + limit - 1) / limit := by
    unfold totalPages
    rw [wrap64_sub_one, wrap64_of_range _ (by omega) h]
    exact Int.tdiv_eq_ediv (by omega) (by omega)
  have hpos : 0 < limit := by omega
  refine ⟨hval, ?_⟩
  rw [hval]
  refine ⟨?_, ?_, ?_⟩
  · intro h0
    subst h0
    exact Int.ediv_eq_zero_of_lt (by omega) (by omega)
  · have h1 := Int.emod_add_ediv (total + limit - 1) limit
    have h2 := Int.emod_lt_of_pos (total + limit - 1) hpos
    have h3 : limit * ((total + limit - 1) / limit) = (total + limit - 1) / limit * limit :=
      Int.mul_comm _ _
    omega
  · intro m hm
    have h1 : (total + limit - 1) / limit * limit ≤ total + limit - 1 :=
      Int.ediv_mul_le _ (by omega)
    by_contra hcon
    have h2 : m + 1 ≤ (total + limit - 1) / limit := by omega
    have h3 : (m + 1) * limit ≤ (total + limit - 1) / limit * limit :=
      Int.mul_le_mul_of_nonneg_right h2 (by omega)
    have h4 : (m + 1) * limit = m * limit + limit := by ring
    omega

theorem specOrdersLimit_bounds (limit : Int) :
    1 ≤ specOrdersLimit limit ∧ specOrdersLimit limit ≤ 100 := by
  unfold specOrdersLimit
  split_ifs <;> omega

theorem specPage_pos (page : Int) : 1 ≤ specPage page := by
  unfold specPage
  split_ifs <;> omega

theorem orders_limit_eq (limit : Int) :
    (if (if limit < 1 then 10 else limit) > 100 then 100 else if limit < 1 then 10 else limit) =
      specOrdersLimit limit := by
  unfold specOrdersLimit
  split_ifs <;> omega

theorem GetOrders_run (fl : OrderFaults) (s : Store) (userID : Nat) (page limit total : Int)
    (hc : GetOrdersCount fl.count s userID = Except.ok total) :
    OrderService.GetOrders fl s userID page limit =
      match OrderRepository.GetOrders fl.find s userID
          (pageOffset (specPage page) (specOrdersLimit limit)) (specOrdersLimit limit) with
      | .error err => Outcome.err err
      | .ok orders =>
        Outcome.ok (orders.map convertToOrderResponse,
          { Page := specPage page, Limit := specOrdersLimit limit, Total := total,
            TotalPages := totalPages total (specOrdersLimit limit) }) := by
  unfold OrderService.GetOrders
  simp only [hc, orders_limit_eq]
  rfl

theorem GetProducts_run (fl : OrderFaults) (s : Store) (page limit total : Int)
    (hc : GetProductsCountByStatus fl.count s true = Except.ok total) :
    ProductService.GetProducts fl s page limit =
      match GetProductsByStatus fl.find s true
          (pageOffset (specPage page) (specProductsLimit limit)) (specProductsLimit limit) with
      | .error err => Except.error err
      | .ok products =>
        Except.ok (products.map toProductResponse,
          { Page := specPage page, Limit := specProductsLimit limit, Total := total,
            TotalPages := totalPages total (specProductsLimit limit) }) := by
  unfold ProductService.GetProducts
  simp only [hc]
  rfl

/-- C29 (as stated, refuted): for `page=99999999999999999999` the handler passes
the largest `int`; with limit 100 the product `(page - 1) × 100` leaves the range
of `int` and the offset `GetOrders` computes is -200, while the call returns
normally with that page and limit 100 in the meta. -/
theorem GetOrders_offset_negative :
    specPage maxInt = maxInt ∧ specOrdersLimit 100 = 100 ∧
      pageOffset maxInt 100 = -200 ∧
      OrderService.GetOrders { count := Option.none, find := Option.none } storeA 7 maxInt 100 =
        Outcome.ok ([], { Page := maxInt, Limit := 100, Total := 0, TotalPages := 0 }) :=
  ⟨by decide, by decide, by decide, by decide⟩

/-- C29 (amended): for all `page` and `limit`, with page' = 1 if page < 1 (else
page) and limit' = 10 if limit < 1, 100 if limit > 100 (else limit), limit' lies
between 1 and 100 and page' is at least 1; in a call whose count query succeeds,
`OrderService.GetOrders` queries the repository with the offset
`(page' - 1) * limit'` computed as `int`s and the limit limit', and reports page'
and limit' in the meta.  The offset equals (page' − 1) × limit' and is at least 0
whenever that product is below 2^63. -/
theorem GetOrders_paging (fl : OrderFaults) (s : Store) (userID : Nat) (page limit : Int) :
    1 ≤ specPage page ∧ 1 ≤ specOrdersLimit limit ∧ specOrdersLimit limit ≤ 100 ∧
    (∀ total, GetOrdersCount fl.count s userID = Except.ok total →
      OrderService.GetOrders fl s userID page limit =
        match OrderRepository.GetOrders fl.find s userID
            (pageOffset (specPage page) (specOrdersLimit limit)) (specOrdersLimit limit) with
        | .error err => Outcome.err err
        | .ok orders =>
          Outcome.ok (orders.map convertToOrderResponse,
            { Page := specPage page, Limit := specOrdersLimit limit, Total := total,
              TotalPages := totalPages total (specOrdersLimit limit) })) ∧
    ((specPage page - 1) * specOrdersLimit limit < 2 ^ 63 →
      pageOffset (specPage page) (specOrdersLimit limit) =
          (specPage page - 1) * specOrdersLimit limit ∧
        0 ≤ pageOffset (specPage page) (specOrdersLimit limit)) := by
  refine ⟨specPage_pos page, (specOrdersLimit_bounds limit).1, (specOrdersLimit_bounds limit).2,
    fun total hc => GetOrders_run fl s userID page limit total hc, ?_⟩
  intro h
  exact pageOffset_exact _ _ (specPage_pos page) (specOrdersLimit_bounds limit).1 h

theorem GetOrders_paging_witness :
    (specPage 3 - 1) * specOrdersLimit 250 < 2 ^ 63 ∧
      pageOffset (specPage 3) (specOrdersLimit 250) = 200 ∧
      OrderService.GetOrders { count := Option.none, find := Option.none } storeA 7 3 250 =
        Outcome.ok ([], { Page := 3, Limit := 100, Total := 0, TotalPages := 0 }) := by
  have h := GetOrders_paging { count := Option.none, find := Option.none } storeA 7 3 250
  refine ⟨by decide, ?_, ?_⟩
  · rw [(h.2.2.2.2 (by decide)).1]
    decide
  · rw [h.2.2.2.1 0 rfl]
    decide

/-- C30 (as stated, refuted): with three active products, `GetProducts` called
with `limit=9223372036854775807` (the largest `int`, which is not capped) reports
Total 3, that limit and TotalPages -1: the sum `total + limit` leaves the range of
`int64`.  The ceiling of 3 / limit is 1. -/
theorem GetProducts_total_pages_negative :
    (∃ rows, ProductService.GetProducts { count := Option.none, find := Option.none } storeC 1
        maxInt =
      Except.ok (rows, { Page := 1, Limit := maxInt, Total := 3, TotalPages := -1 })) ∧
    totalPages 3 maxInt = -1 ∧ 0 ≤ (3 : Int) ∧ 1 ≤ maxInt ∧ ¬ IsCeilingOf (-1) 3 maxInt := by
  refine ⟨⟨_, rfl⟩, by decide, by decide, by decide, ?_⟩
  intro h
  have h2 := h.2.1
  unfold maxInt at h2
  omega

/-- C30 (amended): for every total ≥ 0 and effective limit ≥ 1 with
total + limit − 1 below 2^63, the TotalPages computed by both services is
(total + limit − 1) / limit, the ceiling of total / limit: 0 when total is 0 and
otherwise the least n with n × limit ≥ total.  `OrderService.GetOrders`, whose
limit is at most 100, reports this value for every total up to 2^63 − 100;
`ProductService.GetProducts`, whose limit has no upper bound, reports it whenever
total + limit − 1 is below 2^63. -/
theorem TotalPages_is_ceiling :
    (∀ total limit : Int, 0 ≤ total → 1 ≤ limit → total + limit - 1 < 2 ^ 63 →
      totalPages total limit = (total + limit - 1) / limit ∧
        IsCeilingOf (totalPages total limit) total limit) ∧
    (∀ (fl : OrderFaults) (s : Store) (userID : Nat) (page limit : Int)
        (orders : List OrderResponse) (meta : PaginationMeta),
      OrderService.GetOrders fl s userID page limit = Outcome.ok (orders, meta) →
      meta.Total ≤ 2 ^ 63 - 100 →
      0 ≤ meta.Total ∧ 1 ≤ meta.Limit ∧ IsCeilingOf meta.TotalPages meta.Total meta.Limit) ∧
    (∀ (fl : OrderFaults) (s : Store) (page limit : Int)
        (rows : List ProductResponse) (meta : PaginationMeta),
      ProductService.GetProducts fl s page limit = Except.ok (rows, meta) →
      meta.Total + meta.Limit - 1 < 2 ^ 63 →
      0 ≤ meta.Total ∧ 1 ≤ meta.Limit ∧ IsCeilingOf meta.TotalPages meta.Total meta.Limit) := by
  refine ⟨fun total limit ht hl h => totalPages_exact total limit ht hl h, ?_, ?_⟩
  · intro fl s userID page limit orders meta hrun hbound
    cases hc : GetOrdersCount fl.count s userID with
    | error e =>
      unfold OrderService.GetOrders at hrun
      simp [hc] at hrun
    | ok total =>
      have ht : 0 ≤ total := by
        unfold GetOrdersCount at hc
        cases hf : fl.count with
        | some e => simp [hf] at hc
        | none =>
          simp only [hf, Except.ok.injEq] at hc
          rw [← hc]
          exact Int.natCast_nonneg _
      rw [GetOrders_run fl s userID page limit total hc] at hrun
      cases hfind : OrderRepository.GetOrders fl.find s userID
          (pageOffset (specPage page) (specOrdersLimit limit)) (specOrdersLimit limit) with
      | error e => simp [hfind] at hrun
      | ok found =>
        simp only [hfind, Outcome.ok.injEq, Prod.mk.injEq] at hrun
        obtain ⟨-, hmeta⟩ := hrun
        rw [← hmeta] at hbound ⊢
        have hb := specOrdersLimit_bounds limit
        simp only at hbound ⊢
        exact ⟨ht, hb.1, (totalPages_exact total _ ht hb.1 (by omega)).2⟩
  · intro fl s page limit rows meta hrun hbound
    cases hc : GetProductsCountByStatus fl.count s true with
    | error e =>
      unfold ProductService.GetProducts at hrun
      simp [hc] at hrun
    | ok total =>
      have ht : 0 ≤ total := by
        unfold GetProductsCountByStatus at hc
        cases hf : fl.count with
        | some e => simp [hf] at hc
        | none =>
          simp only [hf, Except.ok.injEq] at hc
          rw [← hc]
          exact Int.natCast_nonneg _
      have hl : 1 ≤ specProductsLimit limit := by
        unfold specProductsLimit
        split_ifs <;> omega
      rw [GetProducts_run fl s page limit total hc] at hrun
      cases hfind : GetProductsByStatus fl.find s true
          (pageOffset (specPage page) (specProductsLimit limit)) (specProductsLimit limit) with
      | error e => simp [hfind] at hrun
      | ok found =>
        simp only [hfind, Except.ok.injEq, Prod.mk.injEq] at hrun
        obtain ⟨-, hmeta⟩ := hrun
        rw [← hmeta] at hbound ⊢
        simp only at hbound ⊢
        exact ⟨ht, hl, (totalPages_exact total _ ht hl hbound).2⟩

theorem TotalPages_is_ceiling_witness :
    totalPages 21 10 = 3 ∧ IsCeilingOf (totalPages 21 10) 21 10 ∧
      ∃ rows, ProductService.GetProducts { count := Option.none, find := Option.none } storeC 1 2 =
        Except.ok (rows, { Page := 1, Limit := 2, Total := 3, TotalPages := 2 }) :=
  ⟨by decide,
    (TotalPages_is_ceiling.1 21 10 (by decide) (by decide) (by decide)).2,
    ⟨_, rfl⟩⟩

end Shop
